import Mathlib

/-!
The engine of mjbots/quad, `mech/quadruped_control.cc`

A shallow embedding of `QuadrupedControl::Impl`: the cycle scheduler
(`HandleTimer`, `HandleStatus`, `HandleCommand`), the snapshot builder
(`UpdateStatus`), the mode machine (`RunControl`, `MaybeChangeMode`), the
per-mode controllers and the wire marshalling (`EmitControl`).

Conventions of the embedding.

* A member function `void f()` of `Impl` becomes `f : Extern → Impl → Option Impl`;
  `none` is an abort of the process (`AssertNotReached`, `FailIf`, `BOOST_ASSERT`).
* Collaborators whose code is not part of `quadruped_control.cc` (the moteus
  codec, the inverse-kinematics solver, the rigid transforms, the executor clock,
  the conversion of a duration to seconds) are the fields of `Extern`; every
  theorem holds for all of them.
* Externally visible actions (bus transactions, telemetry signals, log lines)
  are appended to the ghost field `Impl.trace_`; bus transactions that have been
  issued and whose completion handler has not run yet are in the ghost field
  `Impl.pending_`.
-/

namespace Quad


/-! ## Numbers and time -/

/-- The values of a C++ `double`: not-a-number, the two infinities and the finite
values.  Finite values are rationals and arithmetic on them is exact; rounding is
not modelled, and the two zeros are identified. -/
inductive Dbl where
  | nan
  | pinf
  | ninf
  | fin (q : ℚ)
  deriving DecidableEq

namespace Dbl

instance : Inhabited Dbl := ⟨fin 0⟩

/-- The literal `0.0`. -/
def zero : Dbl := fin 0

/-- C++ `x != y` on doubles: a NaN is different from everything. -/
def ne : Dbl → Dbl → Bool
  | nan, _ => true
  | _, nan => true
  | pinf, pinf => false
  | ninf, ninf => false
  | fin a, fin b => decide (a ≠ b)
  | _, _ => true

/-- C++ `x > y` on doubles: false as soon as one side is a NaN. -/
def gt : Dbl → Dbl → Bool
  | nan, _ => false
  | _, nan => false
  | pinf, pinf => false
  | pinf, _ => true
  | ninf, _ => false
  | fin _, pinf => false
  | fin _, ninf => true
  | fin a, fin b => decide (b < a)

/-- C++ `x < y` on doubles. -/
def lt (x y : Dbl) : Bool := gt y x

/-- Unary minus. -/
def neg : Dbl → Dbl
  | nan => nan
  | pinf => ninf
  | ninf => pinf
  | fin a => fin (-a)

/-- C++ `x * y` on doubles. -/
def mul : Dbl → Dbl → Dbl
  | nan, _ => nan
  | _, nan => nan
  | fin a, fin b => fin (a * b)
  | pinf, pinf => pinf
  | pinf, ninf => ninf
  | ninf, pinf => ninf
  | ninf, ninf => pinf
  | pinf, fin b => if b = 0 then nan else if 0 < b then pinf else ninf
  | ninf, fin b => if b = 0 then nan else if 0 < b then ninf else pinf
  | fin a, pinf => if a = 0 then nan else if 0 < a then pinf else ninf
  | fin a, ninf => if a = 0 then nan else if 0 < a then ninf else pinf

/-- C++ `x - y` on doubles. -/
def sub : Dbl → Dbl → Dbl
  | nan, _ => nan
  | _, nan => nan
  | fin a, fin b => fin (a - b)
  | pinf, pinf => nan
  | ninf, ninf => nan
  | pinf, _ => pinf
  | ninf, _ => ninf
  | fin _, pinf => ninf
  | fin _, ninf => pinf

/-- The function `std::abs` on doubles. -/
def abs : Dbl → Dbl
  | nan => nan
  | pinf => pinf
  | ninf => pinf
  | fin a => fin |a|

/-- Conversion `int → double` (exact). -/
def ofInt (i : Int) : Dbl := fin i

/-- Conversion `double → int`: truncation toward zero.  The conversion is
undefined for a NaN, an infinity and a value whose truncation does not fit a
32-bit `int`. -/
def toInt : Dbl → Option Int
  | fin a =>
      let t := Int.tdiv a.num a.den
      if -2147483648 ≤ t ∧ t ≤ 2147483647 then some t else none
  | _ => none

end Dbl

/-- A `boost::posix_time::ptime`, counted in microseconds. -/
abbrev Time := Int

/-- An Eigen three-vector (`base::Point3D`). -/
structure Point3D where
  x : Dbl
  y : Dbl
  z : Dbl
  deriving DecidableEq

instance : Inhabited Point3D := ⟨⟨Dbl.zero, Dbl.zero, Dbl.zero⟩⟩

/-- A rigid transform (`Sophus::SE3d`): a unit quaternion and a translation.  The
operations on it are collaborators, see `Extern`. -/
structure SE3 where
  qw : Dbl
  qx : Dbl
  qy : Dbl
  qz : Dbl
  translation : Point3D
  deriving DecidableEq

/-- The identity transform, the value of a default-constructed `Sophus::SE3d`. -/
def SE3.identity : SE3 := ⟨Dbl.fin 1, Dbl.zero, Dbl.zero, Dbl.zero, default⟩

instance : Inhabited SE3 := ⟨SE3.identity⟩

/-! ## The actuator wire protocol (`mech/moteus.h`) -/

/-- A register value on the wire (`moteus::Value`, a variant over the four
encodings). -/
inductive Value where
  | kInt8 (v : Int)
  | kInt16 (v : Int)
  | kInt32 (v : Int)
  | kFloat (v : Dbl)
  deriving DecidableEq

/-- A value-initialised `moteus::Value` holds its first alternative. -/
instance : Inhabited Value := ⟨Value.kInt8 0⟩

/-- The encoding asked of an encoder (`moteus::Resolution`). -/
inductive Resolution where
  | kInt8
  | kInt16
  | kInt32
  | kFloat
  deriving DecidableEq

/-- Modelled from the spec: the register map of `mech/moteus.h`, a header outside
`quadruped_control.cc`; the numbers are those of the external-interface section. -/
abbrev Register := Int

def kMode : Register := 0x00

def kPosition : Register := 0x01

def kVelocity : Register := 0x02

def kTorque : Register := 0x03

def kVoltage : Register := 0x0D

def kTemperature : Register := 0x0E

def kFault : Register := 0x0F

def kCommandPosition : Register := 0x20

/-- Modelled from the spec: the three values of `moteus::Mode` that the engine
writes (`mech/moteus.h` is a header outside `quadruped_control.cc`). -/
inductive MoteusMode where
  | kStopped
  | kPosition
  | kPositionTimeout
  deriving DecidableEq

/-- Modelled from the spec: the numeric value of a `moteus::Mode`, as written by
`static_cast<int8_t>(mode)`. -/
def MoteusMode.toInt8 : MoteusMode → Int
  | .kStopped => 0
  | .kPosition => 10
  | .kPositionTimeout => 11

/-- One operation of a register request. -/
inductive RegisterOp where
  | ReadMultiple (start : Register) (count : Nat) (resolution : Nat)
  | WriteSingle (reg : Register) (value : Value)
  | WriteMultiple (start : Register) (values : List Value)
  deriving DecidableEq

/-- One entry of `Client::Request::requests`: the operations sent to one servo. -/
structure Request where
  id : Int := 0
  request : List RegisterOp := []
  deriving DecidableEq

/-- The type `MultiplexClient::Client::Request`. -/
structure ClientRequest where
  requests : List Request := []
  deriving DecidableEq

/-- One entry of `Client::Reply::replies`: the registers one servo answered, in
the iteration order of the map; `none` stands for an entry whose variant does not
hold a `moteus::Value`. -/
structure SingleReply where
  id : Int := 0
  reply : List (Register × Option Value) := []
  deriving DecidableEq

/-- The type `MultiplexClient::Client::Reply`. -/
structure ClientReply where
  replies : List SingleReply := []
  deriving DecidableEq

/-! ## Configuration -/

/-- The struct `Config::Joint`. -/
structure ConfigJoint where
  id : Int := 0
  sign : Dbl := Dbl.fin 1
  min_deg : Dbl := Dbl.fin (-360)
  max_deg : Dbl := Dbl.fin 360
  deriving DecidableEq

/-- One joint of `MammalIk::Config` (`mech/mammal_ik.h`). -/
structure IkConfigJoint where
  pose_mm : Point3D := default
  id : Int := 0
  deriving DecidableEq

/-- The struct `MammalIk::Config`: the three joints of a leg. -/
structure MammalIkConfig where
  shoulder : IkConfigJoint := {}
  femur : IkConfigJoint := {}
  tibia : IkConfigJoint := {}
  invert : Bool := false
  deriving DecidableEq

/-- The struct `Config::Leg`. -/
structure ConfigLeg where
  leg : Int := 0
  pose_mm_BG : SE3 := SE3.identity
  ik : MammalIkConfig := {}
  deriving DecidableEq

/-- The struct `Config::MammalJoint`. -/
structure MammalJoint where
  shoulder_deg : Dbl := Dbl.fin 0
  femur_deg : Dbl := Dbl.fin 135
  tibia_deg : Dbl := Dbl.fin (-120)
  deriving DecidableEq

/-- The struct `Config::StandUp`. -/
structure ConfigStandUp where
  pose : MammalJoint := {}
  velocity_dps : Dbl := Dbl.fin 30
  max_preposition_torque_Nm : Dbl := Dbl.fin 3
  timeout_s : Dbl := Dbl.fin 4
  tolerance_deg : Dbl := Dbl.fin 1
  tolerance_mm : Dbl := Dbl.fin 10
  velocity_mm_s : Dbl := Dbl.fin 100
  deriving DecidableEq

/-- The struct `Config`. -/
structure Config where
  joints : List ConfigJoint := []
  legs : List ConfigLeg := []
  stand_up : ConfigStandUp := {}
  deriving DecidableEq

/-- The struct `Leg`: a configured leg with its solver. -/
structure Leg where
  leg : Int
  config : ConfigLeg
  pose_mm_BG : SE3
  ik : MammalIkConfig
  deriving DecidableEq

/-- The constructor `Leg(const Config::Leg&)`. -/
def Leg.ofConfig (config_in : ConfigLeg) : Leg :=
  { leg := config_in.leg, config := config_in,
    pose_mm_BG := config_in.pose_mm_BG, ik := config_in.ik }

/-! ## Operator command (`mech/quadruped_command.h`) -/

/-- The operating modes, `QuadrupedCommand::Mode`, with the enumeration's
end marker `kNumModes`. -/
inductive Mode where
  | kStopped
  | kFault
  | kZeroVelocity
  | kJoint
  | kLeg
  | kStandUp
  | kNumModes
  deriving DecidableEq

/-- Modelled from the spec: `QuadrupedCommand::Joint` and the values of a
default-constructed one (a header outside `quadruped_control.cc`): power off, no
zero-velocity hold, the three numeric fields zero, the four optional fields
absent. -/
structure QCJoint where
  id : Int := 0
  power : Bool := false
  zero_velocity : Bool := false
  angle_deg : Dbl := Dbl.zero
  velocity_dps : Dbl := Dbl.zero
  torque_Nm : Dbl := Dbl.zero
  kp_scale : Option Dbl := none
  kd_scale : Option Dbl := none
  max_torque_Nm : Option Dbl := none
  stop_angle_deg : Option Dbl := none
  deriving DecidableEq

/-- Modelled from the spec: `QuadrupedCommand::Leg`, a leg command in the body or
the robot frame. -/
structure QCLeg where
  leg_id : Int := 0
  power : Bool := false
  zero_velocity : Bool := false
  position_mm : Point3D := default
  velocity_mm_s : Point3D := default
  force_N : Point3D := default
  kp_scale : Option Point3D := none
  kd_scale : Option Point3D := none
  deriving DecidableEq

/-- Modelled from the spec: `QuadrupedCommand`; a default-constructed command asks
for `kStopped`. -/
structure QC where
  mode : Mode := Mode.kStopped
  joints : List QCJoint := []
  legs_B : List QCLeg := []
  legs_R : List QCLeg := []
  stand_up_pose_mm_SR : SE3 := SE3.identity
  deriving DecidableEq

/-! ## Robot state (`mech/quadruped_state.h`) and status -/

/-- The struct `QuadrupedState::Joint`. -/
structure StateJoint where
  id : Int := 0
  mode : Int := 0
  angle_deg : Dbl := Dbl.zero
  velocity_dps : Dbl := Dbl.zero
  torque_Nm : Dbl := Dbl.zero
  voltage : Dbl := Dbl.zero
  temperature_C : Dbl := Dbl.zero
  fault : Int := 0
  deriving DecidableEq

/-- The struct `QuadrupedState::Link`. -/
structure Link where
  id : Int := 0
  angle_deg : Dbl := Dbl.zero
  velocity_dps : Dbl := Dbl.zero
  torque_Nm : Dbl := Dbl.zero
  deriving DecidableEq

/-- The struct `IkSolver::Joint`. -/
structure IkJoint where
  id : Int := 0
  angle_deg : Dbl := Dbl.zero
  torque_Nm : Dbl := Dbl.zero
  velocity_dps : Dbl := Dbl.zero
  deriving DecidableEq

/-- The struct `IkSolver::Effector`. -/
structure Effector where
  pose_mm_G : Point3D := default
  velocity_mm_s_G : Point3D := default
  force_N_G : Point3D := default
  deriving DecidableEq

/-- The struct `QuadrupedState::Leg`. -/
structure StateLeg where
  leg : Int := 0
  position_mm : Point3D := default
  velocity_mm_s : Point3D := default
  force_N : Point3D := default
  links : List Link := []
  deriving DecidableEq

/-- The struct `QuadrupedState::Robot`. -/
structure StateRobot where
  pose_mm_RB : SE3 := SE3.identity
  pose_mm_SR : SE3 := SE3.identity
  deriving DecidableEq

/-- The substates of the stand-up sequence, `QuadrupedState::StandUp::Mode`. -/
inductive StandUpMode where
  | kPrepositioning
  | kStanding
  | kDone
  deriving DecidableEq

/-- Modelled from the spec: `QuadrupedState::StandUp`; a value-initialised one
(`status_.state.stand_up = {}`) is in the substate `kPrepositioning`. -/
structure StateStandUp where
  mode : StandUpMode := StandUpMode.kPrepositioning
  deriving DecidableEq

/-- The struct `QuadrupedState`. -/
structure QuadrupedState where
  joints : List StateJoint := []
  legs_B : List StateLeg := []
  robot : StateRobot := {}
  stand_up : StateStandUp := {}
  deriving DecidableEq

/-- Modelled from the spec: `QuadrupedControl::Status` (a header outside
`quadruped_control.cc`); the engine starts in `kStopped`. -/
structure Status where
  timestamp : Time := 0
  mode : Mode := Mode.kStopped
  mode_start : Time := 0
  fault : String := ""
  state : QuadrupedState := {}
  time_status_s : Dbl := Dbl.zero
  time_control_s : Dbl := Dbl.zero
  time_command_s : Dbl := Dbl.zero
  time_cycle_s : Dbl := Dbl.zero
  deriving DecidableEq

/-- The struct `CommandLog`; the command is held by value. -/
structure CommandLog where
  timestamp : Time := 0
  command : QC := {}
  deriving DecidableEq

/-- The struct `ControlLog`. -/
structure ControlLog where
  timestamp : Time := 0
  joints : List QCJoint := []
  legs_B : List QCLeg := []
  legs_R : List QCLeg := []
  deriving DecidableEq

/-- The member `timestamps_`. -/
structure Timestamps where
  cycle_start : Time := 0
  status_done : Time := 0
  control_done : Time := 0
  command_done : Time := 0
  deriving DecidableEq

/-! ## Collaborators and engine state -/

/-- The collaborators of the engine whose code lives outside
`quadruped_control.cc`: the moteus register codec, the per-leg kinematics, the
rigid-transform algebra and the executor clock. -/
structure Extern where
  /-- The value returned by the `n`-th call of `mjlib::io::Now`. -/
  Now : Nat → Time
  /-- The function `mjlib::base::ConvertDurationToSeconds`: a duration, counted
  here in microseconds, as a `double` number of seconds. -/
  ConvertDurationToSeconds : Int → Dbl
  ReadInt : Value → Int
  ReadPosition : Value → Dbl
  ReadTorque : Value → Dbl
  ReadVoltage : Value → Dbl
  ReadTemperature : Value → Dbl
  WritePosition : Dbl → Resolution → Value
  WriteVelocity : Dbl → Resolution → Value
  WriteTorque : Dbl → Resolution → Value
  WritePwm : Dbl → Resolution → Value
  /-- The method `MammalIk::Forward`. -/
  Forward : MammalIkConfig → List IkJoint → Effector
  /-- The method `MammalIk::Inverse`; `none` when the target cannot be reached. -/
  Inverse : MammalIkConfig → Effector → List IkJoint → Option (List IkJoint)
  /-- The method `Sophus::SE3d::inverse`. -/
  se3Inverse : SE3 → SE3
  /-- A transform applied to a point, `pose * p`. -/
  se3Act : SE3 → Point3D → Point3D
  /-- The rotation of a transform applied to a vector, `pose.so3() * v`. -/
  so3Act : SE3 → Point3D → Point3D
  /-- A transform applied to a leg command, `pose * leg_R`. -/
  legAct : SE3 → QCLeg → QCLeg
  /-- The Euclidean norm, `Point3D::norm`. -/
  norm : Point3D → Dbl

/-- The two kinds of bus transaction the engine starts with `AsyncRegister`. -/
inductive BusOp where
  | status
  | command
  deriving DecidableEq

/-- An externally visible action of the engine. -/
inductive Event where
  | AsyncRegister (op : BusOp) (request : ClientRequest)
  | status_signal (status : Status)
  | command_signal (log : CommandLog)
  | control_signal (log : ControlLog)
  | warn (message : String)
  deriving DecidableEq

/-- The data members of `QuadrupedControl::Impl`, followed by the ghost fields
`now_calls_` (how many times the clock was read), `trace_` (the actions so far,
oldest first) and `pending_` (bus transactions whose completion handler has not
run yet). -/
structure Impl where
  config_ : Config := {}
  legs_ : List Leg := []
  status_ : Status := {}
  current_command_ : QC := {}
  control_log_ : ControlLog := {}
  /-- Whether `client_` is non-null. -/
  client_ : Bool := false
  status_request_ : ClientRequest := {}
  status_reply_ : ClientReply := {}
  client_command_ : ClientRequest := {}
  client_command_reply_ : ClientReply := {}
  outstanding_ : Bool := false
  timestamps_ : Timestamps := {}
  values_cache_ : List Value := []
  now_calls_ : Nat := 0
  trace_ : List Event := []
  pending_ : List BusOp := []
  deriving DecidableEq

/-- The method `Now`: read the executor clock. -/
def Now (E : Extern) (s : Impl) : Time × Impl :=
  (E.Now s.now_calls_, { s with now_calls_ := s.now_calls_ + 1 })

/-- Record an externally visible action. -/
def emit (e : Event) (s : Impl) : Impl :=
  { s with trace_ := s.trace_ ++ [e] }

/-- The call `client_->AsyncRegister(request, reply, handler)`: the transaction
is on the bus until its handler runs.  A null `client_` aborts. -/
def AsyncRegister (op : BusOp) (request : ClientRequest) (s : Impl) : Option Impl :=
  if s.client_ then
    some (emit (Event.AsyncRegister op request) { s with pending_ := s.pending_ ++ [op] })
  else none

/-! ## Start-up and command ingress -/

/-- The method `Configure`. -/
def Configure (s : Impl) : Impl :=
  { s with legs_ := s.legs_ ++ s.config_.legs.map Leg.ofConfig }

/-- The method `PopulateStatusRequest`. -/
def PopulateStatusRequest (s : Impl) : Impl :=
  { s with status_request_ :=
      { requests := s.config_.joints.map (fun joint =>
          { id := joint.id,
            request := [RegisterOp.ReadMultiple kMode 4 1,
                        RegisterOp.ReadMultiple kVoltage 3 0] }) } }

/-- The method `AsyncStart`, given the configuration read from the file: a
configuration without 4 legs and 12 joints is fatal. -/
def AsyncStart (config : Config) (s : Impl) : Option Impl :=
  let s := { s with config_ := config }
  if s.config_.legs.length ≠ 4 ∨ s.config_.joints.length ≠ 12 then none
  else some (PopulateStatusRequest (Configure s))

/-- The method `SetClient`. -/
def SetClient (client : Bool) (s : Impl) : Impl :=
  { s with client_ := client }

/-- The method `Command`. -/
def Command (E : Extern) (command : QC) (s : Impl) : Impl :=
  let (now, s) := Now E s
  let command_log : CommandLog := { timestamp := now, command := command }
  let s := { s with current_command_ := command }
  emit (Event.command_signal command_log) s

/-! ## Marshalling: `EmitControl` -/

/-- The method `GetSign`: the sign of the first configured joint with this id;
`AssertNotReached` when there is none. -/
def GetSign (config : Config) (id : Int) : Option Dbl :=
  match config.joints.find? (fun joint => joint.id == id) with
  | some joint => some joint.sign
  | none => none

/-- The method `std::vector::resize`: drop the tail or pad with value-initialised
elements. -/
def resize (values : List Value) (n : Nat) : List Value :=
  values.take n ++ List.replicate (n - values.length) default

/-- The lambda `mode` of `EmitControl`. -/
def wireMode (joint : QCJoint) : MoteusMode :=
  if joint.power == false then MoteusMode.kStopped
  else if joint.zero_velocity then MoteusMode.kPositionTimeout
  else MoteusMode.kPosition

/-- The seven conditional `values.resize(k)` statements of `EmitControl`. -/
def sizeValues (joint : QCJoint) (values : List Value) : List Value :=
  let values := if joint.angle_deg.ne Dbl.zero then resize values 1 else values
  let values := if joint.velocity_dps.ne Dbl.zero then resize values 2 else values
  let values := if joint.torque_Nm.ne Dbl.zero then resize values 3 else values
  let values := if joint.kp_scale.isSome then resize values 4 else values
  let values := if joint.kd_scale.isSome then resize values 5 else values
  let values := if joint.max_torque_Nm.isSome then resize values 6 else values
  let values := if joint.stop_angle_deg.isSome then resize values 7 else values
  values

/-- The body of the `switch (i)` of `EmitControl`: the value stored at index `i`,
`none` for an index without a case. -/
def encodeField (E : Extern) (sign : Dbl) (joint : QCJoint) (i : Nat) : Option Value :=
  match i with
  | 0 => some (E.WritePosition (sign.mul joint.angle_deg) Resolution.kInt16)
  | 1 => some (E.WriteVelocity (sign.mul joint.velocity_dps) Resolution.kInt16)
  | 2 => some (E.WriteTorque (sign.mul joint.torque_Nm) Resolution.kInt16)
  | 3 => some (E.WritePwm (joint.kp_scale.getD (Dbl.fin 1)) Resolution.kInt16)
  | 4 => some (E.WritePwm (joint.kd_scale.getD (Dbl.fin 1)) Resolution.kInt16)
  | 5 => some (E.WriteTorque (joint.max_torque_Nm.getD Dbl.pinf) Resolution.kInt16)
  | 6 => some (E.WritePosition (sign.mul (joint.stop_angle_deg.getD Dbl.nan))
                Resolution.kInt16)
  | _ => none

/-- The loop `for (size_t i = 0; i < values.size(); i++)` of `EmitControl`. -/
def fillValues (E : Extern) (sign : Dbl) (joint : QCJoint) (values : List Value) :
    List Value :=
  (List.range values.length).foldl
    (fun values i =>
      match encodeField E sign joint i with
      | some v => values.set i v
      | none => values)
    values

/-- One iteration of the loop of `EmitControl`: the request for one joint command
and the new contents of `values_cache_`. -/
def emitJoint (E : Extern) (config : Config) (joint : QCJoint)
    (values_cache : List Value) : Option (Request × List Value) :=
  let mode := wireMode joint
  let request : Request :=
    { id := joint.id,
      request := [RegisterOp.WriteSingle kMode (Value.kInt8 mode.toInt8)] }
  let values : List Value := resize values_cache 0
  if mode = MoteusMode.kPosition then
    match GetSign config joint.id with
    | none => none
    | some sign =>
      let values := fillValues E sign joint (sizeValues joint values)
      if !values.isEmpty then
        some ({ request with
                  request := request.request ++
                    [RegisterOp.WriteMultiple kCommandPosition values] }, values)
      else some (request, values)
  else some (request, values)

/-- The loop of `EmitControl` over `control_log_.joints`, threading the request
list and `values_cache_`. -/
def emitJoints (E : Extern) (config : Config) :
    List QCJoint → List Request → List Value → Option (List Request × List Value)
  | [], requests, values => some (requests, values)
  | joint :: rest, requests, values =>
    match emitJoint E config joint values with
    | none => none
    | some (request, values) => emitJoints E config rest (requests ++ [request]) values

/-- The method `EmitControl`. -/
def EmitControl (E : Extern) (s : Impl) : Option Impl :=
  let (now, s) := Now E s
  let s := { s with control_log_ := { s.control_log_ with timestamp := now } }
  let s := emit (Event.control_signal s.control_log_) s
  let s := { s with client_command_ := {} }
  match emitJoints E s.config_ s.control_log_.joints s.client_command_.requests
      s.values_cache_ with
  | none => none
  | some (requests, values) =>
    some { s with client_command_ := { requests := requests }, values_cache_ := values }

/-- The method `ControlJoints`. -/
def ControlJoints (E : Extern) (joints : List QCJoint) (s : Impl) : Option Impl :=
  EmitControl E { s with control_log_ := { s.control_log_ with joints := joints } }

/-! ## Controllers -/

/-- The method `DoControl_Stopped`. -/
def DoControl_Stopped (E : Extern) (s : Impl) : Option Impl :=
  let out_joints : List QCJoint :=
    s.config_.joints.map (fun joint => { id := joint.id, power := false })
  ControlJoints E out_joints s

/-- The method `DoControl_ZeroVelocity`. -/
def DoControl_ZeroVelocity (E : Extern) (s : Impl) : Option Impl :=
  let out_joints : List QCJoint :=
    s.config_.joints.map (fun joint =>
      { id := joint.id, power := true, zero_velocity := true })
  ControlJoints E out_joints s

/-- The method `DoControl_Fault`. -/
def DoControl_Fault (E : Extern) (s : Impl) : Option Impl :=
  DoControl_ZeroVelocity E s

/-- The method `Fault`. -/
def Fault (E : Extern) (message : String) (s : Impl) : Option Impl :=
  let s := { s with status_ := { s.status_ with mode := Mode.kFault } }
  let s := { s with status_ := { s.status_ with fault := message } }
  let (now, s) := Now E s
  let s := { s with status_ := { s.status_ with mode_start := now } }
  DoControl_Fault E s

/-- The method `DoControl_Joint`. -/
def DoControl_Joint (E : Extern) (s : Impl) : Option Impl :=
  ControlJoints E s.current_command_.joints s

/-- The method `GetLeg`: the first leg with this id; `AssertNotReached` when
there is none. -/
def GetLeg (legs : List Leg) (id : Int) : Option Leg :=
  legs.find? (fun leg => leg.leg == id)

/-- The lambda `add_joints` of `ControlLegs_B`: three copies of `base` carrying
the shoulder, femur and tibia ids of the leg. -/
def add_joints (qleg : Leg) (out_joints : List QCJoint) (base : QCJoint) : List QCJoint :=
  out_joints ++ [{ base with id := qleg.config.ik.shoulder.id },
                 { base with id := qleg.config.ik.femur.id },
                 { base with id := qleg.config.ik.tibia.id }]

/-- The body of the loop of `ControlLegs_B` for one leg command. -/
def controlLeg_B (E : Extern) (legs : List Leg) (current_joints : List IkJoint)
    (out_joints : List QCJoint) (leg_B : QCLeg) : Option (List QCJoint) :=
  match GetLeg legs leg_B.leg_id with
  | none => none
  | some qleg =>
    if !leg_B.power then
      some (add_joints qleg out_joints { power := false })
    else if leg_B.zero_velocity then
      some (add_joints qleg out_joints { power := true, zero_velocity := true })
    else
      let pose_mm_GB := E.se3Inverse qleg.pose_mm_BG
      let effector : Effector :=
        { pose_mm_G := E.se3Act pose_mm_GB leg_B.position_mm,
          velocity_mm_s_G := E.so3Act pose_mm_GB leg_B.velocity_mm_s,
          force_N_G := E.so3Act pose_mm_GB leg_B.force_N }
      match E.Inverse qleg.ik effector current_joints with
      | none =>
        some (add_joints qleg out_joints { power := true, zero_velocity := true })
      | some result =>
        some (out_joints ++ result.map (fun joint_angle =>
          { id := joint_angle.id,
            power := true,
            angle_deg := joint_angle.angle_deg,
            torque_Nm := joint_angle.torque_Nm,
            velocity_dps := joint_angle.velocity_dps,
            kp_scale := leg_B.kp_scale.map (fun v => v.x),
            kd_scale := leg_B.kd_scale.map (fun v => v.x) }))

/-- The loop of `ControlLegs_B` over `control_log_.legs_B`. -/
def controlLegs_B_loop (E : Extern) (legs : List Leg) (current_joints : List IkJoint) :
    List QCLeg → List QCJoint → Option (List QCJoint)
  | [], out_joints => some out_joints
  | leg_B :: rest, out_joints =>
    match controlLeg_B E legs current_joints out_joints leg_B with
    | none => none
    | some out_joints => controlLegs_B_loop E legs current_joints rest out_joints

/-- The method `ControlLegs_B`. -/
def ControlLegs_B (E : Extern) (legs_B : List QCLeg) (s : Impl) : Option Impl :=
  let s := { s with control_log_ := { s.control_log_ with legs_B := legs_B } }
  let current_joints : List IkJoint :=
    s.status_.state.joints.map (fun joint =>
      { id := joint.id, angle_deg := joint.angle_deg,
        velocity_dps := joint.velocity_dps, torque_Nm := joint.torque_Nm })
  match controlLegs_B_loop E s.legs_ current_joints s.control_log_.legs_B [] with
  | none => none
  | some out_joints => ControlJoints E out_joints s

/-- The method `ControlLegs_R`. -/
def ControlLegs_R (E : Extern) (legs_R : List QCLeg) (s : Impl) : Option Impl :=
  let s := { s with control_log_ := { s.control_log_ with legs_R := legs_R } }
  let pose_mm_BR := E.se3Inverse s.status_.state.robot.pose_mm_RB
  let legs_B := s.control_log_.legs_R.map (fun leg_R => E.legAct pose_mm_BR leg_R)
  ControlLegs_B E legs_B s

/-- The method `DoControl_Leg`. -/
def DoControl_Leg (E : Extern) (s : Impl) : Option Impl :=
  ControlLegs_B E s.current_command_.legs_B s

/-! ## Stand-up -/

/-- The assignment `result[joint.id] = joint.angle_deg` on a `std::map`, kept as
an association list with one entry per key. -/
def mapAssign (m : List (Int × Dbl)) (key : Int) (value : Dbl) : List (Int × Dbl) :=
  match m with
  | [] => [(key, value)]
  | (k, v) :: rest =>
    if k = key then (k, value) :: rest else (k, v) :: mapAssign rest key value

/-- The call `std::map::find`. -/
def mapFind (m : List (Int × Dbl)) (key : Int) : Option Dbl :=
  match m.find? (fun entry => entry.1 == key) with
  | some entry => some entry.2
  | none => none

/-- The map `current_deg` of `CheckPrepositioning`. -/
def current_deg (joints : List StateJoint) : List (Int × Dbl) :=
  joints.foldl (fun result joint => mapAssign result joint.id joint.angle_deg) []

/-- The lambda `check` of `CheckPrepositioning`, declared as
`[&](int id, int expected_deg)`: the target angle, a `double` at every call site,
is converted to `int` on the way in.  `none` is the failed `BOOST_ASSERT` or an
undefined conversion. -/
def check (tolerance_deg : Dbl) (current : List (Int × Dbl)) (id : Int)
    (expected : Dbl) : Option Bool :=
  match expected.toInt with
  | none => none
  | some expected_deg =>
    match mapFind current id with
    | none => none
    | some it_second =>
      if ((it_second.sub (Dbl.ofInt expected_deg)).abs).gt tolerance_deg then some false
      else some true

/-- The loop of `CheckPrepositioning` over the legs. -/
def checkLegs (config : Config) (current : List (Int × Dbl)) : List Leg → Option Bool
  | [] => some true
  | leg :: rest =>
    match check config.stand_up.tolerance_deg current leg.config.ik.shoulder.id
        config.stand_up.pose.shoulder_deg with
    | none => none
    | some false => some false
    | some true =>
      match check config.stand_up.tolerance_deg current leg.config.ik.femur.id
          config.stand_up.pose.femur_deg with
      | none => none
      | some false => some false
      | some true =>
        match check config.stand_up.tolerance_deg current leg.config.ik.tibia.id
            config.stand_up.pose.tibia_deg with
        | none => none
        | some false => some false
        | some true => checkLegs config current rest

/-- The method `CheckPrepositioning`. -/
def CheckPrepositioning (s : Impl) : Option Bool :=
  checkLegs s.config_ (current_deg s.status_.state.joints) s.legs_

/-- The method `DoControl_StandUp_Prepositioning`. -/
def DoControl_StandUp_Prepositioning (E : Extern) (s : Impl) : Option Impl :=
  let joints : List QCJoint :=
    s.legs_.foldl (fun joints leg =>
      let joint : QCJoint :=
        { power := true,
          angle_deg := Dbl.nan,
          velocity_dps := s.config_.stand_up.velocity_dps,
          max_torque_Nm := some s.config_.stand_up.max_preposition_torque_Nm }
      let add_joint := fun (joints : List QCJoint) (id : Int) (angle_deg : Dbl) =>
        joints ++ [{ joint with id := id, stop_angle_deg := some angle_deg }]
      let joints := add_joint joints leg.config.ik.shoulder.id
        s.config_.stand_up.pose.shoulder_deg
      let joints := add_joint joints leg.config.ik.femur.id
        s.config_.stand_up.pose.femur_deg
      add_joint joints leg.config.ik.tibia.id s.config_.stand_up.pose.tibia_deg) []
  ControlJoints E joints s

/-- The method `DoControl_StandUp_Standing`. -/
def DoControl_StandUp_Standing (E : Extern) (s : Impl) : Option Impl :=
  Fault E "not implemented" s

/-- Componentwise difference of two vectors. -/
def Point3D.sub (a b : Point3D) : Point3D :=
  ⟨a.x.sub b.x, a.y.sub b.y, a.z.sub b.z⟩

/-- The first `switch` of `DoControl_StandUp`: see whether the substate can
advance. -/
def standUpAdvance (E : Extern) (s : Impl) : Option Impl :=
  match s.status_.state.stand_up.mode with
  | StandUpMode.kPrepositioning =>
    match CheckPrepositioning s with
    | none => none
    | some done =>
      if done then
        some { s with status_ := { s.status_ with state := { s.status_.state with
          stand_up := { s.status_.state.stand_up with mode := StandUpMode.kStanding } } } }
      else some s
  | StandUpMode.kStanding =>
    let error := s.status_.state.robot.pose_mm_SR.translation.sub
      s.current_command_.stand_up_pose_mm_SR.translation
    if (E.norm error).lt s.config_.stand_up.tolerance_mm then
      some { s with status_ := { s.status_ with state := { s.status_.state with
        stand_up := { s.status_.state.stand_up with mode := StandUpMode.kDone } } } }
    else some s
  | StandUpMode.kDone => some s

/-- The method `DoControl_StandUp`. -/
def DoControl_StandUp (E : Extern) (s : Impl) : Option Impl :=
  let (now, s) := Now E s
  let elapsed_s := E.ConvertDurationToSeconds (now - s.status_.mode_start)
  if elapsed_s.gt s.config_.stand_up.timeout_s then Fault E "timeout" s
  else
    match standUpAdvance E s with
    | none => none
    | some s =>
      match s.status_.state.stand_up.mode with
      | StandUpMode.kPrepositioning => DoControl_StandUp_Prepositioning E s
      | StandUpMode.kStanding => DoControl_StandUp_Standing E s
      | StandUpMode.kDone => DoControl_StandUp_Standing E s

/-! ## The mode machine -/

/-- The tail of `MaybeChangeMode`: stamp `mode_start` when the mode differs from
`old_mode`. -/
def stampModeStart (E : Extern) (old_mode : Mode) (s : Impl) : Impl :=
  if s.status_.mode ≠ old_mode then
    let (now, s) := Now E s
    { s with status_ := { s.status_ with mode_start := now } }
  else s

/-- The method `MaybeChangeMode`. -/
def MaybeChangeMode (E : Extern) (s : Impl) : Option Impl :=
  let old_mode := s.status_.mode
  match s.current_command_.mode with
  | Mode.kNumModes => none
  | Mode.kFault => none
  | Mode.kStopped =>
    some (stampModeStart E old_mode
      { s with status_ := { s.status_ with mode := Mode.kStopped } })
  | Mode.kZeroVelocity | Mode.kJoint | Mode.kLeg =>
    if s.status_.mode = Mode.kFault then some s
    else
      some (stampModeStart E old_mode
        { s with status_ := { s.status_ with mode := s.current_command_.mode } })
  | Mode.kStandUp =>
    if s.status_.mode ≠ Mode.kStopped then some s
    else
      let s := { s with status_ := { s.status_ with mode := s.current_command_.mode } }
      let s := { s with status_ := { s.status_ with state :=
        { s.status_.state with stand_up := {} } } }
      some (stampModeStart E old_mode s)

/-- The `switch (status_.mode)` of `RunControl`. -/
def dispatchControl (E : Extern) (s : Impl) : Option Impl :=
  match s.status_.mode with
  | Mode.kStopped => DoControl_Stopped E s
  | Mode.kFault => DoControl_Fault E s
  | Mode.kZeroVelocity => DoControl_ZeroVelocity E s
  | Mode.kJoint => DoControl_Joint E s
  | Mode.kLeg => DoControl_Leg E s
  | Mode.kStandUp => DoControl_StandUp E s
  | Mode.kNumModes => none

/-- The first statement of `RunControl`: `MaybeChangeMode` is called when the
requested mode differs from the current one. -/
def modeChangeStep (E : Extern) (s : Impl) : Option Impl :=
  if s.current_command_.mode ≠ s.status_.mode then MaybeChangeMode E s else some s

/-- The method `RunControl`. -/
def RunControl (E : Extern) (s : Impl) : Option Impl :=
  match modeChangeStep E s with
  | none => none
  | some s => dispatchControl E s

/-! ## The snapshot builder: `UpdateStatus` -/

/-- The three records filled in for one reply by `UpdateStatus`. -/
structure ReplyOut where
  out_joint : StateJoint := {}
  out_link : Link := {}
  ik_joint : IkJoint := {}
  deriving DecidableEq

/-- One iteration of the loop over `reply.reply`: decode one register. -/
def decodeRegister (E : Extern) (sign : Dbl) (acc : ReplyOut)
    (pair : Register × Option Value) : ReplyOut :=
  match pair.2 with
  | none => acc
  | some value =>
    if pair.1 = kMode then
      { acc with out_joint := { acc.out_joint with mode := E.ReadInt value } }
    else if pair.1 = kPosition then
      let angle_deg := sign.mul (E.ReadPosition value)
      { out_joint := { acc.out_joint with angle_deg := angle_deg },
        out_link := { acc.out_link with angle_deg := angle_deg },
        ik_joint := { acc.ik_joint with angle_deg := angle_deg } }
    else if pair.1 = kVelocity then
      let velocity_dps := sign.mul (E.ReadPosition value)
      { out_joint := { acc.out_joint with velocity_dps := velocity_dps },
        out_link := { acc.out_link with velocity_dps := velocity_dps },
        ik_joint := { acc.ik_joint with velocity_dps := velocity_dps } }
    else if pair.1 = kTorque then
      let torque_Nm := sign.mul (E.ReadTorque value)
      { out_joint := { acc.out_joint with torque_Nm := torque_Nm },
        out_link := { acc.out_link with torque_Nm := torque_Nm },
        ik_joint := { acc.ik_joint with torque_Nm := torque_Nm } }
    else if pair.1 = kVoltage then
      { acc with out_joint := { acc.out_joint with voltage := E.ReadVoltage value } }
    else if pair.1 = kTemperature then
      { acc with out_joint :=
          { acc.out_joint with temperature_C := E.ReadTemperature value } }
    else if pair.1 = kFault then
      { acc with out_joint := { acc.out_joint with fault := E.ReadInt value } }
    else acc

/-- The body of the loop of `UpdateStatus` over the replies, for one reply. -/
def decodeReply (E : Extern) (config : Config) (reply : SingleReply) : Option ReplyOut :=
  let start : ReplyOut :=
    { out_joint := { id := reply.id }, out_link := { id := reply.id },
      ik_joint := { id := reply.id } }
  match GetSign config reply.id with
  | none => none
  | some sign => some (reply.reply.foldl (decodeRegister E sign) start)

/-- The loop of `UpdateStatus` over `status_reply_.replies`. -/
def decodeReplies (E : Extern) (config : Config) : List SingleReply → Option (List ReplyOut)
  | [] => some []
  | reply :: rest =>
    match decodeReply E config reply with
    | none => none
    | some out =>
      match decodeReplies E config rest with
      | none => none
      | some outs => some (out :: outs)

/-- The lambda `get_link` of `UpdateStatus`. -/
def get_link (links : List Link) (id : Int) : Option Link :=
  links.find? (fun link => link.id == id)

/-- The body of the loop of `UpdateStatus` over the legs. -/
def legState (E : Extern) (joint_angles : List IkJoint) (links : List Link) (leg : Leg) :
    Option StateLeg :=
  let effector := E.Forward leg.ik joint_angles
  match get_link links leg.config.ik.shoulder.id with
  | none => none
  | some shoulder =>
    match get_link links leg.config.ik.femur.id with
    | none => none
    | some femur =>
      match get_link links leg.config.ik.tibia.id with
      | none => none
      | some tibia =>
        some { leg := leg.leg,
               position_mm := E.se3Act leg.pose_mm_BG effector.pose_mm_G,
               velocity_mm_s := E.so3Act leg.pose_mm_BG effector.velocity_mm_s_G,
               force_N := E.so3Act leg.pose_mm_BG effector.force_N_G,
               links := [shoulder, femur, tibia] }

/-- The loop of `UpdateStatus` over `legs_`. -/
def legStates (E : Extern) (joint_angles : List IkJoint) (links : List Link) :
    List Leg → Option (List StateLeg)
  | [] => some []
  | leg :: rest =>
    match legState E joint_angles links leg with
    | none => none
    | some out_leg_B =>
      match legStates E joint_angles links rest with
      | none => none
      | some outs => some (out_leg_B :: outs)

/-- The method `UpdateStatus`. -/
def UpdateStatus (E : Extern) (s : Impl) : Option Impl :=
  match decodeReplies E s.config_ s.status_reply_.replies with
  | none => none
  | some outs =>
    let joint_angles := outs.map (fun (o : ReplyOut) => o.ik_joint)
    let links := outs.map (fun (o : ReplyOut) => o.out_link)
    let s := { s with status_ := { s.status_ with state :=
      { s.status_.state with joints := outs.map (fun (o : ReplyOut) => o.out_joint) } } }
    match legStates E joint_angles links s.legs_ with
    | none => none
    | some legs_B =>
      some { s with status_ := { s.status_ with state :=
        { s.status_.state with legs_B := legs_B } } }

/-! ## The cycle scheduler -/

/-- The method `HandleCommand`; `ec` tells whether the completion carries an
error. -/
def HandleCommand (E : Extern) (ec : Bool) (s : Impl) : Option Impl :=
  if ec then none
  else
    let s := { s with outstanding_ := false }
    let (now, s) := Now E s
    let s := { s with timestamps_ := { s.timestamps_ with command_done := now } }
    let s := { s with status_ := { s.status_ with
      timestamp := now,
      time_status_s :=
        E.ConvertDurationToSeconds (s.timestamps_.status_done - s.timestamps_.cycle_start),
      time_control_s :=
        E.ConvertDurationToSeconds (s.timestamps_.control_done - s.timestamps_.status_done),
      time_command_s :=
        E.ConvertDurationToSeconds (s.timestamps_.command_done - s.timestamps_.control_done),
      time_cycle_s :=
        E.ConvertDurationToSeconds (s.timestamps_.command_done - s.timestamps_.cycle_start) } }
    some (emit (Event.status_signal s.status_) s)

/-- The method `HandleStatus`; the replies of the read are in `status_reply_`. -/
def HandleStatus (E : Extern) (ec : Bool) (s : Impl) : Option Impl :=
  if ec then none
  else
    let (now, s) := Now E s
    let s := { s with timestamps_ := { s.timestamps_ with status_done := now } }
    if s.status_reply_.replies.length ≠ 12 then
      let s := emit (Event.warn
        ("missing replies, sz=" ++ toString s.status_reply_.replies.length)) s
      some { s with outstanding_ := false }
    else
      match UpdateStatus E s with
      | none => none
      | some s =>
        let s := { s with control_log_ := {} }
        match RunControl E s with
        | none => none
        | some s =>
          let (now, s) := Now E s
          let s := { s with timestamps_ := { s.timestamps_ with control_done := now } }
          if !s.client_command_.requests.isEmpty then
            let s := { s with client_command_reply_ := {} }
            AsyncRegister BusOp.command s.client_command_ s
          else HandleCommand E false s

/-- The method `HandleTimer`. -/
def HandleTimer (E : Extern) (ec : Bool) (s : Impl) : Option Impl :=
  if ec then none
  else if !s.client_ then some s
  else if s.outstanding_ then some s
  else
    let (now, s) := Now E s
    let s := { s with timestamps_ := { s.timestamps_ with cycle_start := now } }
    let s := { s with outstanding_ := true }
    let s := { s with status_reply_ := {} }
    AsyncRegister BusOp.status s.status_request_ s

/-! ## A concrete set of collaborators, for evaluating the model -/

/-- A small set of collaborators: the clock advances by one millisecond per
reading, a duration is converted to seconds without rounding, the codec carries
the number unchanged, the kinematics never finds a solution and the transforms are
the identity. -/
def bench : Extern where
  Now := fun n => 1000 * (n : Int)
  ConvertDurationToSeconds := fun d => Dbl.fin ((d : ℚ) / 1000000)
  ReadInt := fun v => match v with
    | Value.kInt8 i => i
    | Value.kInt16 i => i
    | Value.kInt32 i => i
    | Value.kFloat _ => 0
  ReadPosition := fun v => match v with
    | Value.kInt8 i => Dbl.ofInt i
    | Value.kInt16 i => Dbl.ofInt i
    | Value.kInt32 i => Dbl.ofInt i
    | Value.kFloat x => x
  ReadTorque := fun v => match v with
    | Value.kFloat x => x
    | _ => Dbl.zero
  ReadVoltage := fun v => match v with
    | Value.kFloat x => x
    | _ => Dbl.zero
  ReadTemperature := fun v => match v with
    | Value.kFloat x => x
    | _ => Dbl.zero
  WritePosition := fun x _ => Value.kFloat x
  WriteVelocity := fun x _ => Value.kFloat x
  WriteTorque := fun x _ => Value.kFloat x
  WritePwm := fun x _ => Value.kFloat x
  Forward := fun _ _ => {}
  Inverse := fun _ _ _ => none
  se3Inverse := fun p => p
  se3Act := fun _ v => v
  so3Act := fun _ v => v
  legAct := fun _ l => l
  norm := fun v => v.x.abs

/-- The engine as constructed, holding the operator command `command`. -/
def idle (command : QC) : Impl := { current_command_ := command }

/-- The engine in mode `mode`, holding the operator command `command`. -/
def inMode (mode : Mode) (command : QC) : Impl :=
  { status_ := { mode := mode }, current_command_ := command }

/-! ## Vocabulary of the statements -/

/-- The request written for a joint command that carries no trailing block: the
single write of the mode register. -/
def modeOnlyRequest (joint : QCJoint) : Request :=
  { id := joint.id,
    request := [RegisterOp.WriteSingle kMode (Value.kInt8 (wireMode joint).toInt8)] }

/-- An engine whose status read has just completed with `n` replies in
`status_reply_`, holding a command frame left by the previous cycle. -/
def midCycle (n : Nat) : Impl :=
  { client_ := true,
    outstanding_ := true,
    pending_ := [],
    status_reply_ := { replies := List.replicate n {} },
    client_command_ := { requests := [{ id := 1, request := [] }] } }

/-- The mode register value the mode mapping prescribes for a joint command:
Stopped when the power is off (whatever `zero_velocity` says), PositionTimeout
when the power is on with `zero_velocity`, Position otherwise. -/
def mappedMode (joint : QCJoint) : MoteusMode :=
  if joint.power = false then MoteusMode.kStopped
  else if joint.zero_velocity = true then MoteusMode.kPositionTimeout
  else MoteusMode.kPosition

/-- A request answers a joint command: same id, and the frame starts with the
write of the mode register prescribed by the mode mapping. -/
def Answers (joint : QCJoint) (request : Request) : Prop :=
  request.id = joint.id ∧
    ∃ tail, request.request =
      RegisterOp.WriteSingle kMode (Value.kInt8 (mappedMode joint).toInt8) :: tail

/-- An engine configured with joints 1 (sign +1) and 2 (sign -1) whose control log
holds three joint commands. -/
def threeCommands : Impl :=
  { config_ := { joints := [{ id := 1 }, { id := 2, sign := Dbl.fin (-1) }] },
    control_log_ := { joints :=
      [{ id := 3, power := false, zero_velocity := true },
       { id := 1, power := true, zero_velocity := true },
       { id := 2, power := true, velocity_dps := Dbl.fin 5 }] } }

/-- Which of the seven fields of a joint command are set, in the order of the
trailing block `[angle_deg, velocity_dps, torque_Nm, kp_scale, kd_scale,
max_torque_Nm, stop_angle_deg]`: the first three when non-zero, the last four when
present. -/
def fieldSet (joint : QCJoint) : List Bool :=
  [joint.angle_deg.ne Dbl.zero, joint.velocity_dps.ne Dbl.zero,
   joint.torque_Nm.ne Dbl.zero, joint.kp_scale.isSome, joint.kd_scale.isSome,
   joint.max_torque_Nm.isSome, joint.stop_angle_deg.isSome]

/-- The index of the highest set field plus one; zero when no field is set. -/
def blockLength (joint : QCJoint) : Nat :=
  match (List.range 7).reverse.find? (fun i => (fieldSet joint).getD i false) with
  | some k => k + 1
  | none => 0

/-- The seven encoded values in block order, each field with its value or, for an
absent optional field, its default (gain scales 1, torque limit +infinity, stop
angle NaN). -/
def fullBlock (E : Extern) (sign : Dbl) (joint : QCJoint) : List Value :=
  [E.WritePosition (sign.mul joint.angle_deg) Resolution.kInt16,
   E.WriteVelocity (sign.mul joint.velocity_dps) Resolution.kInt16,
   E.WriteTorque (sign.mul joint.torque_Nm) Resolution.kInt16,
   E.WritePwm (joint.kp_scale.getD (Dbl.fin 1)) Resolution.kInt16,
   E.WritePwm (joint.kd_scale.getD (Dbl.fin 1)) Resolution.kInt16,
   E.WriteTorque (joint.max_torque_Nm.getD Dbl.pinf) Resolution.kInt16,
   E.WritePosition (sign.mul (joint.stop_angle_deg.getD Dbl.nan)) Resolution.kInt16]

/-! ## The executor and the single-in-flight invariant -/

/-- Nothing the scheduler looks at has changed between `s` and `s'`, and no action
was performed. -/
def Quiet (s s' : Impl) : Prop :=
  s'.outstanding_ = s.outstanding_ ∧ s'.pending_ = s.pending_ ∧
    s'.client_ = s.client_ ∧ s'.trace_ = s.trace_

/-- Between `s` and `s'` the only action performed is the emission of one control
record. -/
def Controlled (s s' : Impl) : Prop :=
  s'.outstanding_ = s.outstanding_ ∧ s'.pending_ = s.pending_ ∧
    s'.client_ = s.client_ ∧ ∃ log, s'.trace_ = s.trace_ ++ [Event.control_signal log]

/-- The event is the issue of a status read. -/
def Event.isStatusRead : Event → Bool
  | Event.AsyncRegister BusOp.status _ => true
  | _ => false

/-- The event closes a cycle: the status record published by `HandleCommand`
when the command write has completed, or the warning of an aborted cycle. -/
def Event.endsCycle : Event → Bool
  | Event.status_signal _ => true
  | Event.warn _ => true
  | _ => false

/-- How many status reads the engine has issued so far. -/
def readsIssued (s : Impl) : Nat := s.trace_.countP Event.isStatusRead

/-- How many cycles have been closed so far, by completion or by abort. -/
def cyclesEnded (s : Impl) : Nat := s.trace_.countP Event.endsCycle

/-- What the single-threaded executor can run next: a timer tick, the completion
of a bus transaction that is in flight (the transport has filled in the reply), an
operator command, or a call of `AsyncStart` or `SetClient`. -/
inductive Step (E : Extern) : Impl → Impl → Prop
  | timer (s s' : Impl) (ec : Bool) :
      HandleTimer E ec s = some s' → Step E s s'
  | statusDone (s s' : Impl) (ec : Bool) (reply : ClientReply) :
      BusOp.status ∈ s.pending_ →
      HandleStatus E ec
        { s with pending_ := s.pending_.erase BusOp.status, status_reply_ := reply } = some s' →
      Step E s s'
  | commandDone (s s' : Impl) (ec : Bool) (reply : ClientReply) :
      BusOp.command ∈ s.pending_ →
      HandleCommand E ec
        { s with pending_ := s.pending_.erase BusOp.command,
                 client_command_reply_ := reply } = some s' →
      Step E s s'
  | command (s : Impl) (c : QC) : Step E s (Command E c s)
  | asyncStart (s s' : Impl) (config : Config) :
      AsyncStart config s = some s' → Step E s s'
  | setClient (s : Impl) (client : Bool) : Step E s (SetClient client s)

/-- The states the engine can be in between two handlers, starting from the engine
as constructed. -/
inductive Reachable (E : Extern) : Impl → Prop
  | fresh : Reachable E {}
  | step (s s' : Impl) : Reachable E s → Step E s s' → Reachable E s'

/-- The invariant of the cycle state machine. -/
def SingleInFlight (s : Impl) : Prop :=
  (s.outstanding_ = true ↔ s.pending_ ≠ []) ∧
    s.pending_.length ≤ 1 ∧
    readsIssued s = cyclesEnded s + (if s.outstanding_ then 1 else 0)

/-- The engine after `SetClient` and a first timer tick. -/
def firstRead : Impl :=
  { client_ := true,
    outstanding_ := true,
    now_calls_ := 1,
    trace_ := [Event.AsyncRegister BusOp.status {}],
    pending_ := [BusOp.status] }

/-! ## Vocabulary of the statements, continued -/

/-- Between `s` and `s'` the configuration, the legs, the operator command and the
kinematic part of the snapshot are the same. -/
def SameSetup (s s' : Impl) : Prop :=
  s'.config_ = s.config_ ∧ s'.legs_ = s.legs_ ∧
    s'.current_command_ = s.current_command_ ∧
    s'.status_.state.joints = s.status_.state.joints ∧
    s'.status_.state.legs_B = s.status_.state.legs_B ∧
    s'.status_.state.robot = s.status_.state.robot

/-- The value written at index `i` of the trailing block for an absent optional
field: gain scale 1 for `kp_scale` (3) and `kd_scale` (4), torque limit +infinity
for `max_torque_Nm` (5), and the encoding of `sign * NaN` for `stop_angle_deg`
(6). -/
def absentDefault (E : Extern) (sign : Dbl) (i : Nat) : Option Value :=
  match i with
  | 3 => some (E.WritePwm (Dbl.fin 1) Resolution.kInt16)
  | 4 => some (E.WritePwm (Dbl.fin 1) Resolution.kInt16)
  | 5 => some (E.WriteTorque Dbl.pinf Resolution.kInt16)
  | 6 => some (E.WritePosition (sign.mul Dbl.nan) Resolution.kInt16)
  | _ => none

/-- A Position-mode command for joint 1 that sets only `stop_angle_deg`. -/
def stopAngleOnly : QCJoint :=
  { id := 1, power := true, stop_angle_deg := some (Dbl.fin 135) }

/-- The zero-velocity hold: one joint command per configured joint, in
configuration order, with the power on and `zero_velocity` set. -/
def holdCommands (config : Config) : List QCJoint :=
  config.joints.map (fun joint => { id := joint.id, power := true, zero_velocity := true })

/-- The frames of the zero-velocity hold: for each configured joint the single
write of the mode register with PositionTimeout. -/
def holdFrames (config : Config) : List Request :=
  config.joints.map (fun joint =>
    { id := joint.id,
      request := [RegisterOp.WriteSingle kMode
        (Value.kInt8 MoteusMode.kPositionTimeout.toInt8)] })

/-- The commands of the Stopped mode: one joint command per configured joint, in
configuration order, with the power off. -/
def stoppedCommands (config : Config) : List QCJoint :=
  config.joints.map (fun joint => { id := joint.id, power := false })

/-- The frames of the Stopped mode: for each configured joint the single write of
the mode register with Stopped. -/
def stoppedFrames (config : Config) : List Request :=
  config.joints.map (fun joint =>
    { id := joint.id,
      request := [RegisterOp.WriteSingle kMode (Value.kInt8 MoteusMode.kStopped.toInt8)] })

/-- A configuration with twelve joints (ids 1 to 12, every third one mounted
mirrored) and four legs, leg `n` using the joints `3n+1`, `3n+2`, `3n+3`. -/
def quadConfig : Config :=
  { joints :=
      [{ id := 1 }, { id := 2 }, { id := 3, sign := Dbl.fin (-1) },
       { id := 4 }, { id := 5 }, { id := 6, sign := Dbl.fin (-1) },
       { id := 7 }, { id := 8 }, { id := 9, sign := Dbl.fin (-1) },
       { id := 10 }, { id := 11 }, { id := 12, sign := Dbl.fin (-1) }],
    legs :=
      [{ leg := 0, ik := { shoulder := { id := 1 }, femur := { id := 2 }, tibia := { id := 3 } } },
       { leg := 1, ik := { shoulder := { id := 4 }, femur := { id := 5 }, tibia := { id := 6 } } },
       { leg := 2, ik := { shoulder := { id := 7 }, femur := { id := 8 }, tibia := { id := 9 } } },
       { leg := 3, ik := { shoulder := { id := 10 }, femur := { id := 11 },
                            tibia := { id := 12 } } }] }

/-- The engine after `AsyncStart` with `quadConfig` and `SetClient`: nothing has
run yet, no operator command was received. -/
def started : Impl :=
  { config_ := quadConfig,
    legs_ := quadConfig.legs.map Leg.ofConfig,
    client_ := true,
    status_request_ :=
      { requests := quadConfig.joints.map (fun joint =>
          { id := joint.id,
            request := [RegisterOp.ReadMultiple kMode 4 1,
                        RegisterOp.ReadMultiple kVoltage 3 0] }) } }

/-- The joint id belongs to a joint of the configuration. -/
def Configured (config : Config) (id : Int) : Prop :=
  ∃ joint ∈ config.joints, joint.id = id

instance (config : Config) (id : Int) : Decidable (Configured config id) := by
  unfold Configured
  exact inferInstance

/-- The command `DoControl_StandUp_Prepositioning` builds for one joint of a leg:
power on, free `angle_deg` (a NaN), the stand-up velocity and torque limit, and
the pose angle as the stop angle. -/
def prepositionCommand (stand_up : ConfigStandUp) (id : Int) (angle_deg : Dbl) : QCJoint :=
  { id := id,
    power := true,
    angle_deg := Dbl.nan,
    velocity_dps := stand_up.velocity_dps,
    max_torque_Nm := some stand_up.max_preposition_torque_Nm,
    stop_angle_deg := some angle_deg }

/-- The preposition commands of all legs: for each leg in order its shoulder,
femur and tibia command. -/
def prepositionCommands (stand_up : ConfigStandUp) : List Leg → List QCJoint
  | [] => []
  | leg :: rest =>
    prepositionCommand stand_up leg.config.ik.shoulder.id stand_up.pose.shoulder_deg ::
    prepositionCommand stand_up leg.config.ik.femur.id stand_up.pose.femur_deg ::
    prepositionCommand stand_up leg.config.ik.tibia.id stand_up.pose.tibia_deg ::
    prepositionCommands stand_up rest

/-- The started engine in mode `mode`, holding the operator command `command`. -/
def startedIn (mode : Mode) (command : QC) : Impl :=
  { started with status_ := { mode := mode }, current_command_ := command }

/-- The command frame list of `s` is what `EmitControl` builds from the control
log of `s`. -/
def Marshalled (E : Extern) (s : Impl) : Prop :=
  ∃ cache values,
    emitJoints E s.config_ s.control_log_.joints [] cache =
      some (s.client_command_.requests, values)

/-- The started engine in Joint mode, the operator asking for joint 99, which is
not configured, to be switched off. -/
def strayJoint : Impl :=
  startedIn Mode.kJoint { mode := Mode.kJoint, joints := [{ id := 99, power := false }] }

/-- Joint states for the twelve joints of `quadConfig`, every shoulder at
`shoulder`, every femur at `femur` and every tibia at `tibia` degrees. -/
def jointsAt (shoulder femur tibia : Dbl) : List StateJoint :=
  [{ id := 1, angle_deg := shoulder }, { id := 2, angle_deg := femur },
   { id := 3, angle_deg := tibia },
   { id := 4, angle_deg := shoulder }, { id := 5, angle_deg := femur },
   { id := 6, angle_deg := tibia },
   { id := 7, angle_deg := shoulder }, { id := 8, angle_deg := femur },
   { id := 9, angle_deg := tibia },
   { id := 10, angle_deg := shoulder }, { id := 11, angle_deg := femur },
   { id := 12, angle_deg := tibia }]

/-- The started engine in StandUp, substate `kPrepositioning`, the operator still
asking for StandUp, no time elapsed since `mode_start`, with the joints at the
given angles. -/
def standingUp (shoulder femur tibia : Dbl) : Impl :=
  { started with
    status_ := { mode := Mode.kStandUp,
                 state := { joints := jointsAt shoulder femur tibia } },
    current_command_ := { mode := Mode.kStandUp } }

/-- The started engine in StandUp whose `mode_start` lies five seconds before
the first clock reading. -/
def overdue : Impl :=
  { started with
    status_ := { mode := Mode.kStandUp, mode_start := -5000000,
                 state := { joints := jointsAt (Dbl.fin 0) (Dbl.fin 0) (Dbl.fin 0) } },
    current_command_ := { mode := Mode.kStandUp } }


/-- C++ `x <= y` on doubles: false as soon as one side is a NaN. -/
def Dbl.le : Dbl → Dbl → Bool
  | Dbl.nan, _ => false
  | _, Dbl.nan => false
  | Dbl.ninf, _ => true
  | _, Dbl.pinf => true
  | Dbl.pinf, _ => false
  | Dbl.fin _, Dbl.ninf => false
  | Dbl.fin a, Dbl.fin b => decide (a ≤ b)

/-- The angle of the joint `id` in the snapshot differs from `target` by at most
`stand_up.tolerance_deg`. -/
def nearTarget (s : Impl) (id : Int) (target : Dbl) : Bool :=
  match s.status_.state.joints.find? (fun joint => joint.id == id) with
  | some joint => ((joint.angle_deg.sub target).abs).le s.config_.stand_up.tolerance_deg
  | none => false

/-- The completion condition of the preposition as the specification words it:
for every leg the shoulder, femur and tibia angles each differ from
`stand_up.pose.shoulder_deg`, `femur_deg` and `tibia_deg` by at most
`tolerance_deg`. -/
def withinTolerance (s : Impl) : Bool :=
  s.legs_.all (fun leg =>
    nearTarget s leg.config.ik.shoulder.id s.config_.stand_up.pose.shoulder_deg &&
    nearTarget s leg.config.ik.femur.id s.config_.stand_up.pose.femur_deg &&
    nearTarget s leg.config.ik.tibia.id s.config_.stand_up.pose.tibia_deg)

/-- The engine in StandUp with a femur target of 135.5 degrees and a tolerance of
a quarter of a degree, the femurs standing at `femur` degrees and the other joints
at their targets. -/
def halfDegree (femur : Dbl) : Impl :=
  { standingUp (Dbl.fin 0) femur (Dbl.fin (-120)) with
    config_ := { quadConfig with
      stand_up := { pose := { femur_deg := Dbl.fin (271 / 2) },
                    tolerance_deg := Dbl.fin (1 / 4) } } }

/-- The started engine in Leg mode. -/
def legMode (legs_B : List QCLeg) : Impl :=
  startedIn Mode.kLeg { mode := Mode.kLeg, legs_B := legs_B }

/-- The started engine in the middle of its first cycle: the status read has
completed with twelve replies, one per configured joint, each reporting mode 0 and
position 0. -/
def bringUp : Impl :=
  { started with
    outstanding_ := true,
    status_reply_ :=
      { replies := quadConfig.joints.map (fun joint =>
          { id := joint.id,
            reply := [(kMode, some (Value.kInt8 0)), (kPosition, some (Value.kInt16 0))] }) } }

/-- The value a reply holds for `register`: of the entries of the reply under that
register that carry a value, the last one. -/
def registerValue (register : Register) (reply : SingleReply) : Option Value :=
  (reply.reply.filterMap (fun pair => if pair.1 = register then pair.2 else none)).getLast?

/-- A quantity as the snapshot exposes it: the decoded value of `register` with
the joint's sign applied; zero, the value of a fresh record, when the reply holds
nothing for the register. -/
def exposed (sign : Dbl) (read : Value → Dbl) (register : Register)
    (reply : SingleReply) : Dbl :=
  match registerValue register reply with
  | some v => sign.mul (read v)
  | none => Dbl.zero

/-- The link record and the solver record of a reply agree with its joint state
on the id, the angle, the velocity and the torque. -/
def Aligned (o : ReplyOut) : Prop :=
  (o.out_link.id = o.out_joint.id ∧ o.out_link.angle_deg = o.out_joint.angle_deg ∧
    o.out_link.velocity_dps = o.out_joint.velocity_dps ∧
    o.out_link.torque_Nm = o.out_joint.torque_Nm) ∧
  (o.ik_joint.id = o.out_joint.id ∧ o.ik_joint.angle_deg = o.out_joint.angle_deg ∧
    o.ik_joint.velocity_dps = o.out_joint.velocity_dps ∧
    o.ik_joint.torque_Nm = o.out_joint.torque_Nm)

/-- The started engine holding the replies of a status read: each of the twelve
joints reports mode 10, position 20, velocity 5 and torque 1. -/
def telemetry : Impl :=
  { started with
    outstanding_ := true,
    status_reply_ :=
      { replies := quadConfig.joints.map (fun joint =>
          { id := joint.id,
            reply := [(kMode, some (Value.kInt8 10)),
                      (kPosition, some (Value.kFloat (Dbl.fin 20))),
                      (kVelocity, some (Value.kFloat (Dbl.fin 5))),
                      (kTorque, some (Value.kFloat (Dbl.fin 1)))] }) } }

/-! ## Vocabulary of the statements: the control step -/

/-- The engine state `s` with the robot-frame leg commands of the operator command
it holds replaced by `legs_R`. -/
def withLegsR (legs_R : List QCLeg) (s : Impl) : Impl :=
  { s with current_command_ := { s.current_command_ with legs_R := legs_R } }

/-- The states the engine can be in where a control step starts or ends: the
engine as constructed, and what follows it by control steps, by operator commands
and by anything else that leaves the mode and the stand-up substate as they are
(which is what the snapshot builder, the scheduler and the start-up code do). -/
inductive ControlReachable (E : Extern) : Impl → Prop
  | fresh : ControlReachable E {}
  | control (s s' : Impl) :
      ControlReachable E s → RunControl E s = some s' → ControlReachable E s'
  | command (s : Impl) (c : QC) : ControlReachable E s → ControlReachable E (Command E c s)
  | other (s s' : Impl) :
      ControlReachable E s → s'.status_.mode = s.status_.mode →
      s'.status_.state.stand_up = s.status_.state.stand_up → ControlReachable E s'

/-- The invariant of the stand-up submachine: the substate is never `kDone`, and
it is `kPrepositioning` whenever the mode is StandUp. -/
def StandUpInvariant (s : Impl) : Prop :=
  s.status_.state.stand_up.mode ≠ StandUpMode.kDone ∧
    (s.status_.mode = Mode.kStandUp →
      s.status_.state.stand_up.mode = StandUpMode.kPrepositioning)

/-- The started engine at rest, the joints standing at the stand-up pose, the
operator asking for StandUp. -/
def aboutToStand : Impl :=
  { started with
    status_ := { state := { joints := jointsAt (Dbl.fin 0) (Dbl.fin 135) (Dbl.fin (-120)) } },
    current_command_ := { mode := Mode.kStandUp } }

/-! ## Vocabulary of the statements: the timeout at the rounding boundary -/

/-- The collaborators of `bench`, except that the duration of 300000 microseconds
is converted as the division `300000 / 1e6` of two doubles converts it: to the
double nearest to 3/10, which is `5404319552844595 / 2^54` and lies below 3/10. -/
def rounded : Extern :=
  { bench with
    ConvertDurationToSeconds := fun d =>
      if d = 300000 then Dbl.fin (5404319552844595 / 18014398509481984)
      else Dbl.fin ((d : ℚ) / 1000000) }

/-- The started engine in StandUp, the joints at zero degrees, whose `mode_start`
lies 300000 microseconds before the first clock reading and whose
`stand_up.timeout_s` is the double written `0.3`, that is
`5404319552844595 / 2^54`. -/
def onTheDot : Impl :=
  { started with
    config_ := { quadConfig with
      stand_up := { timeout_s := Dbl.fin (5404319552844595 / 18014398509481984) } },
    status_ := { mode := Mode.kStandUp, mode_start := -300000,
                 state := { joints := jointsAt (Dbl.fin 0) (Dbl.fin 0) (Dbl.fin 0) } },
    current_command_ := { mode := Mode.kStandUp } }

/-! # Theorems -/

/-! ## The mode machine -/

/-- C1. Mode transition table.  When the requested mode `r` differs from the
current mode `m` and is one of Stopped, ZeroVelocity, Joint, Leg, StandUp, the
mode-change step of `RunControl` returns, and the mode afterwards is: Stopped when
`r` is Stopped; `r` when `r` is ZeroVelocity, Joint or Leg and `m` is not Fault;
StandUp when `r` is StandUp and `m` is Stopped; and `m` when `r` is ZeroVelocity,
Joint or Leg and `m` is Fault, or `r` is StandUp and `m` is not Stopped. -/
theorem mode_transition_table (E : Extern) (s : Impl)
    (hne : s.current_command_.mode ≠ s.status_.mode)
    (hr : s.current_command_.mode = Mode.kStopped ∨
          s.current_command_.mode = Mode.kZeroVelocity ∨
          s.current_command_.mode = Mode.kJoint ∨
          s.current_command_.mode = Mode.kLeg ∨
          s.current_command_.mode = Mode.kStandUp) :
    ∃ s', modeChangeStep E s = some s' ∧
      (s.current_command_.mode = Mode.kStopped → s'.status_.mode = Mode.kStopped) ∧
      ((s.current_command_.mode = Mode.kZeroVelocity ∨
        s.current_command_.mode = Mode.kJoint ∨
        s.current_command_.mode = Mode.kLeg) →
        (s.status_.mode ≠ Mode.kFault → s'.status_.mode = s.current_command_.mode) ∧
        (s.status_.mode = Mode.kFault → s'.status_.mode = s.status_.mode)) ∧
      (s.current_command_.mode = Mode.kStandUp →
        (s.status_.mode = Mode.kStopped → s'.status_.mode = Mode.kStandUp) ∧
        (s.status_.mode ≠ Mode.kStopped → s'.status_.mode = s.status_.mode)) := by
  cases hm : s.status_.mode <;> cases hc : s.current_command_.mode <;>
    simp_all [modeChangeStep, MaybeChangeMode, stampModeStart, Now]

/-- C1, evaluated: Joint requested while Stopped is granted. -/
theorem mode_transition_table_witness :
    (idle { mode := Mode.kJoint }).current_command_.mode ≠
        (idle { mode := Mode.kJoint }).status_.mode ∧
      ∃ s', modeChangeStep bench (idle { mode := Mode.kJoint }) = some s' ∧
        s'.status_.mode = Mode.kJoint :=
  ⟨by decide,
    match mode_transition_table bench (idle { mode := Mode.kJoint }) (by decide)
        (Or.inr (Or.inr (Or.inl rfl))) with
    | ⟨s', h, _, hj, _⟩ => ⟨s', h, (hj (Or.inr (Or.inl rfl))).1 (by decide)⟩⟩

/-! ## Frames without a trailing block -/

theorem resize_zero (values : List Value) : resize values 0 = [] := by
  simp [resize]

theorem emitJoint_of_not_position (E : Extern) (config : Config) (joint : QCJoint)
    (cache : List Value) (h : wireMode joint ≠ MoteusMode.kPosition) :
    emitJoint E config joint cache = some (modeOnlyRequest joint, []) := by
  simp [emitJoint, h, resize_zero, modeOnlyRequest]

theorem emitJoints_of_not_position (E : Extern) (config : Config) :
    ∀ (joints : List QCJoint) (requests : List Request) (cache : List Value),
      (∀ joint ∈ joints, wireMode joint ≠ MoteusMode.kPosition) →
      ∃ values, emitJoints E config joints requests cache =
        some (requests ++ joints.map modeOnlyRequest, values)
  | [], requests, cache, _ => ⟨cache, by simp [emitJoints]⟩
  | joint :: rest, requests, cache, h => by
    have hj : wireMode joint ≠ MoteusMode.kPosition := h joint (List.mem_cons_self _ _)
    have hrest : ∀ j ∈ rest, wireMode j ≠ MoteusMode.kPosition :=
      fun j hjm => h j (List.mem_cons_of_mem _ hjm)
    obtain ⟨values, hv⟩ :=
      emitJoints_of_not_position E config rest (requests ++ [modeOnlyRequest joint]) [] hrest
    refine ⟨values, ?_⟩
    simp [emitJoints, emitJoint_of_not_position E config joint cache hj, hv]

/-- What `EmitControl` leaves untouched, and what it publishes. -/
theorem EmitControl_frame (E : Extern) (s s' : Impl) (h : EmitControl E s = some s') :
    s'.status_ = s.status_ ∧ s'.outstanding_ = s.outstanding_ ∧
      s'.pending_ = s.pending_ ∧ s'.client_ = s.client_ ∧
      s'.config_ = s.config_ ∧ s'.legs_ = s.legs_ ∧
      s'.current_command_ = s.current_command_ ∧
      s'.control_log_.joints = s.control_log_.joints := by
  unfold EmitControl at h
  simp only [Now, emit] at h
  split at h
  · exact absurd h (by simp)
  · simp only [Option.some.injEq] at h
    subst h
    simp

/-- A command vector without any Position-mode joint is always marshalled: every
frame is the single mode write. -/
theorem ControlJoints_of_not_position (E : Extern) (joints : List QCJoint) (s : Impl)
    (h : ∀ joint ∈ joints, wireMode joint ≠ MoteusMode.kPosition) :
    ∃ s', ControlJoints E joints s = some s' ∧ s'.status_ = s.status_ ∧
      s'.control_log_.joints = joints ∧
      s'.client_command_.requests = joints.map modeOnlyRequest := by
  obtain ⟨values, hv⟩ := emitJoints_of_not_position E s.config_ joints [] s.values_cache_ h
  simp only [List.nil_append] at hv
  cases hc : ControlJoints E joints s with
  | none => simp [ControlJoints, EmitControl, Now, emit, hv] at hc
  | some s' =>
    simp only [ControlJoints, EmitControl, Now, emit, hv, Option.some.injEq] at hc
    subst hc
    exact ⟨_, rfl, rfl, rfl, rfl⟩

theorem DoControl_ZeroVelocity_ok (E : Extern) (s : Impl) :
    ∃ s', DoControl_ZeroVelocity E s = some s' ∧ s'.status_ = s.status_ ∧
      s'.control_log_.joints = s.config_.joints.map (fun joint =>
        ({ id := joint.id, power := true, zero_velocity := true } : QCJoint)) ∧
      s'.client_command_.requests = s.config_.joints.map (fun joint =>
        ({ id := joint.id, request := [RegisterOp.WriteSingle kMode
            (Value.kInt8 MoteusMode.kPositionTimeout.toInt8)] } : Request)) := by
  obtain ⟨s', h1, h2, h3, h4⟩ := ControlJoints_of_not_position E
    (s.config_.joints.map (fun joint =>
      ({ id := joint.id, power := true, zero_velocity := true } : QCJoint))) s
    (by intro j hj; simp only [List.mem_map] at hj; obtain ⟨c, _, rfl⟩ := hj; simp [wireMode])
  refine ⟨s', h1, h2, h3, ?_⟩
  rw [h4, List.map_map]
  rfl

theorem DoControl_Stopped_ok (E : Extern) (s : Impl) :
    ∃ s', DoControl_Stopped E s = some s' ∧ s'.status_ = s.status_ ∧
      s'.control_log_.joints = s.config_.joints.map (fun joint =>
        ({ id := joint.id, power := false } : QCJoint)) ∧
      s'.client_command_.requests = s.config_.joints.map (fun joint =>
        ({ id := joint.id, request := [RegisterOp.WriteSingle kMode
            (Value.kInt8 MoteusMode.kStopped.toInt8)] } : Request)) := by
  obtain ⟨s', h1, h2, h3, h4⟩ := ControlJoints_of_not_position E
    (s.config_.joints.map (fun joint => ({ id := joint.id, power := false } : QCJoint))) s
    (by intro j hj; simp only [List.mem_map] at hj; obtain ⟨c, _, rfl⟩ := hj; simp [wireMode])
  refine ⟨s', h1, h2, h3, ?_⟩
  rw [h4, List.map_map]
  rfl

/-- A request of Stopped is granted from every mode. -/
theorem stopped_request_granted (E : Extern) (s : Impl)
    (h : s.current_command_.mode = Mode.kStopped) :
    ∃ s', modeChangeStep E s = some s' ∧ s'.status_.mode = Mode.kStopped := by
  cases hm : s.status_.mode <;>
    simp_all [modeChangeStep, MaybeChangeMode, stampModeStart, Now]

/-! ### Requests the table denies -/

/-- C2, as stated, fails: with the engine in Stopped, a control step whose operator
command asks for Fault does not complete (it reaches `AssertNotReached` in
`MaybeChangeMode`), so there is no state after the step in which the mode and
`mode_start` are unchanged. -/
theorem requested_fault_from_stopped_aborts :
    ¬ ∃ s', RunControl bench (idle { mode := Mode.kFault }) = some s' ∧
      s'.status_.mode = (idle { mode := Mode.kFault }).status_.mode ∧
      s'.status_.mode_start = (idle { mode := Mode.kFault }).status_.mode_start := by
  rintro ⟨s', h, _⟩
  simp [RunControl, modeChangeStep, MaybeChangeMode, idle] at h

/-- C2, amended.  A control step whose operator command asks for Fault completes
only when the engine is already in Fault, and then leaves the mode and
`mode_start` unchanged; from every other mode the step aborts in
`MaybeChangeMode` (the `kFault` arm is `AssertNotReached`).  Either way Fault is
never entered because the operator requested it. -/
theorem requested_fault (E : Extern) (s : Impl)
    (hc : s.current_command_.mode = Mode.kFault) :
    (s.status_.mode = Mode.kFault →
      ∃ s', RunControl E s = some s' ∧ s'.status_.mode = Mode.kFault ∧
        s'.status_.mode_start = s.status_.mode_start) ∧
    (s.status_.mode ≠ Mode.kFault → RunControl E s = none) ∧
    (∀ s', RunControl E s = some s' → s.status_.mode = Mode.kFault) := by
  have habort : s.status_.mode ≠ Mode.kFault → RunControl E s = none := by
    intro hm
    have hne : ¬ (Mode.kFault = s.status_.mode) := fun h => hm h.symm
    simp [RunControl, modeChangeStep, MaybeChangeMode, hc, hne]
  refine ⟨?_, habort, ?_⟩
  · intro hm
    obtain ⟨s', h1, h2, _⟩ := DoControl_ZeroVelocity_ok E s
    refine ⟨s', ?_, ?_, ?_⟩
    · simp [RunControl, modeChangeStep, hc, hm, dispatchControl, DoControl_Fault, h1]
    · rw [h2, hm]
    · rw [h2]
  · intro s' h
    by_contra hm
    rw [habort hm] at h
    exact absurd h (by simp)

/-- C2 amended, evaluated: Fault requested while in Fault, and while Stopped. -/
theorem requested_fault_witness :
    (inMode Mode.kFault { mode := Mode.kFault }).current_command_.mode = Mode.kFault ∧
      (∃ s', RunControl bench (inMode Mode.kFault { mode := Mode.kFault }) = some s' ∧
        s'.status_.mode = Mode.kFault ∧ s'.status_.mode_start = 0) :=
  ⟨rfl, (requested_fault bench (inMode Mode.kFault { mode := Mode.kFault }) rfl).1 rfl⟩

/-- C3. A denied transition changes nothing.  When the request is ZeroVelocity,
Joint or Leg and the mode is Fault, or the request is StandUp and the mode is not
Stopped, the mode-change step returns the state it was given: mode, `mode_start`,
the fault message and the stand-up substate are as they were.  In particular, from
Fault a request of Joint leaves the mode Fault and `mode_start` unchanged, and a
following request of Stopped is accepted. -/
theorem denied_transition_frame (E : Extern) (s : Impl)
    (hden : ((s.current_command_.mode = Mode.kZeroVelocity ∨
              s.current_command_.mode = Mode.kJoint ∨
              s.current_command_.mode = Mode.kLeg) ∧ s.status_.mode = Mode.kFault) ∨
            (s.current_command_.mode = Mode.kStandUp ∧ s.status_.mode ≠ Mode.kStopped)) :
    (∃ s', modeChangeStep E s = some s' ∧
      s'.status_.mode = s.status_.mode ∧
      s'.status_.mode_start = s.status_.mode_start ∧
      s'.status_.fault = s.status_.fault ∧
      s'.status_.state.stand_up = s.status_.state.stand_up ∧
      s' = s) ∧
    (s.status_.mode = Mode.kFault → s.current_command_.mode = Mode.kJoint →
      ∀ later : QC, later.mode = Mode.kStopped →
        ∃ s' s'', modeChangeStep E s = some s' ∧
          s'.status_.mode = Mode.kFault ∧
          s'.status_.mode_start = s.status_.mode_start ∧
          modeChangeStep E (Command E later s') = some s'' ∧
          s''.status_.mode = Mode.kStopped) := by
  have hsame : modeChangeStep E s = some s := by
    rcases hden with ⟨hr, hm⟩ | ⟨hr, hm⟩
    · rcases hr with hr | hr | hr <;>
        simp [modeChangeStep, MaybeChangeMode, hr, hm]
    · simp [modeChangeStep, MaybeChangeMode, hr, hm]
  refine ⟨⟨s, hsame, rfl, rfl, rfl, rfl, rfl⟩, ?_⟩
  intro hm _ later hlater
  obtain ⟨s'', h1, h2⟩ := stopped_request_granted E (Command E later s)
    (by simp [Command, Now, emit, hlater])
  exact ⟨s, s'', hsame, hm, rfl, h1, h2⟩

/-- C3, evaluated: Joint requested while in Fault. -/
theorem denied_transition_frame_witness :
    (inMode Mode.kFault { mode := Mode.kJoint }).current_command_.mode = Mode.kJoint ∧
      (inMode Mode.kFault { mode := Mode.kJoint }).status_.mode = Mode.kFault ∧
      modeChangeStep bench (inMode Mode.kFault { mode := Mode.kJoint }) =
        some (inMode Mode.kFault { mode := Mode.kJoint }) :=
  ⟨rfl, rfl,
    match (denied_transition_frame bench (inMode Mode.kFault { mode := Mode.kJoint })
        (Or.inl ⟨Or.inr (Or.inl rfl), rfl⟩)).1 with
    | ⟨_, h, _, _, _, _, he⟩ => he ▸ h⟩

/-- C4. On every accepted transition (the requested mode differs from the current
one and the table permits it) the mode-change step sets `mode_start` to the
reading of the clock taken in that step; and when the transition enters StandUp
the stand-up substate afterwards is `kPrepositioning`, whatever it was. -/
theorem accepted_transition_stamps (E : Extern) (s : Impl)
    (hne : s.current_command_.mode ≠ s.status_.mode)
    (hacc : s.current_command_.mode = Mode.kStopped ∨
            ((s.current_command_.mode = Mode.kZeroVelocity ∨
              s.current_command_.mode = Mode.kJoint ∨
              s.current_command_.mode = Mode.kLeg) ∧ s.status_.mode ≠ Mode.kFault) ∨
            (s.current_command_.mode = Mode.kStandUp ∧ s.status_.mode = Mode.kStopped)) :
    ∃ s', modeChangeStep E s = some s' ∧
      s'.status_.mode = s.current_command_.mode ∧
      s'.status_.mode_start = E.Now s.now_calls_ ∧
      (s.current_command_.mode = Mode.kStandUp →
        s'.status_.state.stand_up.mode = StandUpMode.kPrepositioning) := by
  cases hm : s.status_.mode <;> cases hc : s.current_command_.mode <;>
    simp_all [modeChangeStep, MaybeChangeMode, stampModeStart, Now]

/-- C4, evaluated: StandUp requested while Stopped, with the substate left at
`kDone` by an earlier run. -/
theorem accepted_transition_stamps_witness :
    ∃ s', modeChangeStep bench
        { status_ := { state := { stand_up := { mode := StandUpMode.kDone } } },
          current_command_ := { mode := Mode.kStandUp }, now_calls_ := 7 } = some s' ∧
      s'.status_.mode = Mode.kStandUp ∧
      s'.status_.mode_start = 7000 ∧
      s'.status_.state.stand_up.mode = StandUpMode.kPrepositioning :=
  match accepted_transition_stamps bench
      { status_ := { state := { stand_up := { mode := StandUpMode.kDone } } },
        current_command_ := { mode := Mode.kStandUp }, now_calls_ := 7 }
      (by decide) (Or.inr (Or.inr ⟨rfl, rfl⟩)) with
  | ⟨s', h, hm, ht, hs⟩ => ⟨s', h, hm, ht, hs rfl⟩

/-- C5. Fault is left only on an operator request of Stopped.  From a state in
Fault, a full control step (`RunControl`) with an operator command whose mode is
one of the modes other than Stopped (the enumeration's end marker `kNumModes` is
not a mode) completes and ends in Fault; with an operator command of mode Stopped
it completes and ends in Stopped. -/
theorem fault_left_only_by_stopped (E : Extern) (s : Impl)
    (hm : s.status_.mode = Mode.kFault) :
    (s.current_command_.mode ≠ Mode.kStopped →
      s.current_command_.mode ≠ Mode.kNumModes →
      ∃ s', RunControl E s = some s' ∧ s'.status_.mode = Mode.kFault) ∧
    (s.current_command_.mode = Mode.kStopped →
      ∃ s', RunControl E s = some s' ∧ s'.status_.mode = Mode.kStopped) := by
  constructor
  · intro hns hnn
    have hstep : modeChangeStep E s = some s := by
      cases hc : s.current_command_.mode <;>
        simp_all [modeChangeStep, MaybeChangeMode]
    obtain ⟨s', h1, h2, _⟩ := DoControl_ZeroVelocity_ok E s
    exact ⟨s', by simp [RunControl, hstep, dispatchControl, hm, DoControl_Fault, h1],
      by rw [h2, hm]⟩
  · intro hc
    have hstep : modeChangeStep E s = some (stampModeStart E Mode.kFault
        { s with status_ := { s.status_ with mode := Mode.kStopped } }) := by
      simp [modeChangeStep, MaybeChangeMode, hc, hm]
    have hmode : (stampModeStart E Mode.kFault
        { s with status_ := { s.status_ with mode := Mode.kStopped } }).status_.mode =
        Mode.kStopped := by
      simp [stampModeStart, Now]
    obtain ⟨s', h1, h2, _⟩ := DoControl_Stopped_ok E (stampModeStart E Mode.kFault
        { s with status_ := { s.status_ with mode := Mode.kStopped } })
    exact ⟨s', by simp [RunControl, hstep, dispatchControl, hmode, h1], by rw [h2, hmode]⟩

/-- C5, evaluated: in Fault, a Leg command keeps Fault and a Stopped command
leaves it. -/
theorem fault_left_only_by_stopped_witness :
    (inMode Mode.kFault { mode := Mode.kLeg }).status_.mode = Mode.kFault ∧
      (∃ s', RunControl bench (inMode Mode.kFault { mode := Mode.kLeg }) = some s' ∧
        s'.status_.mode = Mode.kFault) ∧
      (∃ s', RunControl bench (inMode Mode.kFault { mode := Mode.kStopped }) = some s' ∧
        s'.status_.mode = Mode.kStopped) :=
  ⟨rfl,
    (fault_left_only_by_stopped bench (inMode Mode.kFault { mode := Mode.kLeg }) rfl).1
      (by decide) (by decide),
    (fault_left_only_by_stopped bench (inMode Mode.kFault { mode := Mode.kStopped }) rfl).2
      rfl⟩

/-! ## The cycle scheduler -/

/-- C6. Short telemetry aborts the cycle.  When the status read completes without
error and `status_reply_` holds a number of replies other than 12, `HandleStatus`
returns with `outstanding_` cleared; the only action it performs is the warning
(no command write is issued, no control or status record is emitted); `Status`,
the control log and the command frame built earlier are unchanged; and, with a
transport attached, the next timer tick issues a status read. -/
theorem short_telemetry_aborts (E : Extern) (s : Impl)
    (hlen : s.status_reply_.replies.length ≠ 12) :
    ∃ s', HandleStatus E false s = some s' ∧
      s'.outstanding_ = false ∧
      s'.trace_ = s.trace_ ++
        [Event.warn ("missing replies, sz=" ++ toString s.status_reply_.replies.length)] ∧
      s'.pending_ = s.pending_ ∧
      s'.status_ = s.status_ ∧
      s'.control_log_ = s.control_log_ ∧
      s'.client_command_ = s.client_command_ ∧
      (s.client_ = true →
        ∃ s'', HandleTimer E false s' = some s'' ∧
          s''.outstanding_ = true ∧
          s''.pending_ = s.pending_ ++ [BusOp.status] ∧
          s''.status_reply_ = {} ∧
          s''.trace_ = s'.trace_ ++ [Event.AsyncRegister BusOp.status s.status_request_]) := by
  cases hs : HandleStatus E false s with
  | none => simp [HandleStatus, Now, emit, hlen] at hs
  | some s' =>
    simp [HandleStatus, Now, emit, hlen] at hs
    subst hs
    refine ⟨_, rfl, rfl, rfl, rfl, rfl, rfl, rfl, ?_⟩
    intro hc
    cases ht : HandleTimer E false
        { s with
          timestamps_ := { s.timestamps_ with status_done := E.Now s.now_calls_ },
          now_calls_ := s.now_calls_ + 1,
          trace_ := s.trace_ ++ [Event.warn
            ("missing replies, sz=" ++ toString s.status_reply_.replies.length)],
          outstanding_ := false } with
    | none => simp [HandleTimer, AsyncRegister, Now, emit, hc] at ht
    | some s'' =>
      simp [HandleTimer, AsyncRegister, Now, emit, hc] at ht
      subst ht
      exact ⟨_, rfl, rfl, rfl, rfl, by simp⟩

/-- C6, evaluated: eleven replies. -/
theorem short_telemetry_aborts_witness :
    (midCycle 11).status_reply_.replies.length ≠ 12 ∧
      ∃ s', HandleStatus bench false (midCycle 11) = some s' ∧
        s'.outstanding_ = false ∧
        s'.trace_ = [Event.warn "missing replies, sz=11"] ∧
        s'.client_command_ = (midCycle 11).client_command_ :=
  ⟨by decide,
    match short_telemetry_aborts bench (midCycle 11) (by decide) with
    | ⟨s', h, ho, ht, _, _, _, hc, _⟩ => ⟨s', h, ho, ht, hc⟩⟩

/-- C8. A timer tick that arrives while `outstanding_` is set, or while no
transport is attached, is dropped: `HandleTimer` returns the engine state it was
given, so no status read is issued, nothing is recorded for later, and the flag,
`cycle_start`, the reply buffer and `Status` are as they were. -/
theorem timer_tick_dropped (E : Extern) (s : Impl)
    (h : s.outstanding_ = true ∨ s.client_ = false) :
    HandleTimer E false s = some s := by
  rcases h with h | h
  · cases hc : s.client_ <;> simp [HandleTimer, h, hc]
  · simp [HandleTimer, h]

/-- C8, evaluated: a tick in the middle of a cycle. -/
theorem timer_tick_dropped_witness :
    (midCycle 12).outstanding_ = true ∧
      HandleTimer bench false (midCycle 12) = some (midCycle 12) :=
  ⟨rfl, timer_tick_dropped bench (midCycle 12) (Or.inl rfl)⟩

/-! ## Marshalling -/

theorem wireMode_eq_mappedMode (joint : QCJoint) : wireMode joint = mappedMode joint := by
  cases hp : joint.power <;> cases hz : joint.zero_velocity <;>
    simp [wireMode, mappedMode, hp, hz]

theorem emitJoint_answers (E : Extern) (config : Config) (joint : QCJoint)
    (cache : List Value) (request : Request) (values : List Value)
    (h : emitJoint E config joint cache = some (request, values)) :
    Answers joint request := by
  unfold emitJoint at h
  rw [wireMode_eq_mappedMode] at h
  simp only at h
  split at h
  · split at h
    · exact absurd h (by simp)
    · split at h <;>
        (simp only [Option.some.injEq, Prod.mk.injEq] at h
         obtain ⟨rfl, _⟩ := h
         exact ⟨rfl, _, rfl⟩)
  · simp only [Option.some.injEq, Prod.mk.injEq] at h
    obtain ⟨rfl, _⟩ := h
    exact ⟨rfl, _, rfl⟩

theorem emitJoint_isSome (E : Extern) (config : Config) (joint : QCJoint)
    (cache : List Value)
    (h : wireMode joint = MoteusMode.kPosition → (GetSign config joint.id).isSome) :
    (emitJoint E config joint cache).isSome := by
  unfold emitJoint
  simp only
  split
  · rename_i hw
    have := h hw
    cases hs : GetSign config joint.id with
    | none => rw [hs] at this; exact absurd this (by simp)
    | some sign => simp only []; split <;> rfl
  · rfl

theorem emitJoints_answers (E : Extern) (config : Config) :
    ∀ (joints : List QCJoint) (requests : List Request) (cache : List Value)
      (out : List Request) (values : List Value),
      emitJoints E config joints requests cache = some (out, values) →
      ∃ added, out = requests ++ added ∧ List.Forall₂ Answers joints added
  | [], requests, cache, out, values, h => by
    simp only [emitJoints, Option.some.injEq, Prod.mk.injEq] at h
    exact ⟨[], by simp [h.1], List.Forall₂.nil⟩
  | joint :: rest, requests, cache, out, values, h => by
    unfold emitJoints at h
    cases hj : emitJoint E config joint cache with
    | none => rw [hj] at h; exact absurd h (by simp)
    | some p =>
      obtain ⟨request, cache'⟩ := p
      rw [hj] at h
      obtain ⟨added, hout, hall⟩ :=
        emitJoints_answers E config rest (requests ++ [request]) cache' out values h
      exact ⟨request :: added, by simp [hout],
        List.Forall₂.cons (emitJoint_answers E config joint cache request cache' hj) hall⟩

theorem emitJoints_isSome (E : Extern) (config : Config) :
    ∀ (joints : List QCJoint) (requests : List Request) (cache : List Value),
      (∀ joint ∈ joints, wireMode joint = MoteusMode.kPosition →
        (GetSign config joint.id).isSome) →
      (emitJoints E config joints requests cache).isSome
  | [], _, _, _ => rfl
  | joint :: rest, requests, cache, h => by
    unfold emitJoints
    have hj := emitJoint_isSome E config joint cache (h joint (List.mem_cons_self _ _))
    cases he : emitJoint E config joint cache with
    | none => rw [he] at hj; exact absurd hj (by simp)
    | some p =>
      exact emitJoints_isSome E config rest _ _
        (fun j hjm => h j (List.mem_cons_of_mem _ hjm))

theorem answers_ids (joints : List QCJoint) (requests : List Request)
    (h : List.Forall₂ Answers joints requests) :
    requests.map (fun request => request.id) = joints.map (fun joint => joint.id) := by
  induction h with
  | nil => rfl
  | cons hab _ ih => simp [hab.1, ih]

/-- C9. Wire mode mapping in `EmitControl`.  Whenever `EmitControl` returns, the
request list it built answers `control_log_.joints` one for one, in order: each
request has the id of its joint command and starts with a write of the mode
register whose value is Stopped when `power = false` (also when `zero_velocity`
is set), PositionTimeout when `power` and `zero_velocity` are set, and Position
when `power` is set and `zero_velocity` is not.  It does return as soon as every
joint command mapped to Position names a configured joint. -/
theorem wire_mode_mapping (E : Extern) (s : Impl) :
    (∀ s', EmitControl E s = some s' →
      List.Forall₂ Answers s.control_log_.joints s'.client_command_.requests ∧
      s'.client_command_.requests.length = s.control_log_.joints.length ∧
      s'.client_command_.requests.map (fun request => request.id) =
        s.control_log_.joints.map (fun joint => joint.id)) ∧
    ((∀ joint ∈ s.control_log_.joints,
        joint.power = true → joint.zero_velocity = false →
          (GetSign s.config_ joint.id).isSome) →
      ∃ s', EmitControl E s = some s') := by
  constructor
  · intro s' h
    unfold EmitControl at h
    simp only [Now, emit] at h
    split at h
    · exact absurd h (by simp)
    · rename_i requests values he
      simp only [Option.some.injEq] at h
      subst h
      obtain ⟨added, hout, hall⟩ := emitJoints_answers E _ _ _ _ _ _ he
      simp only [List.nil_append] at hout
      subst hout
      exact ⟨hall, hall.length_eq.symm, answers_ids _ _ hall⟩
  · intro hcfg
    have hsome := emitJoints_isSome E s.config_ s.control_log_.joints [] s.values_cache_
      (by
        intro joint hj hw
        rw [wireMode_eq_mappedMode] at hw
        cases hp : joint.power <;> cases hz : joint.zero_velocity <;>
          simp [mappedMode, hp, hz] at hw
        exact hcfg joint hj hp hz)
    cases he : emitJoints E s.config_ s.control_log_.joints [] s.values_cache_ with
    | none => rw [he] at hsome; exact absurd hsome (by simp)
    | some p =>
      cases hE : EmitControl E s with
      | none => simp [EmitControl, Now, emit, he] at hE
      | some s' => exact ⟨s', rfl⟩

/-- C9, evaluated on three joint commands, one for each wire mode. -/
theorem wire_mode_mapping_witness :
    ∃ s', EmitControl bench threeCommands = some s' ∧
      List.Forall₂ Answers threeCommands.control_log_.joints s'.client_command_.requests ∧
      s'.client_command_.requests.map (fun request => request.id) = [3, 1, 2] :=
  match (wire_mode_mapping bench threeCommands).2 (by decide) with
  | ⟨s', h⟩ =>
    ⟨s', h, ((wire_mode_mapping bench threeCommands).1 s' h).1,
      ((wire_mode_mapping bench threeCommands).1 s' h).2.2⟩

theorem sizeValues_nil (joint : QCJoint) :
    sizeValues joint [] = List.replicate (blockLength joint) default := by
  obtain ⟨id, power, zv, a, v, t, kp, kd, mt, sa⟩ := joint
  cases ha : a.ne Dbl.zero <;> cases hv : v.ne Dbl.zero <;> cases ht : t.ne Dbl.zero <;>
    cases kp <;> cases kd <;> cases mt <;> cases sa <;>
    simp [sizeValues, resize, blockLength, fieldSet, List.range_succ, ha, hv, ht,
      List.replicate]

theorem blockLength_le (joint : QCJoint) : blockLength joint ≤ 7 := by
  unfold blockLength
  split
  · rename_i k hk
    have := List.mem_of_find?_eq_some hk
    simp at this
    omega
  · omega

theorem fillValues_replicate (E : Extern) (sign : Dbl) (joint : QCJoint) (n : Nat)
    (hn : n ≤ 7) :
    fillValues E sign joint (List.replicate n default) = (fullBlock E sign joint).take n := by
  interval_cases n <;>
    simp [fillValues, encodeField, fullBlock, List.range_succ, List.replicate]

theorem take_fullBlock_length (E : Extern) (sign : Dbl) (joint : QCJoint) :
    ((fullBlock E sign joint).take (blockLength joint)).length = blockLength joint := by
  have := blockLength_le joint
  simp [fullBlock]
  omega

/-- The frame of a Position-mode joint command, computed. -/
theorem emitJoint_position (E : Extern) (config : Config) (joint : QCJoint)
    (cache : List Value) (sign : Dbl)
    (hw : wireMode joint = MoteusMode.kPosition)
    (hs : GetSign config joint.id = some sign) :
    emitJoint E config joint cache =
      some ({ id := joint.id,
              request := RegisterOp.WriteSingle kMode (Value.kInt8 MoteusMode.kPosition.toInt8) ::
                (if blockLength joint = 0 then []
                 else [RegisterOp.WriteMultiple kCommandPosition
                        ((fullBlock E sign joint).take (blockLength joint))]) },
            (fullBlock E sign joint).take (blockLength joint)) := by
  have hlen := take_fullBlock_length E sign joint
  simp only [emitJoint, hw, hs, resize_zero, sizeValues_nil,
    fillValues_replicate E sign joint _ (blockLength_le joint)]
  by_cases h0 : blockLength joint = 0
  · simp [h0]
  · have hne : ((fullBlock E sign joint).take (blockLength joint)) ≠ [] := by
      intro hnil
      rw [hnil] at hlen
      exact h0 hlen.symm
    simp [h0, hne]

set_option maxRecDepth 100000 in
/-- The number `blockLength` is `k + 1` exactly when field `k` is set and no field
of higher index is. -/
theorem blockLength_highest (joint : QCJoint) (k : Nat) (hk : k < 7) :
    blockLength joint = k + 1 ↔
      ((fieldSet joint).getD k false = true ∧
        ∀ i, i < 7 → k < i → (fieldSet joint).getD i false = false) := by
  have key : ∀ b0 b1 b2 b3 b4 b5 b6 : Bool, ∀ k : Fin 7,
      (match (List.range 7).reverse.find?
          (fun i => [b0, b1, b2, b3, b4, b5, b6].getD i false) with
        | some k => k + 1
        | none => 0) = k.val + 1 ↔
      ([b0, b1, b2, b3, b4, b5, b6].getD k.val false = true ∧
        ∀ i : Fin 7, k.val < i.val →
          [b0, b1, b2, b3, b4, b5, b6].getD i.val false = false) := by
    decide
  have := key (joint.angle_deg.ne Dbl.zero) (joint.velocity_dps.ne Dbl.zero)
    (joint.torque_Nm.ne Dbl.zero) joint.kp_scale.isSome joint.kd_scale.isSome
    joint.max_torque_Nm.isSome joint.stop_angle_deg.isSome ⟨k, hk⟩
  refine Iff.trans this ?_
  constructor
  · rintro ⟨h1, h2⟩
    exact ⟨h1, fun i hi hki => h2 ⟨i, hi⟩ hki⟩
  · rintro ⟨h1, h2⟩
    exact ⟨h1, fun i hki => h2 i.val i.isLt hki⟩

/-- The number `blockLength` is zero exactly when no field is set. -/
theorem blockLength_zero (joint : QCJoint) :
    blockLength joint = 0 ↔ ∀ b ∈ fieldSet joint, b = false := by
  have key : ∀ b0 b1 b2 b3 b4 b5 b6 : Bool,
      (match (List.range 7).reverse.find?
          (fun i => [b0, b1, b2, b3, b4, b5, b6].getD i false) with
        | some k => k + 1
        | none => 0) = 0 ↔ ∀ b ∈ [b0, b1, b2, b3, b4, b5, b6], b = false := by
    decide
  exact key _ _ _ _ _ _ _

/-- C10. Length of the trailing block.  Call field `i` of `[angle_deg,
velocity_dps, torque_Nm, kp_scale, kd_scale, max_torque_Nm, stop_angle_deg]` set
when it is non-zero (first three) or present (last four), as listed by `fieldSet`.
For a joint command that maps to Position and names a configured joint (of sign
`sign`): when no field is set the frame is the mode write alone; when `k` is the
highest set field the frame is the mode write followed by exactly one block
written at the command-position register, of length `k + 1`, whose entry at every
index up to `k` is the encoded field (its value, or the explicit default of an
absent one).  For a joint command that maps to Stopped or PositionTimeout the
frame is the mode write alone, whatever its fields hold. -/
theorem trailing_block (E : Extern) (config : Config) (joint : QCJoint)
    (cache : List Value) :
    (∀ sign, mappedMode joint = MoteusMode.kPosition →
      GetSign config joint.id = some sign →
      ∃ request values, emitJoint E config joint cache = some (request, values) ∧
        request.id = joint.id ∧
        ((∀ b ∈ fieldSet joint, b = false) →
          request.request =
            [RegisterOp.WriteSingle kMode (Value.kInt8 MoteusMode.kPosition.toInt8)]) ∧
        (∀ k, k < 7 → (fieldSet joint).getD k false = true →
          (∀ i, i < 7 → k < i → (fieldSet joint).getD i false = false) →
          ∃ block, request.request =
              [RegisterOp.WriteSingle kMode (Value.kInt8 MoteusMode.kPosition.toInt8),
               RegisterOp.WriteMultiple kCommandPosition block] ∧
            block.length = k + 1 ∧
            ∀ i, i ≤ k → block[i]? = (fullBlock E sign joint)[i]?)) ∧
    (mappedMode joint ≠ MoteusMode.kPosition →
      ∃ values, emitJoint E config joint cache =
        some ({ id := joint.id,
                request := [RegisterOp.WriteSingle kMode
                  (Value.kInt8 (mappedMode joint).toInt8)] }, values)) := by
  constructor
  · intro sign hm hs
    rw [← wireMode_eq_mappedMode] at hm
    refine ⟨_, _, emitJoint_position E config joint cache sign hm hs, rfl, ?_, ?_⟩
    · intro hnone
      have h0 := (blockLength_zero joint).mpr hnone
      simp [h0]
    · intro k hk hset hhigh
      have hlen := (blockLength_highest joint k hk).mpr ⟨hset, hhigh⟩
      refine ⟨(fullBlock E sign joint).take (blockLength joint), by simp [hlen], ?_, ?_⟩
      · rw [take_fullBlock_length, hlen]
      · intro i hi
        have : i < blockLength joint := by omega
        simp [List.getElem?_take, this]
  · intro hm
    rw [← wireMode_eq_mappedMode] at hm ⊢
    exact ⟨[], emitJoint_of_not_position E config joint cache hm⟩

/-- C10, evaluated: a Position-mode command for joint 2 (sign -1) with only
`velocity_dps` set carries a block of two values, the explicit zero position and
the velocity. -/
theorem trailing_block_witness :
    ∃ request values,
      emitJoint bench threeCommands.config_
        { id := 2, power := true, velocity_dps := Dbl.fin 5 } [] = some (request, values) ∧
      ∃ block, request.request =
          [RegisterOp.WriteSingle kMode (Value.kInt8 10),
           RegisterOp.WriteMultiple kCommandPosition block] ∧
        block.length = 2 ∧
        block[1]? = some (Value.kFloat (Dbl.fin (-5))) :=
  match (trailing_block bench threeCommands.config_
      { id := 2, power := true, velocity_dps := Dbl.fin 5 } []).1 (Dbl.fin (-1))
      (by decide) (by decide) with
  | ⟨request, values, h, _, _, hb⟩ =>
    match hb 1 (by decide) (by decide) (by decide) with
    | ⟨block, hr, hl, hv⟩ =>
      ⟨request, values, h, block, hr, hl,
        (hv 1 (by decide)).trans (by norm_num [fullBlock, bench, Dbl.mul])⟩

/-! ## Single-in-flight discipline -/

theorem EmitControl_controlled (E : Extern) (s s' : Impl)
    (h : EmitControl E s = some s') : Controlled s s' := by
  unfold EmitControl at h
  simp only [Now, emit] at h
  split at h
  · exact absurd h (by simp)
  · simp only [Option.some.injEq] at h
    subst h
    exact ⟨rfl, rfl, rfl, _, rfl⟩

theorem ControlJoints_controlled (E : Extern) (joints : List QCJoint) (s s' : Impl)
    (h : ControlJoints E joints s = some s') : Controlled s s' := by
  unfold ControlJoints at h
  have hc := EmitControl_controlled E _ s' h
  exact ⟨hc.1, hc.2.1, hc.2.2.1, hc.2.2.2⟩

theorem DoControl_ZeroVelocity_controlled (E : Extern) (s s' : Impl)
    (h : DoControl_ZeroVelocity E s = some s') : Controlled s s' := by
  unfold DoControl_ZeroVelocity at h
  exact ControlJoints_controlled E _ s s' h

theorem Fault_controlled (E : Extern) (message : String) (s s' : Impl)
    (h : Fault E message s = some s') : Controlled s s' := by
  unfold Fault DoControl_Fault at h
  simp only [Now] at h
  have hc := DoControl_ZeroVelocity_controlled E _ s' h
  exact ⟨hc.1, hc.2.1, hc.2.2.1, hc.2.2.2⟩

theorem ControlLegs_B_controlled (E : Extern) (legs_B : List QCLeg) (s s' : Impl)
    (h : ControlLegs_B E legs_B s = some s') : Controlled s s' := by
  unfold ControlLegs_B at h
  simp only at h
  split at h
  · exact absurd h (by simp)
  · have hc := ControlJoints_controlled E _ _ s' h
    exact ⟨hc.1, hc.2.1, hc.2.2.1, hc.2.2.2⟩

theorem standUpAdvance_quiet (E : Extern) (s s' : Impl)
    (h : standUpAdvance E s = some s') : Quiet s s' := by
  unfold standUpAdvance at h
  split at h
  · split at h
    · exact absurd h (by simp)
    · split at h <;>
        (simp only [Option.some.injEq] at h; subst h; exact ⟨rfl, rfl, rfl, rfl⟩)
  · simp only at h
    split at h <;>
      (simp only [Option.some.injEq] at h; subst h; exact ⟨rfl, rfl, rfl, rfl⟩)
  · simp only [Option.some.injEq] at h; subst h; exact ⟨rfl, rfl, rfl, rfl⟩

theorem Controlled_of_quiet {s s1 s' : Impl} (hq : Quiet s s1) (hc : Controlled s1 s') :
    Controlled s s' := by
  obtain ⟨a, b, c, d⟩ := hq
  obtain ⟨a', b', c', log, d'⟩ := hc
  exact ⟨a'.trans a, b'.trans b, c'.trans c, log, by rw [d', d]⟩

theorem DoControl_StandUp_controlled (E : Extern) (s s' : Impl)
    (h : DoControl_StandUp E s = some s') : Controlled s s' := by
  unfold DoControl_StandUp at h
  simp only [Now] at h
  split at h
  · have hc := Fault_controlled E _ _ s' h
    exact ⟨hc.1, hc.2.1, hc.2.2.1, hc.2.2.2⟩
  · split at h
    · exact absurd h (by simp)
    · rename_i s1 hadv
      have hq := standUpAdvance_quiet E _ s1 hadv
      have hc : Controlled s1 s' := by
        split at h
        · unfold DoControl_StandUp_Prepositioning at h
          exact ControlJoints_controlled E _ _ s' h
        · unfold DoControl_StandUp_Standing at h
          exact Fault_controlled E _ _ s' h
        · unfold DoControl_StandUp_Standing at h
          exact Fault_controlled E _ _ s' h
      have hc2 := Controlled_of_quiet hq hc
      exact ⟨hc2.1, hc2.2.1, hc2.2.2.1, hc2.2.2.2⟩

theorem stampModeStart_quiet (E : Extern) (old_mode : Mode) (s s1 : Impl)
    (h : Quiet s s1) : Quiet s (stampModeStart E old_mode s1) := by
  unfold stampModeStart
  split
  · exact ⟨h.1, h.2.1, h.2.2.1, h.2.2.2⟩
  · exact h

theorem MaybeChangeMode_quiet (E : Extern) (s s' : Impl)
    (h : MaybeChangeMode E s = some s') : Quiet s s' := by
  unfold MaybeChangeMode at h
  simp only at h
  split at h <;> first
    | exact absurd h.symm (Option.some_ne_none _)
    | (simp only [Option.some.injEq] at h
       subst h
       exact stampModeStart_quiet E _ _ _ ⟨rfl, rfl, rfl, rfl⟩)
    | (split at h <;> simp only [Option.some.injEq] at h <;> subst h <;> first
        | exact ⟨rfl, rfl, rfl, rfl⟩
        | exact stampModeStart_quiet E _ _ _ ⟨rfl, rfl, rfl, rfl⟩)

theorem modeChangeStep_quiet (E : Extern) (s s' : Impl)
    (h : modeChangeStep E s = some s') : Quiet s s' := by
  unfold modeChangeStep at h
  split at h
  · exact MaybeChangeMode_quiet E s s' h
  · simp only [Option.some.injEq] at h; subst h; exact ⟨rfl, rfl, rfl, rfl⟩

theorem RunControl_controlled (E : Extern) (s s' : Impl)
    (h : RunControl E s = some s') : Controlled s s' := by
  unfold RunControl at h
  split at h
  · exact absurd h (by simp)
  · rename_i s1 hstep
    have hq := modeChangeStep_quiet E s s1 hstep
    refine Controlled_of_quiet hq ?_
    unfold dispatchControl at h
    split at h
    · unfold DoControl_Stopped at h
      exact ControlJoints_controlled E _ _ s' h
    · unfold DoControl_Fault at h
      exact DoControl_ZeroVelocity_controlled E _ s' h
    · exact DoControl_ZeroVelocity_controlled E _ s' h
    · unfold DoControl_Joint at h
      exact ControlJoints_controlled E _ _ s' h
    · unfold DoControl_Leg at h
      exact ControlLegs_B_controlled E _ _ s' h
    · exact DoControl_StandUp_controlled E _ s' h
    · exact absurd h (by simp)

theorem UpdateStatus_quiet (E : Extern) (s s' : Impl)
    (h : UpdateStatus E s = some s') : Quiet s s' := by
  unfold UpdateStatus at h
  split at h
  · exact absurd h (by simp)
  · simp only at h
    split at h
    · exact absurd h (by simp)
    · simp only [Option.some.injEq] at h; subst h; exact ⟨rfl, rfl, rfl, rfl⟩

theorem HandleCommand_sched (E : Extern) (ec : Bool) (s s' : Impl)
    (h : HandleCommand E ec s = some s') :
    s'.outstanding_ = false ∧ s'.pending_ = s.pending_ ∧
      readsIssued s' = readsIssued s ∧ cyclesEnded s' = cyclesEnded s + 1 := by
  unfold HandleCommand at h
  split at h
  · exact absurd h.symm (Option.some_ne_none _)
  · simp only [Now, emit, Option.some.injEq] at h
    subst h
    simp [readsIssued, cyclesEnded, List.countP_append, Event.isStatusRead, Event.endsCycle]

theorem HandleTimer_sched (E : Extern) (ec : Bool) (s s' : Impl)
    (h : HandleTimer E ec s = some s') :
    s' = s ∨
      (s.outstanding_ = false ∧ s'.outstanding_ = true ∧
        s'.pending_ = s.pending_ ++ [BusOp.status] ∧
        readsIssued s' = readsIssued s + 1 ∧ cyclesEnded s' = cyclesEnded s) := by
  unfold HandleTimer at h
  split at h
  · exact absurd h.symm (Option.some_ne_none _)
  · split at h
    · simp only [Option.some.injEq] at h
      exact Or.inl h.symm
    · split at h
      · simp only [Option.some.injEq] at h
        exact Or.inl h.symm
      · rename_i hc ho
        right
        simp only [Now, AsyncRegister, emit] at h
        split at h
        · simp only [Option.some.injEq] at h
          subst h
          simp [readsIssued, cyclesEnded, List.countP_append, Event.isStatusRead,
            Event.endsCycle] 
          simpa using ho
        · exact absurd h.symm (Option.some_ne_none _)

theorem HandleStatus_sched (E : Extern) (ec : Bool) (s s' : Impl)
    (h : HandleStatus E ec s = some s') :
    (s'.outstanding_ = false ∧ s'.pending_ = s.pending_ ∧
      readsIssued s' = readsIssued s ∧ cyclesEnded s' = cyclesEnded s + 1) ∨
    (s'.outstanding_ = s.outstanding_ ∧ s'.pending_ = s.pending_ ++ [BusOp.command] ∧
      readsIssued s' = readsIssued s ∧ cyclesEnded s' = cyclesEnded s) := by
  unfold HandleStatus at h
  split at h
  · exact absurd h.symm (Option.some_ne_none _)
  · simp only [Now] at h
    split at h
    · left
      simp only [emit, Option.some.injEq] at h
      subst h
      simp [readsIssued, cyclesEnded, List.countP_append, Event.isStatusRead, Event.endsCycle]
    · split at h
      · exact absurd h.symm (Option.some_ne_none _)
      · rename_i s1 hu
        have hq := UpdateStatus_quiet E _ s1 hu
        split at h
        · exact absurd h.symm (Option.some_ne_none _)
        · rename_i s2 hr
          have hc := RunControl_controlled E _ s2 hr
          obtain ⟨ho, hp, hcl, log, ht⟩ := hc
          obtain ⟨ho1, hp1, hcl1, ht1⟩ := hq
          simp only at ho hp hcl ht ho1 hp1 hcl1 ht1
          split at h
          · right
            simp only [AsyncRegister, emit] at h
            split at h
            · simp only [Option.some.injEq] at h
              subst h
              simp [readsIssued, cyclesEnded, List.countP_append, Event.isStatusRead,
                Event.endsCycle, ho, hp, ht, ho1, hp1, ht1]
            · exact absurd h.symm (Option.some_ne_none _)
          · left
            obtain ⟨a, b, c, d⟩ := HandleCommand_sched E false _ s' h
            simp only [readsIssued, cyclesEnded] at c d ⊢
            simp only at b
            refine ⟨a, by rw [b, hp, hp1], ?_, ?_⟩
            · rw [c, ht, ht1]
              simp [List.countP_append, Event.isStatusRead]
            · rw [d, ht, ht1]
              simp [List.countP_append, Event.endsCycle]

theorem eq_singleton_of_mem {op : BusOp} {l : List BusOp} (hm : op ∈ l)
    (hl : l.length ≤ 1) : l = [op] := by
  match l, hm, hl with
  | [a], hm, _ =>
    simp only [List.mem_singleton] at hm
    rw [hm]
  | _ :: _ :: _, _, hl => simp at hl

theorem SingleInFlight_step (E : Extern) (s s' : Impl) (hinv : SingleInFlight s)
    (hstep : Step E s s') : SingleInFlight s' := by
  obtain ⟨h1, h2, h3⟩ := hinv
  cases hstep with
  | timer _ ec h =>
    rcases HandleTimer_sched E ec s s' h with rfl | ⟨ho, ho', hp, hr, hc⟩
    · exact ⟨h1, h2, h3⟩
    · have hnil : s.pending_ = [] := by
        by_contra hne
        have := h1.mpr hne
        rw [ho] at this
        exact absurd this (by simp)
      refine ⟨by simp [ho', hp], by simp [hp, hnil], ?_⟩
      rw [hr, hc, h3, ho, ho']
      simp
  | statusDone _ ec reply hm h =>
    have hp := eq_singleton_of_mem hm h2
    have ho : s.outstanding_ = true := h1.mpr (by rw [hp]; simp)
    rcases HandleStatus_sched E ec _ s' h with ⟨a, b, c, d⟩ | ⟨a, b, c, d⟩
    · simp only [readsIssued, cyclesEnded] at c d h3 ⊢
      simp only [hp] at b
      refine ⟨by simp [a, b], by simp [b], ?_⟩
      simp only [readsIssued, cyclesEnded]
      rw [c, d, h3, ho, a]
      simp
    · simp only [readsIssued, cyclesEnded] at c d h3 ⊢
      simp only [hp] at b
      simp only at a
      refine ⟨by simp [a, b, ho], by simp [b], ?_⟩
      simp only [readsIssued, cyclesEnded]
      rw [c, d, h3, ho, a, ho]
  | commandDone _ ec reply hm h =>
    have hp := eq_singleton_of_mem hm h2
    have ho : s.outstanding_ = true := h1.mpr (by rw [hp]; simp)
    obtain ⟨a, b, c, d⟩ := HandleCommand_sched E ec _ s' h
    simp only [readsIssued, cyclesEnded] at c d h3 ⊢
    simp only [hp] at b
    refine ⟨by simp [a, b], by simp [b], ?_⟩
    simp only [readsIssued, cyclesEnded]
    rw [c, d, h3, ho, a]
    simp
  | command c =>
    refine ⟨h1, h2, ?_⟩
    simp only [readsIssued, cyclesEnded, Command, Now, emit] at h3 ⊢
    simp [List.countP_append, Event.isStatusRead, Event.endsCycle, h3]
  | asyncStart _ config h =>
    unfold AsyncStart at h
    simp only at h
    split at h
    · exact absurd h.symm (Option.some_ne_none _)
    · simp only [Option.some.injEq] at h
      subst h
      exact ⟨h1, h2, h3⟩
  | setClient client => exact ⟨h1, h2, h3⟩

theorem SingleInFlight_reachable (E : Extern) (s : Impl) (h : Reachable E s) :
    SingleInFlight s := by
  induction h with
  | fresh => exact ⟨by simp, by simp, by simp [readsIssued, cyclesEnded]⟩
  | step s s' _ hstep ih => exact SingleInFlight_step E s s' ih hstep

/-- C7. Single-in-flight invariant of the cycle state machine.  In every state
reachable through `HandleTimer`, the completion handlers `HandleStatus` and
`HandleCommand`, operator commands, `AsyncStart` and `SetClient`: `outstanding_`
is set exactly when one more status read has been issued than cycles have been
closed (by the completion of the command write, or by an abort), and clear
exactly when every issued read has had its cycle closed; `outstanding_` is set
exactly when a bus transaction is in flight; and at most one bus transaction is
in flight, so that none is ever issued while another one is pending. -/
theorem single_in_flight (E : Extern) (s : Impl) (h : Reachable E s) :
    (s.outstanding_ = true ↔ readsIssued s = cyclesEnded s + 1) ∧
    (s.outstanding_ = false ↔ readsIssued s = cyclesEnded s) ∧
    (s.outstanding_ = true ↔ s.pending_ ≠ []) ∧
    s.pending_.length ≤ 1 := by
  obtain ⟨h1, h2, h3⟩ := SingleInFlight_reachable E s h
  refine ⟨?_, ?_, h1, h2⟩
  · cases ho : s.outstanding_ <;> simp [ho] at h3 ⊢ <;> omega
  · cases ho : s.outstanding_ <;> simp [ho] at h3 ⊢ <;> omega

/-- C7, evaluated on the state after the first timer tick: the read is in flight
and `outstanding_` is set. -/
theorem single_in_flight_witness :
    Reachable bench firstRead ∧
      (firstRead.outstanding_ = true ↔ readsIssued firstRead = cyclesEnded firstRead + 1) ∧
      (firstRead.outstanding_ = true ↔ firstRead.pending_ ≠ []) ∧
      firstRead.pending_.length ≤ 1 :=
  have hr : Reachable bench firstRead :=
    Reachable.step _ _ (Reachable.step _ _ Reachable.fresh (Step.setClient _ true))
      (Step.timer _ _ false rfl)
  ⟨hr, (single_in_flight bench firstRead hr).1, (single_in_flight bench firstRead hr).2.2.1,
    (single_in_flight bench firstRead hr).2.2.2⟩

/-! ## What a control step leaves alone -/

theorem SameSetup.trans {s s1 s' : Impl} (h1 : SameSetup s s1) (h2 : SameSetup s1 s') :
    SameSetup s s' :=
  ⟨h2.1.trans h1.1, h2.2.1.trans h1.2.1, h2.2.2.1.trans h1.2.2.1,
    h2.2.2.2.1.trans h1.2.2.2.1, h2.2.2.2.2.1.trans h1.2.2.2.2.1,
    h2.2.2.2.2.2.trans h1.2.2.2.2.2⟩

theorem EmitControl_sameSetup (E : Extern) (s s' : Impl)
    (h : EmitControl E s = some s') : SameSetup s s' := by
  unfold EmitControl at h
  simp only [Now, emit] at h
  split at h
  · exact absurd h.symm (Option.some_ne_none _)
  · simp only [Option.some.injEq] at h
    subst h
    exact ⟨rfl, rfl, rfl, rfl, rfl, rfl⟩

theorem ControlJoints_sameSetup (E : Extern) (joints : List QCJoint) (s s' : Impl)
    (h : ControlJoints E joints s = some s') : SameSetup s s' := by
  unfold ControlJoints at h
  have hc := EmitControl_sameSetup E _ s' h
  exact ⟨hc.1, hc.2.1, hc.2.2.1, hc.2.2.2.1, hc.2.2.2.2.1, hc.2.2.2.2.2⟩

theorem DoControl_ZeroVelocity_sameSetup (E : Extern) (s s' : Impl)
    (h : DoControl_ZeroVelocity E s = some s') : SameSetup s s' := by
  unfold DoControl_ZeroVelocity at h
  exact ControlJoints_sameSetup E _ s s' h

theorem Fault_sameSetup (E : Extern) (message : String) (s s' : Impl)
    (h : Fault E message s = some s') : SameSetup s s' := by
  unfold Fault DoControl_Fault at h
  simp only [Now] at h
  have hc := DoControl_ZeroVelocity_sameSetup E _ s' h
  exact ⟨hc.1, hc.2.1, hc.2.2.1, hc.2.2.2.1, hc.2.2.2.2.1, hc.2.2.2.2.2⟩

theorem ControlLegs_B_sameSetup (E : Extern) (legs_B : List QCLeg) (s s' : Impl)
    (h : ControlLegs_B E legs_B s = some s') : SameSetup s s' := by
  unfold ControlLegs_B at h
  simp only at h
  split at h
  · exact absurd h.symm (Option.some_ne_none _)
  · have hc := ControlJoints_sameSetup E _ _ s' h
    exact ⟨hc.1, hc.2.1, hc.2.2.1, hc.2.2.2.1, hc.2.2.2.2.1, hc.2.2.2.2.2⟩

theorem standUpAdvance_sameSetup (E : Extern) (s s' : Impl)
    (h : standUpAdvance E s = some s') : SameSetup s s' := by
  unfold standUpAdvance at h
  split at h
  · split at h
    · exact absurd h.symm (Option.some_ne_none _)
    · split at h <;>
        (simp only [Option.some.injEq] at h; subst h; exact ⟨rfl, rfl, rfl, rfl, rfl, rfl⟩)
  · simp only at h
    split at h <;>
      (simp only [Option.some.injEq] at h; subst h; exact ⟨rfl, rfl, rfl, rfl, rfl, rfl⟩)
  · simp only [Option.some.injEq] at h; subst h; exact ⟨rfl, rfl, rfl, rfl, rfl, rfl⟩

theorem DoControl_StandUp_sameSetup (E : Extern) (s s' : Impl)
    (h : DoControl_StandUp E s = some s') : SameSetup s s' := by
  unfold DoControl_StandUp at h
  simp only [Now] at h
  split at h
  · have hc := Fault_sameSetup E _ _ s' h
    exact ⟨hc.1, hc.2.1, hc.2.2.1, hc.2.2.2.1, hc.2.2.2.2.1, hc.2.2.2.2.2⟩
  · split at h
    · exact absurd h.symm (Option.some_ne_none _)
    · rename_i s1 hadv
      have hq := standUpAdvance_sameSetup E _ s1 hadv
      have hc : SameSetup s1 s' := by
        split at h
        · unfold DoControl_StandUp_Prepositioning at h
          exact ControlJoints_sameSetup E _ _ s' h
        · unfold DoControl_StandUp_Standing at h
          exact Fault_sameSetup E _ _ s' h
        · unfold DoControl_StandUp_Standing at h
          exact Fault_sameSetup E _ _ s' h
      have hc2 := SameSetup.trans hq hc
      exact ⟨hc2.1, hc2.2.1, hc2.2.2.1, hc2.2.2.2.1, hc2.2.2.2.2.1, hc2.2.2.2.2.2⟩

theorem stampModeStart_sameSetup (E : Extern) (old_mode : Mode) (s s1 : Impl)
    (h : SameSetup s s1) : SameSetup s (stampModeStart E old_mode s1) := by
  unfold stampModeStart
  split
  · exact ⟨h.1, h.2.1, h.2.2.1, h.2.2.2.1, h.2.2.2.2.1, h.2.2.2.2.2⟩
  · exact h

theorem MaybeChangeMode_sameSetup (E : Extern) (s s' : Impl)
    (h : MaybeChangeMode E s = some s') : SameSetup s s' := by
  unfold MaybeChangeMode at h
  simp only at h
  split at h <;> first
    | exact absurd h.symm (Option.some_ne_none _)
    | (simp only [Option.some.injEq] at h
       subst h
       exact stampModeStart_sameSetup E _ _ _ ⟨rfl, rfl, rfl, rfl, rfl, rfl⟩)
    | (split at h <;> simp only [Option.some.injEq] at h <;> subst h <;> first
        | exact ⟨rfl, rfl, rfl, rfl, rfl, rfl⟩
        | exact stampModeStart_sameSetup E _ _ _ ⟨rfl, rfl, rfl, rfl, rfl, rfl⟩)

theorem modeChangeStep_sameSetup (E : Extern) (s s' : Impl)
    (h : modeChangeStep E s = some s') : SameSetup s s' := by
  unfold modeChangeStep at h
  split at h
  · exact MaybeChangeMode_sameSetup E s s' h
  · simp only [Option.some.injEq] at h; subst h; exact ⟨rfl, rfl, rfl, rfl, rfl, rfl⟩

theorem dispatchControl_sameSetup (E : Extern) (s s' : Impl)
    (h : dispatchControl E s = some s') : SameSetup s s' := by
  unfold dispatchControl at h
  split at h
  · unfold DoControl_Stopped at h
    exact ControlJoints_sameSetup E _ _ s' h
  · unfold DoControl_Fault at h
    exact DoControl_ZeroVelocity_sameSetup E _ s' h
  · exact DoControl_ZeroVelocity_sameSetup E _ s' h
  · unfold DoControl_Joint at h
    exact ControlJoints_sameSetup E _ _ s' h
  · unfold DoControl_Leg at h
    exact ControlLegs_B_sameSetup E _ _ s' h
  · exact DoControl_StandUp_sameSetup E _ s' h
  · exact absurd h.symm (Option.some_ne_none _)

theorem RunControl_sameSetup (E : Extern) (s s' : Impl)
    (h : RunControl E s = some s') : SameSetup s s' := by
  unfold RunControl at h
  split at h
  · exact absurd h.symm (Option.some_ne_none _)
  · rename_i s1 hstep
    exact SameSetup.trans (modeChangeStep_sameSetup E s s1 hstep)
      (dispatchControl_sameSetup E s1 s' h)

set_option maxRecDepth 100000 in
/-- When no field from index `i` on is set, the block is at most `i` long. -/
theorem blockLength_le_of_unset (joint : QCJoint) (i : Nat) (hi : i < 7)
    (h : ∀ j, j < 7 → i ≤ j → (fieldSet joint).getD j false = false) :
    blockLength joint ≤ i := by
  have key : ∀ b0 b1 b2 b3 b4 b5 b6 : Bool, ∀ i : Fin 7,
      (∀ j : Fin 7, i.val ≤ j.val → [b0, b1, b2, b3, b4, b5, b6].getD j.val false = false) →
      (match (List.range 7).reverse.find?
          (fun i => [b0, b1, b2, b3, b4, b5, b6].getD i false) with
        | some k => k + 1
        | none => 0) ≤ i.val := by
    decide
  exact key (joint.angle_deg.ne Dbl.zero) (joint.velocity_dps.ne Dbl.zero)
    (joint.torque_Nm.ne Dbl.zero) joint.kp_scale.isSome joint.kd_scale.isSome
    joint.max_torque_Nm.isSome joint.stop_angle_deg.isSome ⟨i, hi⟩
    (fun j hj => h j.val j.isLt hj)

set_option maxRecDepth 100000 in
/-- A set field lies inside the block. -/
theorem lt_blockLength_of_set (joint : QCJoint) (j : Nat) (hj : j < 7)
    (h : (fieldSet joint).getD j false = true) : j < blockLength joint := by
  have key : ∀ b0 b1 b2 b3 b4 b5 b6 : Bool, ∀ j : Fin 7,
      [b0, b1, b2, b3, b4, b5, b6].getD j.val false = true →
      j.val < (match (List.range 7).reverse.find?
          (fun i => [b0, b1, b2, b3, b4, b5, b6].getD i false) with
        | some k => k + 1
        | none => 0) := by
    decide
  exact key (joint.angle_deg.ne Dbl.zero) (joint.velocity_dps.ne Dbl.zero)
    (joint.torque_Nm.ne Dbl.zero) joint.kp_scale.isSome joint.kd_scale.isSome
    joint.max_torque_Nm.isSome joint.stop_angle_deg.isSome ⟨j, hj⟩ h

/-- In the full block an absent optional field is represented by its default. -/
theorem fullBlock_absent (E : Extern) (sign : Dbl) (joint : QCJoint) (i : Nat)
    (h3 : 3 ≤ i) (h7 : i < 7) (habs : (fieldSet joint).getD i false = false) :
    (fullBlock E sign joint)[i]? = absentDefault E sign i := by
  obtain ⟨id, power, zv, a, v, t, kp, kd, mt, sa⟩ := joint
  have : i = 3 ∨ i = 4 ∨ i = 5 ∨ i = 6 := by omega
  rcases this with rfl | rfl | rfl | rfl
  · cases kp <;> simp [fieldSet] at habs; simp [fullBlock, absentDefault]
  · cases kd <;> simp [fieldSet] at habs; simp [fullBlock, absentDefault]
  · cases mt <;> simp [fieldSet] at habs; simp [fullBlock, absentDefault]
  · cases sa <;> simp [fieldSet] at habs; simp [fullBlock, absentDefault]

/-! ## Absent optional fields -/

/-- A Position-mode frame exists only for a configured joint. -/
theorem GetSign_of_emitJoint (E : Extern) (config : Config) (joint : QCJoint)
    (cache : List Value) (request : Request) (values : List Value)
    (hw : wireMode joint = MoteusMode.kPosition)
    (h : emitJoint E config joint cache = some (request, values)) :
    ∃ sign, GetSign config joint.id = some sign := by
  cases hs : GetSign config joint.id with
  | none => simp [emitJoint, hw, hs] at h
  | some sign => exact ⟨sign, rfl⟩

/-- C11, as stated, fails: a Position-mode command whose `kp_scale` is absent but
whose `stop_angle_deg` is present is written with a seven-value block, and the
value at the `kp_scale` index is the encoded default 1. -/
theorem absent_field_written_as_default :
    stopAngleOnly.kp_scale = none ∧
      ∃ request values block,
        emitJoint bench threeCommands.config_ stopAngleOnly [] = some (request, values) ∧
        RegisterOp.WriteMultiple kCommandPosition block ∈ request.request ∧
        block.length = 7 ∧
        block[3]? = some (Value.kFloat (Dbl.fin 1)) := by
  refine ⟨rfl, _, _, (fullBlock bench (Dbl.fin 1) stopAngleOnly).take (blockLength stopAngleOnly),
    emitJoint_position bench threeCommands.config_ stopAngleOnly [] (Dbl.fin 1)
      (by decide) (by decide), ?_, ?_, ?_⟩
  · have h7 : blockLength stopAngleOnly = 7 := by decide
    simp [h7]
  · have h7 : blockLength stopAngleOnly = 7 := by decide
    simp [h7, fullBlock]
  · have h7 : blockLength stopAngleOnly = 7 := by decide
    rw [h7]
    simp [fullBlock, bench, stopAngleOnly]

/-- C11, amended.  Let the optional field of index `i` (3 `kp_scale`, 4
`kd_scale`, 5 `max_torque_Nm`, 6 `stop_angle_deg`) be absent from a joint command
whose frame `EmitControl` writes.  When the command does not map to Position, or
no field of higher index is set, no block of the frame has a value at index `i`.
When the command maps to Position and a field of higher index is set, the block
does hold a value at index `i`: the explicit default of the field. -/
theorem absent_optional_field (E : Extern) (config : Config) (joint : QCJoint)
    (cache : List Value) (request : Request) (values : List Value) (i : Nat)
    (h3 : 3 ≤ i) (h7 : i < 7)
    (habs : (fieldSet joint).getD i false = false)
    (h : emitJoint E config joint cache = some (request, values)) :
    ((mappedMode joint ≠ MoteusMode.kPosition ∨
        ∀ j, j < 7 → i < j → (fieldSet joint).getD j false = false) →
      ∀ start block, RegisterOp.WriteMultiple start block ∈ request.request →
        block[i]? = none) ∧
    (mappedMode joint = MoteusMode.kPosition →
      ∀ j, j < 7 → i < j → (fieldSet joint).getD j false = true →
        ∃ sign block, GetSign config joint.id = some sign ∧
          request.request =
            [RegisterOp.WriteSingle kMode (Value.kInt8 MoteusMode.kPosition.toInt8),
             RegisterOp.WriteMultiple kCommandPosition block] ∧
          block[i]? = absentDefault E sign i) := by
  by_cases hw : wireMode joint = MoteusMode.kPosition
  · obtain ⟨sign, hs⟩ := GetSign_of_emitJoint E config joint cache request values hw h
    rw [emitJoint_position E config joint cache sign hw hs] at h
    simp only [Option.some.injEq, Prod.mk.injEq] at h
    obtain ⟨rfl, _⟩ := h
    constructor
    · rintro (hm | hhigh)
      · rw [wireMode_eq_mappedMode] at hw
        exact absurd hw hm
      · intro start block hmem
        have hle : blockLength joint ≤ i := by
          apply blockLength_le_of_unset joint i h7
          intro j hj hij
          rcases Nat.eq_or_lt_of_le hij with rfl | hlt
          · exact habs
          · exact hhigh j hj hlt
        by_cases h0 : blockLength joint = 0
        · simp [h0] at hmem
        · simp only [h0, if_false, List.mem_cons, List.mem_singleton, List.mem_nil_iff,
            or_false] at hmem
          rcases hmem with hmem | hmem
          · exact absurd hmem (by simp)
          · simp only [RegisterOp.WriteMultiple.injEq] at hmem
            obtain ⟨_, rfl⟩ := hmem
            simp [List.getElem?_take]
            omega
    · intro _ j hj hij hset
      have hlt := lt_blockLength_of_set joint j hj hset
      have h0 : blockLength joint ≠ 0 := by omega
      refine ⟨sign, (fullBlock E sign joint).take (blockLength joint), hs, by simp [h0], ?_⟩
      have : i < blockLength joint := by omega
      rw [← fullBlock_absent E sign joint i h3 h7 habs]
      simp [List.getElem?_take, this]
  · rw [emitJoint_of_not_position E config joint cache hw] at h
    simp only [Option.some.injEq, Prod.mk.injEq] at h
    obtain ⟨rfl, _⟩ := h
    constructor
    · intro _ start block hmem
      simp [modeOnlyRequest] at hmem
    · intro hm
      rw [wireMode_eq_mappedMode] at hw
      exact absurd hm hw

/-- C11 amended, evaluated on a Position-mode command for joint 1 that sets only
`velocity_dps`: the frame has no value at the index of `kp_scale`. -/
theorem absent_optional_field_witness :
    ∃ request values,
      emitJoint bench threeCommands.config_
        { id := 1, power := true, velocity_dps := Dbl.fin 5 } [] = some (request, values) ∧
      ∀ start block, RegisterOp.WriteMultiple start block ∈ request.request →
        block[3]? = none :=
  ⟨_, _,
    emitJoint_position bench threeCommands.config_
      { id := 1, power := true, velocity_dps := Dbl.fin 5 } [] (Dbl.fin 1)
      (by decide) (by decide),
    (absent_optional_field bench threeCommands.config_
      { id := 1, power := true, velocity_dps := Dbl.fin 5 } [] _ _ 3
      (by decide) (by decide) (by decide)
      (emitJoint_position bench threeCommands.config_
        { id := 1, power := true, velocity_dps := Dbl.fin 5 } [] (Dbl.fin 1)
        (by decide) (by decide))).1 (Or.inr (by decide))⟩

/-! ## Outcomes of a control step -/

theorem started_eq : (AsyncStart quadConfig {}).map (SetClient true) = some started := by
  rfl

/-- The method `Fault` always completes: it records the message, stamps
`mode_start` with the clock and emits the zero-velocity hold. -/
theorem Fault_ok (E : Extern) (message : String) (s : Impl) :
    ∃ s', Fault E message s = some s' ∧
      s'.status_ = { s.status_ with
        mode := Mode.kFault, fault := message, mode_start := E.Now s.now_calls_ } ∧
      s'.control_log_.joints = holdCommands s.config_ ∧
      s'.client_command_.requests = holdFrames s.config_ := by
  obtain ⟨s', h1, h2, h3, h4⟩ := DoControl_ZeroVelocity_ok E
    { s with
      status_ := { s.status_ with
        mode := Mode.kFault, fault := message, mode_start := E.Now s.now_calls_ },
      now_calls_ := s.now_calls_ + 1 }
  exact ⟨s', h1, h2, h3, h4⟩

theorem DoControl_StandUp_timeout (E : Extern) (s : Impl)
    (h : (E.ConvertDurationToSeconds (E.Now s.now_calls_ - s.status_.mode_start)).gt
      s.config_.stand_up.timeout_s = true) :
    DoControl_StandUp E s = Fault E "timeout" { s with now_calls_ := s.now_calls_ + 1 } := by
  simp [DoControl_StandUp, Now, h]

theorem DoControl_StandUp_done (E : Extern) (s : Impl)
    (h : (E.ConvertDurationToSeconds (E.Now s.now_calls_ - s.status_.mode_start)).gt
      s.config_.stand_up.timeout_s = false)
    (hsub : s.status_.state.stand_up.mode = StandUpMode.kPrepositioning)
    (hc : CheckPrepositioning s = some true) :
    DoControl_StandUp E s = Fault E "not implemented"
      { s with
        now_calls_ := s.now_calls_ + 1,
        status_ := { s.status_ with state := { s.status_.state with
          stand_up := { s.status_.state.stand_up with mode := StandUpMode.kStanding } } } } := by
  have hc' : CheckPrepositioning { s with now_calls_ := s.now_calls_ + 1 } = some true := hc
  simp [DoControl_StandUp, Now, h, standUpAdvance, hsub, hc', DoControl_StandUp_Standing]

theorem DoControl_StandUp_wait (E : Extern) (s : Impl)
    (h : (E.ConvertDurationToSeconds (E.Now s.now_calls_ - s.status_.mode_start)).gt
      s.config_.stand_up.timeout_s = false)
    (hsub : s.status_.state.stand_up.mode = StandUpMode.kPrepositioning)
    (hc : CheckPrepositioning s = some false) :
    DoControl_StandUp E s =
      DoControl_StandUp_Prepositioning E { s with now_calls_ := s.now_calls_ + 1 } := by
  have hc' : CheckPrepositioning { s with now_calls_ := s.now_calls_ + 1 } = some false := hc
  simp [DoControl_StandUp, Now, h, standUpAdvance, hsub, hc']

theorem Configured_of_GetSign (config : Config) (id : Int) (sign : Dbl)
    (h : GetSign config id = some sign) : Configured config id := by
  unfold GetSign at h
  split at h
  · rename_i joint hf
    have hm := List.mem_of_find?_eq_some hf
    have hp := List.find?_some hf
    exact ⟨joint, hm, by simpa using hp⟩
  · exact absurd h.symm (Option.some_ne_none _)

theorem GetSign_isSome_of_configured (config : Config) (id : Int)
    (h : Configured config id) : (GetSign config id).isSome := by
  obtain ⟨joint, hm, hid⟩ := h
  unfold GetSign
  cases hf : config.joints.find? (fun joint => joint.id == id) with
  | some j => rfl
  | none =>
    have := List.find?_eq_none.mp hf joint hm
    simp [hid] at this

/-- Whatever holds of every frame `emitJoint` can build for the joints of a list
holds, pairwise and in order, of the requests `emitJoints` appends. -/
theorem emitJoints_forall₂ (E : Extern) (config : Config) (R : QCJoint → Request → Prop) :
    ∀ (joints : List QCJoint) (requests : List Request) (cache : List Value)
      (out : List Request) (values : List Value),
      (∀ joint ∈ joints, ∀ cache request values,
        emitJoint E config joint cache = some (request, values) → R joint request) →
      emitJoints E config joints requests cache = some (out, values) →
      ∃ added, out = requests ++ added ∧ List.Forall₂ R joints added
  | [], requests, cache, out, values, _, h => by
    simp only [emitJoints, Option.some.injEq, Prod.mk.injEq] at h
    exact ⟨[], by simp [h.1], List.Forall₂.nil⟩
  | joint :: rest, requests, cache, out, values, hR, h => by
    unfold emitJoints at h
    cases hj : emitJoint E config joint cache with
    | none => rw [hj] at h; exact absurd h.symm (Option.some_ne_none _)
    | some p =>
      obtain ⟨request, cache'⟩ := p
      rw [hj] at h
      obtain ⟨added, hout, hall⟩ :=
        emitJoints_forall₂ E config R rest (requests ++ [request]) cache' out values
          (fun j hjm => hR j (List.mem_cons_of_mem _ hjm)) h
      exact ⟨request :: added, by simp [hout],
        List.Forall₂.cons (hR joint (List.mem_cons_self _ _) cache request cache' hj) hall⟩

/-- The requests of `EmitControl` relate to `control_log_.joints` one for one. -/
theorem EmitControl_forall₂ (E : Extern) (s s' : Impl) (R : QCJoint → Request → Prop)
    (hR : ∀ joint ∈ s.control_log_.joints, ∀ cache request values,
      emitJoint E s.config_ joint cache = some (request, values) → R joint request)
    (h : EmitControl E s = some s') :
    List.Forall₂ R s.control_log_.joints s'.client_command_.requests := by
  unfold EmitControl at h
  simp only [Now, emit] at h
  split at h
  · exact absurd h.symm (Option.some_ne_none _)
  · rename_i requests values he
    simp only [Option.some.injEq] at h
    subst h
    obtain ⟨added, hout, hall⟩ := emitJoints_forall₂ E _ R _ _ _ _ _ hR he
    simp only [List.nil_append] at hout
    subst hout
    exact hall

/-- The joint commands of `ControlJoints` end up in the control log, and the
status is left as it was. -/
theorem ControlJoints_log (E : Extern) (joints : List QCJoint) (s s' : Impl)
    (h : ControlJoints E joints s = some s') :
    s'.control_log_.joints = joints ∧ s'.status_ = s.status_ ∧
      s'.control_log_.legs_B = s.control_log_.legs_B ∧
      s'.control_log_.legs_R = s.control_log_.legs_R := by
  unfold ControlJoints EmitControl at h
  simp only [Now, emit] at h
  split at h
  · exact absurd h.symm (Option.some_ne_none _)
  · simp only [Option.some.injEq] at h
    subst h
    exact ⟨rfl, rfl, rfl, rfl⟩

theorem ControlJoints_forall₂ (E : Extern) (joints : List QCJoint) (s s' : Impl)
    (R : QCJoint → Request → Prop)
    (hR : ∀ joint ∈ joints, ∀ cache request values,
      emitJoint E s.config_ joint cache = some (request, values) → R joint request)
    (h : ControlJoints E joints s = some s') :
    List.Forall₂ R joints s'.client_command_.requests := by
  unfold ControlJoints at h
  exact EmitControl_forall₂ E _ s' R hR h

theorem prepositioning_foldl (stand_up : ConfigStandUp) :
    ∀ (legs : List Leg) (acc : List QCJoint),
      legs.foldl (fun joints leg =>
        let joint : QCJoint :=
          { power := true,
            angle_deg := Dbl.nan,
            velocity_dps := stand_up.velocity_dps,
            max_torque_Nm := some stand_up.max_preposition_torque_Nm }
        let add_joint := fun (joints : List QCJoint) (id : Int) (angle_deg : Dbl) =>
          joints ++ [{ joint with id := id, stop_angle_deg := some angle_deg }]
        let joints := add_joint joints leg.config.ik.shoulder.id stand_up.pose.shoulder_deg
        let joints := add_joint joints leg.config.ik.femur.id stand_up.pose.femur_deg
        add_joint joints leg.config.ik.tibia.id stand_up.pose.tibia_deg) acc =
      acc ++ prepositionCommands stand_up legs
  | [], acc => by simp [prepositionCommands]
  | leg :: rest, acc => by
    rw [List.foldl_cons, prepositioning_foldl stand_up rest]
    simp [prepositionCommands, prepositionCommand]

theorem DoControl_StandUp_Prepositioning_eq (E : Extern) (s : Impl) :
    DoControl_StandUp_Prepositioning E s =
      ControlJoints E (prepositionCommands s.config_.stand_up s.legs_) s := by
  unfold DoControl_StandUp_Prepositioning
  simp only
  rw [prepositioning_foldl, List.nil_append]

theorem prepositionCommands_position (stand_up : ConfigStandUp) :
    ∀ (legs : List Leg), ∀ joint ∈ prepositionCommands stand_up legs,
      wireMode joint = MoteusMode.kPosition ∧ blockLength joint = 7
  | [], joint, h => by simp [prepositionCommands] at h
  | leg :: rest, joint, h => by
    simp only [prepositionCommands, List.mem_cons] at h
    rcases h with rfl | rfl | rfl | h
    · exact ⟨rfl, by simp [blockLength, fieldSet, prepositionCommand, List.range_succ]⟩
    · exact ⟨rfl, by simp [blockLength, fieldSet, prepositionCommand, List.range_succ]⟩
    · exact ⟨rfl, by simp [blockLength, fieldSet, prepositionCommand, List.range_succ]⟩
    · exact prepositionCommands_position stand_up rest joint h

/-- What `standUpAdvance` can do: nothing, or move the substate off
`kPrepositioning`. -/
theorem standUpAdvance_cases (E : Extern) (s s1 : Impl)
    (h : standUpAdvance E s = some s1) :
    s1 = s ∨
      (s1.status_.state.stand_up.mode ≠ StandUpMode.kPrepositioning ∧
        s1.config_ = s.config_ ∧ s1.now_calls_ = s.now_calls_ ∧
        s1.status_.mode = s.status_.mode) := by
  unfold standUpAdvance at h
  split at h
  · split at h
    · exact absurd h.symm (Option.some_ne_none _)
    · split at h
      · simp only [Option.some.injEq] at h
        subst h
        exact Or.inr ⟨by simp, rfl, rfl, rfl⟩
      · simp only [Option.some.injEq] at h
        exact Or.inl h.symm
  · simp only at h
    split at h
    · simp only [Option.some.injEq] at h
      subst h
      exact Or.inr ⟨by simp, rfl, rfl, rfl⟩
    · simp only [Option.some.injEq] at h
      exact Or.inl h.symm
  · simp only [Option.some.injEq] at h
    exact Or.inl h.symm

/-- Without a timeout the stand-up controller either commands the preposition
(the substate being `kPrepositioning` and staying so) or runs the standing stub,
which faults with "not implemented". -/
theorem DoControl_StandUp_no_timeout (E : Extern) (s s' : Impl)
    (hgt : (E.ConvertDurationToSeconds (E.Now s.now_calls_ - s.status_.mode_start)).gt
      s.config_.stand_up.timeout_s = false)
    (h : DoControl_StandUp E s = some s') :
    (s.status_.state.stand_up.mode = StandUpMode.kPrepositioning ∧
      ControlJoints E (prepositionCommands s.config_.stand_up s.legs_)
        { s with now_calls_ := s.now_calls_ + 1 } = some s') ∨
    (∃ t, Fault E "not implemented" t = some s' ∧ t.config_ = s.config_ ∧
      t.status_.mode = s.status_.mode ∧
      t.status_.state.stand_up.mode ≠ StandUpMode.kPrepositioning) := by
  unfold DoControl_StandUp at h
  simp only [Now, hgt, Bool.false_eq_true, if_false] at h
  split at h
  · exact absurd h.symm (Option.some_ne_none _)
  · rename_i s1 hadv
    rcases standUpAdvance_cases E _ s1 hadv with rfl | ⟨hne, hcfg, _, hmode⟩
    · split at h
      · rename_i hsub
        left
        rw [DoControl_StandUp_Prepositioning_eq] at h
        exact ⟨hsub, h⟩
      · rename_i hsub
        right
        exact ⟨_, h, rfl, rfl, fun hp => StandUpMode.noConfusion (hp.symm.trans hsub)⟩
      · rename_i hsub
        right
        exact ⟨_, h, rfl, rfl, fun hp => StandUpMode.noConfusion (hp.symm.trans hsub)⟩
    · split at h
      · rename_i hsub
        exact absurd hsub hne
      · right
        exact ⟨s1, h, hcfg, hmode, hne⟩
      · right
        exact ⟨s1, h, hcfg, hmode, hne⟩

/-- The five ways a control step can end, by the mode it ends in, with the joint
commands it logged. -/
theorem dispatchControl_outcome (E : Extern) (s s' : Impl)
    (h : dispatchControl E s = some s') :
    (s'.status_.mode = Mode.kStopped ∧
      s'.control_log_.joints = stoppedCommands s.config_ ∧
      s'.client_command_.requests = stoppedFrames s.config_) ∨
    ((s'.status_.mode = Mode.kFault ∨ s'.status_.mode = Mode.kZeroVelocity) ∧
      s'.control_log_.joints = holdCommands s.config_ ∧
      s'.client_command_.requests = holdFrames s.config_) ∨
    (s'.status_.mode = Mode.kJoint ∧ s.status_.mode = Mode.kJoint ∧
      s'.control_log_.joints = s.current_command_.joints) ∨
    (s'.status_.mode = Mode.kLeg ∧ s.status_.mode = Mode.kLeg ∧
      controlLegs_B_loop E s.legs_
        (s.status_.state.joints.map (fun joint =>
          ({ id := joint.id, angle_deg := joint.angle_deg,
             velocity_dps := joint.velocity_dps, torque_Nm := joint.torque_Nm } : IkJoint)))
        s.current_command_.legs_B [] = some s'.control_log_.joints) ∨
    (s'.status_.mode = Mode.kStandUp ∧ s.status_.mode = Mode.kStandUp ∧
      s.status_.state.stand_up.mode = StandUpMode.kPrepositioning ∧
      s'.status_ = s.status_ ∧
      s'.control_log_.joints = prepositionCommands s.config_.stand_up s.legs_) := by
  unfold dispatchControl at h
  split at h
  · rename_i hm
    obtain ⟨s'', h1, h2, h3, h4⟩ := DoControl_Stopped_ok E s
    rw [h] at h1
    simp only [Option.some.injEq] at h1
    subst h1
    exact Or.inl ⟨by rw [h2, hm], h3, h4⟩
  · rename_i hm
    obtain ⟨s'', h1, h2, h3, h4⟩ := DoControl_ZeroVelocity_ok E s
    unfold DoControl_Fault at h
    rw [h] at h1
    simp only [Option.some.injEq] at h1
    subst h1
    exact Or.inr (Or.inl ⟨Or.inl (by rw [h2, hm]), h3, h4⟩)
  · rename_i hm
    obtain ⟨s'', h1, h2, h3, h4⟩ := DoControl_ZeroVelocity_ok E s
    rw [h] at h1
    simp only [Option.some.injEq] at h1
    subst h1
    exact Or.inr (Or.inl ⟨Or.inr (by rw [h2, hm]), h3, h4⟩)
  · rename_i hm
    unfold DoControl_Joint at h
    obtain ⟨h1, h2, _⟩ := ControlJoints_log E _ s s' h
    exact Or.inr (Or.inr (Or.inl ⟨by rw [h2, hm], hm, h1⟩))
  · rename_i hm
    unfold DoControl_Leg ControlLegs_B at h
    simp only at h
    split at h
    · exact absurd h.symm (Option.some_ne_none _)
    · rename_i out hout
      obtain ⟨h1, h2, _⟩ := ControlJoints_log E _ _ s' h
      refine Or.inr (Or.inr (Or.inr (Or.inl ⟨?_, hm, ?_⟩)))
      · rw [h2]; exact hm
      · rw [h1]; exact hout
  · rename_i hm
    by_cases hgt : (E.ConvertDurationToSeconds (E.Now s.now_calls_ - s.status_.mode_start)).gt
        s.config_.stand_up.timeout_s = true
    · rw [DoControl_StandUp_timeout E s hgt] at h
      obtain ⟨s'', h1, h2, h3, h4⟩ := Fault_ok E "timeout" { s with now_calls_ := s.now_calls_ + 1 }
      rw [h] at h1
      simp only [Option.some.injEq] at h1
      subst h1
      exact Or.inr (Or.inl ⟨Or.inl (by rw [h2]), h3, h4⟩)
    · have hgt' := Bool.eq_false_iff.mpr hgt
      rcases DoControl_StandUp_no_timeout E s s' hgt' h with ⟨hsub, hc⟩ | ⟨t, hf, hcfg, _, _⟩
      · obtain ⟨h1, h2, _⟩ := ControlJoints_log E _ _ s' hc
        refine Or.inr (Or.inr (Or.inr (Or.inr ⟨?_, hm, hsub, h2, h1⟩)))
        rw [h2]; exact hm
      · obtain ⟨s'', h1, h2, h3, h4⟩ := Fault_ok E "not implemented" t
        rw [hf] at h1
        simp only [Option.some.injEq] at h1
        subst h1
        rw [hcfg] at h3 h4
        exact Or.inr (Or.inl ⟨Or.inl (by rw [h2]), h3, h4⟩)
  · exact absurd h.symm (Option.some_ne_none _)

/-- C13. Stopped mode output.  When the mode after the mode-change step is
Stopped (as in the first cycle, when no operator command was ever received), the
control step completes, stays in Stopped, logs exactly one joint command per
configured joint, in configuration order, each with the power off, and builds for
each the frame made of the single mode-register write with Stopped, without a
trailing block. -/
theorem stopped_output (E : Extern) (s s1 : Impl)
    (hstep : modeChangeStep E s = some s1)
    (hm : s1.status_.mode = Mode.kStopped) :
    ∃ s', RunControl E s = some s' ∧
      s'.status_.mode = Mode.kStopped ∧
      s'.control_log_.joints = s.config_.joints.map (fun joint =>
        ({ id := joint.id, power := false } : QCJoint)) ∧
      s'.client_command_.requests = s.config_.joints.map (fun joint =>
        ({ id := joint.id,
           request := [RegisterOp.WriteSingle kMode
             (Value.kInt8 MoteusMode.kStopped.toInt8)] } : Request)) := by
  have hcfg := (modeChangeStep_sameSetup E s s1 hstep).1
  obtain ⟨s', h1, h2, h3, h4⟩ := DoControl_Stopped_ok E s1
  refine ⟨s', ?_, by rw [h2, hm], by rw [h3, hcfg], by rw [h4, hcfg]⟩
  simp [RunControl, hstep, dispatchControl, hm, h1]

/-- C13, evaluated on the first cycle of the started engine: no operator command
was received, and the twelve frames are the Stopped mode write. -/
theorem stopped_output_witness :
    modeChangeStep bench started = some started ∧
      ∃ s', RunControl bench started = some s' ∧
        s'.status_.mode = Mode.kStopped ∧
        s'.control_log_.joints.length = 12 ∧
        (∀ joint ∈ s'.control_log_.joints, joint.power = false) ∧
        s'.client_command_.requests = stoppedFrames quadConfig :=
  ⟨rfl,
    match stopped_output bench started started rfl rfl with
    | ⟨s', h, hm, hj, hr⟩ =>
      ⟨s', h, hm, by rw [hj]; rfl, by rw [hj]; decide, hr⟩⟩

/-- C14. Zero-velocity hold.  When the mode after the mode-change step is
ZeroVelocity or Fault, the control step completes, keeps that mode, logs exactly
one joint command per configured joint, in configuration order, each with the
power on and `zero_velocity` set, and builds for each the frame made of the single
mode-register write with PositionTimeout, without a trailing block.  The same
holds of every call of `Fault(message)`, which always completes in mode Fault
with that message, and hence of every control step that ends in Fault. -/
theorem zero_velocity_hold (E : Extern) :
    (∀ s s1, modeChangeStep E s = some s1 →
      (s1.status_.mode = Mode.kZeroVelocity ∨ s1.status_.mode = Mode.kFault) →
      ∃ s', RunControl E s = some s' ∧
        s'.status_.mode = s1.status_.mode ∧
        s'.control_log_.joints = holdCommands s.config_ ∧
        s'.client_command_.requests = holdFrames s.config_) ∧
    (∀ message s, ∃ s', Fault E message s = some s' ∧
      s'.status_.mode = Mode.kFault ∧ s'.status_.fault = message ∧
      s'.control_log_.joints = holdCommands s.config_ ∧
      s'.client_command_.requests = holdFrames s.config_) ∧
    (∀ s s', RunControl E s = some s' →
      (s'.status_.mode = Mode.kZeroVelocity ∨ s'.status_.mode = Mode.kFault) →
      s'.control_log_.joints = holdCommands s.config_ ∧
      s'.client_command_.requests = holdFrames s.config_) := by
  refine ⟨?_, ?_, ?_⟩
  · intro s s1 hstep hm
    have hcfg := (modeChangeStep_sameSetup E s s1 hstep).1
    obtain ⟨s', h1, h2, h3, h4⟩ := DoControl_ZeroVelocity_ok E s1
    refine ⟨s', ?_, by rw [h2], ?_, ?_⟩
    · rcases hm with hm | hm <;>
        simp [RunControl, hstep, dispatchControl, hm, DoControl_Fault, h1]
    · rw [h3, hcfg]; rfl
    · rw [h4, hcfg]; rfl
  · intro message s
    obtain ⟨s', h1, h2, h3, h4⟩ := Fault_ok E message s
    exact ⟨s', h1, by rw [h2], by rw [h2], h3, h4⟩
  · intro s s' h hm
    unfold RunControl at h
    split at h
    · exact absurd h.symm (Option.some_ne_none _)
    · rename_i s1 hstep
      have hcfg := (modeChangeStep_sameSetup E s s1 hstep).1
      rcases dispatchControl_outcome E s1 s' h with
        ⟨h1, _⟩ | ⟨_, h2, h3⟩ | ⟨h1, _⟩ | ⟨h1, _⟩ | ⟨h1, _⟩
      · rcases hm with hm | hm <;> rw [h1] at hm <;> exact absurd hm (by decide)
      · rw [← hcfg]; exact ⟨h2, h3⟩
      · rcases hm with hm | hm <;> rw [h1] at hm <;> exact absurd hm (by decide)
      · rcases hm with hm | hm <;> rw [h1] at hm <;> exact absurd hm (by decide)
      · rcases hm with hm | hm <;> rw [h1] at hm <;> exact absurd hm (by decide)

/-- C14, evaluated: the started engine in Fault with a Leg request pending, and a
call of `Fault`. -/
theorem zero_velocity_hold_witness :
    (∃ s', RunControl bench (startedIn Mode.kFault { mode := Mode.kLeg }) = some s' ∧
      s'.status_.mode = Mode.kFault ∧
      s'.client_command_.requests = holdFrames quadConfig) ∧
    (∃ s', Fault bench "timeout" started = some s' ∧
      s'.status_.mode = Mode.kFault ∧ s'.status_.fault = "timeout" ∧
      s'.control_log_.joints.length = 12) :=
  ⟨match (zero_velocity_hold bench).1 (startedIn Mode.kFault { mode := Mode.kLeg })
        (startedIn Mode.kFault { mode := Mode.kLeg })
        (by decide) (Or.inr rfl) with
    | ⟨s', h, hm, _, hr⟩ => ⟨s', h, hm, hr⟩,
   match (zero_velocity_hold bench).2.1 "timeout" started with
    | ⟨s', h, hm, hf, hj, _⟩ => ⟨s', h, hm, hf, by rw [hj]; rfl⟩⟩

/-! ## Joint ids on the bus -/

theorem EmitControl_marshalled (E : Extern) (s s' : Impl)
    (h : EmitControl E s = some s') : Marshalled E s' := by
  unfold EmitControl at h
  simp only [Now, emit] at h
  split at h
  · exact absurd h.symm (Option.some_ne_none _)
  · rename_i requests values he
    simp only [Option.some.injEq] at h
    subst h
    exact ⟨_, _, he⟩

theorem ControlJoints_marshalled (E : Extern) (joints : List QCJoint) (s s' : Impl)
    (h : ControlJoints E joints s = some s') : Marshalled E s' := by
  unfold ControlJoints at h
  exact EmitControl_marshalled E _ s' h

theorem Fault_marshalled (E : Extern) (message : String) (s s' : Impl)
    (h : Fault E message s = some s') : Marshalled E s' := by
  unfold Fault DoControl_Fault DoControl_ZeroVelocity at h
  simp only [Now] at h
  exact ControlJoints_marshalled E _ _ s' h

theorem DoControl_StandUp_marshalled (E : Extern) (s s' : Impl)
    (h : DoControl_StandUp E s = some s') : Marshalled E s' := by
  unfold DoControl_StandUp at h
  simp only [Now] at h
  split at h
  · exact Fault_marshalled E _ _ s' h
  · split at h
    · exact absurd h.symm (Option.some_ne_none _)
    · split at h
      · unfold DoControl_StandUp_Prepositioning at h
        exact ControlJoints_marshalled E _ _ s' h
      · exact Fault_marshalled E _ _ s' h
      · exact Fault_marshalled E _ _ s' h

theorem dispatchControl_marshalled (E : Extern) (s s' : Impl)
    (h : dispatchControl E s = some s') : Marshalled E s' := by
  unfold dispatchControl at h
  split at h
  · unfold DoControl_Stopped at h
    exact ControlJoints_marshalled E _ _ s' h
  · unfold DoControl_Fault DoControl_ZeroVelocity at h
    exact ControlJoints_marshalled E _ _ s' h
  · unfold DoControl_ZeroVelocity at h
    exact ControlJoints_marshalled E _ _ s' h
  · unfold DoControl_Joint at h
    exact ControlJoints_marshalled E _ _ s' h
  · unfold DoControl_Leg ControlLegs_B at h
    simp only at h
    split at h
    · exact absurd h.symm (Option.some_ne_none _)
    · exact ControlJoints_marshalled E _ _ s' h
  · exact DoControl_StandUp_marshalled E _ s' h
  · exact absurd h.symm (Option.some_ne_none _)

theorem RunControl_marshalled (E : Extern) (s s' : Impl)
    (h : RunControl E s = some s') : Marshalled E s' := by
  unfold RunControl at h
  split at h
  · exact absurd h.symm (Option.some_ne_none _)
  · exact dispatchControl_marshalled E _ s' h

theorem GetLeg_mem (legs : List Leg) (id : Int) (qleg : Leg)
    (h : GetLeg legs id = some qleg) : qleg ∈ legs :=
  List.mem_of_find?_eq_some h

/-- Every joint command the leg controller produces either maps to Position or
carries a joint id of one of the legs. -/
theorem controlLeg_B_ids (E : Extern) (legs : List Leg) (current_joints : List IkJoint)
    (P : Int → Prop)
    (hlegs : ∀ leg ∈ legs, P leg.config.ik.shoulder.id ∧ P leg.config.ik.femur.id ∧
      P leg.config.ik.tibia.id)
    (out_joints : List QCJoint) (leg_B : QCLeg) (out : List QCJoint)
    (hacc : ∀ joint ∈ out_joints, mappedMode joint = MoteusMode.kPosition ∨ P joint.id)
    (h : controlLeg_B E legs current_joints out_joints leg_B = some out) :
    ∀ joint ∈ out, mappedMode joint = MoteusMode.kPosition ∨ P joint.id := by
  unfold controlLeg_B at h
  split at h
  · exact absurd h.symm (Option.some_ne_none _)
  · rename_i qleg hq
    obtain ⟨h1, h2, h3⟩ := hlegs qleg (GetLeg_mem legs _ qleg hq)
    have hadd : ∀ base : QCJoint, ∀ joint ∈ add_joints qleg out_joints base,
        mappedMode joint = MoteusMode.kPosition ∨ P joint.id := by
      intro base joint hj
      simp only [add_joints, List.mem_append, List.mem_cons, List.mem_singleton,
        List.mem_nil_iff, or_false] at hj
      rcases hj with hj | rfl | rfl | rfl
      · exact hacc joint hj
      · exact Or.inr h1
      · exact Or.inr h2
      · exact Or.inr h3
    split at h
    · simp only [Option.some.injEq] at h
      subst h
      exact hadd _
    · split at h
      · simp only [Option.some.injEq] at h
        subst h
        exact hadd _
      · simp only at h
        split at h
        · simp only [Option.some.injEq] at h
          subst h
          exact hadd _
        · simp only [Option.some.injEq] at h
          subst h
          intro joint hj
          simp only [List.mem_append, List.mem_map] at hj
          rcases hj with hj | ⟨ja, _, rfl⟩
          · exact hacc joint hj
          · exact Or.inl (by simp [mappedMode])

theorem controlLegs_B_loop_ids (E : Extern) (legs : List Leg) (current_joints : List IkJoint)
    (P : Int → Prop)
    (hlegs : ∀ leg ∈ legs, P leg.config.ik.shoulder.id ∧ P leg.config.ik.femur.id ∧
      P leg.config.ik.tibia.id) :
    ∀ (legs_B : List QCLeg) (out_joints out : List QCJoint),
      (∀ joint ∈ out_joints, mappedMode joint = MoteusMode.kPosition ∨ P joint.id) →
      controlLegs_B_loop E legs current_joints legs_B out_joints = some out →
      ∀ joint ∈ out, mappedMode joint = MoteusMode.kPosition ∨ P joint.id
  | [], out_joints, out, hacc, h => by
    simp only [controlLegs_B_loop, Option.some.injEq] at h
    subst h
    exact hacc
  | leg_B :: rest, out_joints, out, hacc, h => by
    unfold controlLegs_B_loop at h
    split at h
    · exact absurd h.symm (Option.some_ne_none _)
    · rename_i mid hmid
      exact controlLegs_B_loop_ids E legs current_joints P hlegs rest mid out
        (controlLeg_B_ids E legs current_joints P hlegs out_joints leg_B mid hacc hmid) h

theorem prepositionCommands_mapped (stand_up : ConfigStandUp) (legs : List Leg) :
    ∀ joint ∈ prepositionCommands stand_up legs, mappedMode joint = MoteusMode.kPosition := by
  intro joint hj
  rw [← wireMode_eq_mappedMode]
  exact (prepositionCommands_position stand_up legs joint hj).1

theorem forall₂_configured (P : Int → Prop) (joints : List QCJoint)
    (requests : List Request)
    (hall : List.Forall₂ (fun joint request =>
      request.id = joint.id ∧ (mappedMode joint = MoteusMode.kPosition → P request.id))
      joints requests)
    (hj : ∀ joint ∈ joints, mappedMode joint = MoteusMode.kPosition ∨ P joint.id) :
    ∀ request ∈ requests, P request.id := by
  induction hall with
  | nil => intro request hr; simp at hr
  | @cons joint req joints reqs hab _ ih =>
    intro request hr
    simp only [List.mem_cons] at hr
    rcases hr with rfl | hr
    · rcases hj joint (List.mem_cons_self _ _) with hp | hc
      · exact hab.2 hp
      · rw [hab.1]; exact hc
    · exact ih (fun j hjm => hj j (List.mem_cons_of_mem _ hjm)) request hr

/-- C12, as stated, fails: in Joint mode, with the operator asking for the
unconfigured joint 99 to be switched off, the control step completes and its
command frame list holds a request with id 99. -/
theorem unconfigured_joint_emitted :
    ∃ s' request, RunControl bench strayJoint = some s' ∧
      request ∈ s'.client_command_.requests ∧
      ¬ ∃ joint ∈ strayJoint.config_.joints, joint.id = request.id := by
  obtain ⟨s', h1, _, _, h4⟩ := ControlJoints_of_not_position bench
    [{ id := 99, power := false }] strayJoint (by decide)
  refine ⟨s', modeOnlyRequest { id := 99, power := false }, h1, ?_, by decide⟩
  rw [h4]
  simp

/-- C12, amended.  After every control step that completes, the requests of the
command frame list answer the logged joint commands one for one, and each request
whose joint command maps to Position has the id of a configured joint.  Moreover,
when every leg names configured joints, every request has the id of a configured
joint as soon as the step ends in a mode other than Joint; in Joint mode the
operator's joint commands with the power off or `zero_velocity` set are framed
under the id the operator gave. -/
theorem emitted_ids (E : Extern) (s s' : Impl)
    (hlegs : ∀ leg ∈ s.legs_, Configured s.config_ leg.config.ik.shoulder.id ∧
      Configured s.config_ leg.config.ik.femur.id ∧
      Configured s.config_ leg.config.ik.tibia.id)
    (h : RunControl E s = some s') :
    List.Forall₂ (fun joint request =>
        request.id = joint.id ∧
        (mappedMode joint = MoteusMode.kPosition → Configured s.config_ request.id))
      s'.control_log_.joints s'.client_command_.requests ∧
    (s'.status_.mode ≠ Mode.kJoint →
      ∀ request ∈ s'.client_command_.requests, Configured s.config_ request.id) ∧
    (s'.status_.mode = Mode.kJoint →
      s'.control_log_.joints = s.current_command_.joints) := by
  have hsetup := RunControl_sameSetup E s s' h
  have hcfg : s'.config_ = s.config_ := hsetup.1
  have hall : List.Forall₂ (fun joint request =>
        request.id = joint.id ∧
        (mappedMode joint = MoteusMode.kPosition → Configured s.config_ request.id))
      s'.control_log_.joints s'.client_command_.requests := by
    obtain ⟨cache, values, hm⟩ := RunControl_marshalled E s s' h
    obtain ⟨added, hout, hf⟩ := emitJoints_forall₂ E s'.config_
      (fun joint request =>
        request.id = joint.id ∧
        (mappedMode joint = MoteusMode.kPosition → Configured s.config_ request.id))
      _ _ _ _ _
      (fun joint _ cache request values he => by
        have hid := (emitJoint_answers E s'.config_ joint cache request values he).1
        refine ⟨hid, fun hp => ?_⟩
        rw [← wireMode_eq_mappedMode] at hp
        obtain ⟨sign, hs⟩ := GetSign_of_emitJoint E s'.config_ joint cache request values hp he
        rw [hid, ← hcfg]
        exact Configured_of_GetSign _ _ sign hs) hm
    simp only [List.nil_append] at hout
    rw [hout]
    exact hf
  have hjoints : (s'.status_.mode = Mode.kJoint →
        s'.control_log_.joints = s.current_command_.joints) ∧
      (s'.status_.mode ≠ Mode.kJoint → ∀ joint ∈ s'.control_log_.joints,
        mappedMode joint = MoteusMode.kPosition ∨ Configured s.config_ joint.id) := by
    unfold RunControl at h
    split at h
    · exact absurd h.symm (Option.some_ne_none _)
    · rename_i s1 hstep
      have h1setup := modeChangeStep_sameSetup E s s1 hstep
      have hc1 : s1.config_ = s.config_ := h1setup.1
      have hl1 : s1.legs_ = s.legs_ := h1setup.2.1
      have hcmd : s1.current_command_ = s.current_command_ := h1setup.2.2.1
      have hcfgd : ∀ (f : ConfigJoint → QCJoint), (∀ c, (f c).id = c.id) →
          ∀ joint ∈ s1.config_.joints.map f,
            mappedMode joint = MoteusMode.kPosition ∨ Configured s.config_ joint.id := by
        intro f hf joint hj
        simp only [List.mem_map] at hj
        obtain ⟨c, hc, rfl⟩ := hj
        rw [hc1] at hc
        exact Or.inr ⟨c, hc, (hf c).symm⟩
      rcases dispatchControl_outcome E s1 s' h with
        ⟨hm, hj, _⟩ | ⟨hm, hj, _⟩ | ⟨hm, _, hj⟩ | ⟨hm, _, hj⟩ | ⟨hm, _, _, _, hj⟩
      · refine ⟨fun hk => ?_, fun _ => ?_⟩
        · rw [hm] at hk; exact absurd hk (by decide)
        · rw [hj]; exact hcfgd _ (fun _ => rfl)
      · refine ⟨fun hk => ?_, fun _ => ?_⟩
        · rcases hm with hm | hm <;> rw [hm] at hk <;> exact absurd hk (by decide)
        · rw [hj]; exact hcfgd _ (fun _ => rfl)
      · exact ⟨fun _ => by rw [hj, hcmd], fun hk => absurd hm hk⟩
      · refine ⟨fun hk => ?_, fun _ => ?_⟩
        · rw [hm] at hk; exact absurd hk (by decide)
        · exact controlLegs_B_loop_ids E s1.legs_ _ (Configured s.config_)
            (by rw [hl1]; exact hlegs) _ [] _ (by simp) hj
      · refine ⟨fun hk => ?_, fun _ => ?_⟩
        · rw [hm] at hk; exact absurd hk (by decide)
        · rw [hj]
          exact fun joint hjm => Or.inl (prepositionCommands_mapped _ _ joint hjm)
  exact ⟨hall, fun hne => forall₂_configured (Configured s.config_) _ _ hall (hjoints.2 hne),
    hjoints.1⟩

/-- C12 amended, evaluated on the first cycle of the started engine: all twelve
requests carry configured ids. -/
theorem emitted_ids_witness :
    ∃ s', RunControl bench started = some s' ∧
      s'.client_command_.requests.length = 12 ∧
      ∀ request ∈ s'.client_command_.requests, Configured quadConfig request.id :=
  match DoControl_Stopped_ok bench started with
  | ⟨s', h, hm, _, hr⟩ =>
    ⟨s', h, by rw [hr]; rfl,
      (emitted_ids bench started s' (by decide) h).2.1 (by rw [hm]; decide)⟩

/-! ## Stand-up -/

theorem Dbl.gt_self (x : Dbl) : x.gt x = false := by
  cases x <;> simp [Dbl.gt]

theorem checkPrepositioning_atPose :
    CheckPrepositioning (standingUp (Dbl.fin 0) (Dbl.fin 135) (Dbl.fin (-120))) =
      some true := by
  norm_num [CheckPrepositioning, standingUp, started, quadConfig, jointsAt, checkLegs,
    check, current_deg, mapAssign, mapFind, Dbl.toInt, Dbl.sub, Dbl.abs, Dbl.gt,
    Dbl.ofInt, Leg.ofConfig]

theorem checkPrepositioning_atZero :
    CheckPrepositioning (standingUp (Dbl.fin 0) (Dbl.fin 0) (Dbl.fin 0)) = some false := by
  norm_num [CheckPrepositioning, standingUp, started, quadConfig, jointsAt, checkLegs,
    check, current_deg, mapAssign, mapFind, Dbl.toInt, Dbl.sub, Dbl.abs, Dbl.gt,
    Dbl.ofInt, Leg.ofConfig]

theorem standingUp_no_timeout (a b c : Dbl) :
    (bench.ConvertDurationToSeconds
      (bench.Now (standingUp a b c).now_calls_ - (standingUp a b c).status_.mode_start)).gt
      (standingUp a b c).config_.stand_up.timeout_s = false := by
  norm_num [bench, standingUp, started, quadConfig, Dbl.gt]

/-- A control step in StandUp with the operator still asking for StandUp is the
stand-up controller. -/
theorem RunControl_standUp (E : Extern) (s : Impl)
    (hm : s.status_.mode = Mode.kStandUp)
    (hc : s.current_command_.mode = Mode.kStandUp) :
    RunControl E s = DoControl_StandUp E s := by
  simp [RunControl, modeChangeStep, hm, hc, dispatchControl]

/-- The completing stand-up step: the substate moves to `kStanding` and the
standing stub faults at once. -/
theorem standUp_completes_and_faults (E : Extern) (s : Impl)
    (hm : s.status_.mode = Mode.kStandUp)
    (hc : s.current_command_.mode = Mode.kStandUp)
    (hsub : s.status_.state.stand_up.mode = StandUpMode.kPrepositioning)
    (hgt : (E.ConvertDurationToSeconds (E.Now s.now_calls_ - s.status_.mode_start)).gt
      s.config_.stand_up.timeout_s = false)
    (hdone : CheckPrepositioning s = some true) :
    ∃ s', RunControl E s = some s' ∧
      s'.status_.state.stand_up.mode = StandUpMode.kStanding ∧
      s'.status_.mode = Mode.kFault ∧
      s'.status_.fault = "not implemented" ∧
      s'.status_.mode_start = E.Now (s.now_calls_ + 1) ∧
      s'.control_log_.joints = holdCommands s.config_ ∧
      s'.client_command_.requests = holdFrames s.config_ := by
  rw [RunControl_standUp E s hm hc, DoControl_StandUp_done E s hgt hsub hdone]
  obtain ⟨s', h1, h2, h3, h4⟩ := Fault_ok E "not implemented"
    { s with
      now_calls_ := s.now_calls_ + 1,
      status_ := { s.status_ with state := { s.status_.state with
        stand_up := { s.status_.state.stand_up with mode := StandUpMode.kStanding } } } }
  exact ⟨s', h1, by rw [h2], by rw [h2], by rw [h2], by rw [h2], h3, h4⟩

theorem prepositionCommands_length (stand_up : ConfigStandUp) :
    ∀ legs : List Leg, (prepositionCommands stand_up legs).length = 3 * legs.length
  | [] => rfl
  | leg :: rest => by
    simp only [prepositionCommands, List.length_cons, prepositionCommands_length stand_up rest]
    omega

theorem prepositionCommands_ids (stand_up : ConfigStandUp) (P : Int → Prop) :
    ∀ legs : List Leg,
      (∀ leg ∈ legs, P leg.config.ik.shoulder.id ∧ P leg.config.ik.femur.id ∧
        P leg.config.ik.tibia.id) →
      ∀ joint ∈ prepositionCommands stand_up legs, P joint.id
  | [], _, joint, h => by simp [prepositionCommands] at h
  | leg :: rest, hlegs, joint, h => by
    obtain ⟨h1, h2, h3⟩ := hlegs leg (List.mem_cons_self _ _)
    simp only [prepositionCommands, List.mem_cons] at h
    rcases h with rfl | rfl | rfl | h
    · exact h1
    · exact h2
    · exact h3
    · exact prepositionCommands_ids stand_up P rest
        (fun l hl => hlegs l (List.mem_cons_of_mem _ hl)) joint h

theorem prepositionCommands_fields (stand_up : ConfigStandUp) :
    ∀ legs : List Leg, ∀ joint ∈ prepositionCommands stand_up legs,
      joint.power = true ∧ joint.zero_velocity = false ∧
      joint.velocity_dps = stand_up.velocity_dps ∧
      joint.max_torque_Nm = some stand_up.max_preposition_torque_Nm
  | [], joint, h => by simp [prepositionCommands] at h
  | leg :: rest, joint, h => by
    simp only [prepositionCommands, List.mem_cons] at h
    rcases h with rfl | rfl | rfl | h
    · exact ⟨rfl, rfl, rfl, rfl⟩
    · exact ⟨rfl, rfl, rfl, rfl⟩
    · exact ⟨rfl, rfl, rfl, rfl⟩
    · exact prepositionCommands_fields stand_up rest joint h

/-- A command vector whose Position-mode commands all name configured joints is
marshalled. -/
theorem ControlJoints_ok (E : Extern) (joints : List QCJoint) (s : Impl)
    (h : ∀ joint ∈ joints, wireMode joint = MoteusMode.kPosition →
      (GetSign s.config_ joint.id).isSome) :
    ∃ s', ControlJoints E joints s = some s' := by
  have hsome := emitJoints_isSome E s.config_ joints [] s.values_cache_ h
  cases he : emitJoints E s.config_ joints [] s.values_cache_ with
  | none => rw [he] at hsome; exact absurd hsome (by simp)
  | some p =>
    cases hc : ControlJoints E joints s with
    | none => simp [ControlJoints, EmitControl, Now, emit, he] at hc
    | some s' => exact ⟨s', rfl⟩

/-- The frame of a Position-mode command with a full block. -/
theorem emitJoint_full_block (E : Extern) (config : Config) (joint : QCJoint)
    (cache : List Value) (request : Request) (values : List Value)
    (hw : wireMode joint = MoteusMode.kPosition) (h7 : blockLength joint = 7)
    (h : emitJoint E config joint cache = some (request, values)) :
    request.id = joint.id ∧
      ∃ block, request.request =
          [RegisterOp.WriteSingle kMode (Value.kInt8 MoteusMode.kPosition.toInt8),
           RegisterOp.WriteMultiple kCommandPosition block] ∧
        block.length = 7 := by
  obtain ⟨sign, hs⟩ := GetSign_of_emitJoint E config joint cache request values hw h
  rw [emitJoint_position E config joint cache sign hw hs] at h
  simp only [Option.some.injEq, Prod.mk.injEq] at h
  obtain ⟨rfl, _⟩ := h
  refine ⟨rfl, (fullBlock E sign joint).take (blockLength joint), by simp [h7], ?_⟩
  rw [take_fullBlock_length, h7]

/-- The preposition being commanded.  In StandUp, substate `kPrepositioning`,
with the operator still asking for StandUp, the elapsed time not over the timeout,
the completion test of `CheckPrepositioning` returning false and every leg naming
configured joints, the control step completes; it logs, for each leg in order, the
three commands with the leg's shoulder, femur and tibia ids, each with the power
on, `zero_velocity` clear, the stand-up velocity and torque limit and the pose
angle of its role as stop angle (twelve commands for four legs); each frame is the
Position mode write followed by a block of seven values; and the mode and the
substate stay as they were. -/
theorem preposition_commanded (E : Extern) (s : Impl)
    (hm : s.status_.mode = Mode.kStandUp)
    (hc : s.current_command_.mode = Mode.kStandUp)
    (hsub : s.status_.state.stand_up.mode = StandUpMode.kPrepositioning)
    (hgt : (E.ConvertDurationToSeconds (E.Now s.now_calls_ - s.status_.mode_start)).gt
      s.config_.stand_up.timeout_s = false)
    (hwait : CheckPrepositioning s = some false)
    (hlegs : ∀ leg ∈ s.legs_, Configured s.config_ leg.config.ik.shoulder.id ∧
      Configured s.config_ leg.config.ik.femur.id ∧
      Configured s.config_ leg.config.ik.tibia.id) :
    ∃ s', RunControl E s = some s' ∧
      s'.status_.mode = Mode.kStandUp ∧
      s'.status_.state.stand_up.mode = StandUpMode.kPrepositioning ∧
      s'.control_log_.joints = prepositionCommands s.config_.stand_up s.legs_ ∧
      (∀ joint ∈ s'.control_log_.joints,
        joint.power = true ∧ joint.zero_velocity = false ∧
        joint.velocity_dps = s.config_.stand_up.velocity_dps ∧
        joint.max_torque_Nm = some s.config_.stand_up.max_preposition_torque_Nm) ∧
      (s.legs_.length = 4 → s'.control_log_.joints.length = 12) ∧
      List.Forall₂ (fun joint request =>
          request.id = joint.id ∧
          ∃ block, request.request =
              [RegisterOp.WriteSingle kMode (Value.kInt8 MoteusMode.kPosition.toInt8),
               RegisterOp.WriteMultiple kCommandPosition block] ∧
            block.length = 7)
        s'.control_log_.joints s'.client_command_.requests := by
  rw [RunControl_standUp E s hm hc, DoControl_StandUp_wait E s hgt hsub hwait,
    DoControl_StandUp_Prepositioning_eq]
  obtain ⟨s', h⟩ := ControlJoints_ok E (prepositionCommands s.config_.stand_up s.legs_)
    { s with now_calls_ := s.now_calls_ + 1 }
    (fun joint hj _ => GetSign_isSome_of_configured _ _
      (prepositionCommands_ids s.config_.stand_up (Configured s.config_) s.legs_ hlegs joint hj))
  obtain ⟨h1, h2, _⟩ := ControlJoints_log E _ _ s' h
  have hall := ControlJoints_forall₂ E _ _ s'
    (fun joint request =>
      request.id = joint.id ∧
      ∃ block, request.request =
          [RegisterOp.WriteSingle kMode (Value.kInt8 MoteusMode.kPosition.toInt8),
           RegisterOp.WriteMultiple kCommandPosition block] ∧
        block.length = 7)
    (fun joint hj cache request values he =>
      emitJoint_full_block E _ joint cache request values
        (prepositionCommands_position _ _ joint hj).1
        (prepositionCommands_position _ _ joint hj).2 he) h
  refine ⟨s', h, by rw [h2]; exact hm, by rw [h2]; exact hsub, h1, ?_, ?_, ?_⟩
  · rw [h1]
    exact prepositionCommands_fields s.config_.stand_up s.legs_
  · intro h4
    rw [h1, prepositionCommands_length, h4]
  · rw [h1]
    exact hall

/-- The stand-up scenario: StandUp commanded, joints at zero degrees, target
`(0, 135, -120)`. -/
theorem preposition_commanded_at_zero :
    CheckPrepositioning (standingUp (Dbl.fin 0) (Dbl.fin 0) (Dbl.fin 0)) = some false ∧
      ∃ s', RunControl bench (standingUp (Dbl.fin 0) (Dbl.fin 0) (Dbl.fin 0)) = some s' ∧
        s'.status_.state.stand_up.mode = StandUpMode.kPrepositioning ∧
        s'.control_log_.joints.length = 12 ∧
        (∀ joint ∈ s'.control_log_.joints,
          joint.power = true ∧ joint.velocity_dps = Dbl.fin 30 ∧
          joint.max_torque_Nm = some (Dbl.fin 3)) :=
  ⟨checkPrepositioning_atZero,
    match preposition_commanded bench (standingUp (Dbl.fin 0) (Dbl.fin 0) (Dbl.fin 0))
        rfl rfl rfl (standingUp_no_timeout _ _ _) checkPrepositioning_atZero
        (by decide) with
    | ⟨s', h, _, hs, _, hp, hl, _⟩ =>
      ⟨s', h, hs, hl rfl, fun joint hj => ⟨(hp joint hj).1, (hp joint hj).2.2.1,
        (hp joint hj).2.2.2⟩⟩⟩

theorem checkPrepositioning_onTheDot : CheckPrepositioning onTheDot = some false := by
  norm_num [CheckPrepositioning, onTheDot, started, quadConfig, jointsAt, checkLegs,
    check, current_deg, mapAssign, mapFind, Dbl.toInt, Dbl.sub, Dbl.abs, Dbl.gt,
    Dbl.ofInt, Leg.ofConfig]

/-- C18, as stated, fails.  The engine is in StandUp, 300000 microseconds after
`mode_start`, with `timeout_s` the double written `0.3`.  The time elapsed, 3/10
of a second, is strictly greater than `timeout_s`, that double being smaller than
3/10; yet the control step raises no fault and stays in StandUp, because the
elapsed time the code compares is the double `300000 / 1e6`, which is `timeout_s`
itself. -/
theorem timeout_lost_in_rounding :
    onTheDot.status_.mode = Mode.kStandUp ∧
      rounded.Now onTheDot.now_calls_ - onTheDot.status_.mode_start = 300000 ∧
      (Dbl.fin ((300000 : ℚ) / 1000000)).gt onTheDot.config_.stand_up.timeout_s = true ∧
      ∃ s', RunControl rounded onTheDot = some s' ∧
        s'.status_.mode = Mode.kStandUp ∧ s'.status_.fault = "" := by
  refine ⟨rfl, by decide, ?_, ?_⟩
  · norm_num [onTheDot, Dbl.gt]
  · have hgt : (rounded.ConvertDurationToSeconds
        (rounded.Now onTheDot.now_calls_ - onTheDot.status_.mode_start)).gt
        onTheDot.config_.stand_up.timeout_s = false := by
      norm_num [rounded, bench, onTheDot, started, Dbl.gt]
    rw [RunControl_standUp rounded onTheDot rfl rfl,
      DoControl_StandUp_wait rounded onTheDot hgt rfl checkPrepositioning_onTheDot,
      DoControl_StandUp_Prepositioning_eq]
    obtain ⟨s', h⟩ := ControlJoints_ok rounded
      (prepositionCommands onTheDot.config_.stand_up onTheDot.legs_)
      { onTheDot with now_calls_ := onTheDot.now_calls_ + 1 }
      (fun joint hj _ => GetSign_isSome_of_configured _ _
        (prepositionCommands_ids onTheDot.config_.stand_up (Configured onTheDot.config_)
          onTheDot.legs_ (by decide) joint hj))
    obtain ⟨_, h2, _⟩ := ControlJoints_log rounded _ _ s' h
    exact ⟨s', h, by rw [h2]; rfl, by rw [h2]; rfl⟩

/-- C18, amended.  Stand-up timeout guard.  Let the mode after the mode-change
step be StandUp and let `elapsed` be the time from `mode_start` to the clock
reading of the stand-up controller, converted to seconds as a double by
`ConvertDurationToSeconds`.  When `elapsed` is strictly greater than
`stand_up.timeout_s` the control step completes in Fault with the message
"timeout", the substate as it was, `mode_start` set to the clock reading taken by
`Fault`, and the zero-velocity hold emitted for all configured joints.
Conversely a control step that ends in Fault with the message "timeout" had
`elapsed` strictly greater than the timeout; in particular, when `elapsed` equals
`timeout_s` no timeout fault is raised. -/
theorem standup_timeout (E : Extern) (s s1 : Impl)
    (hstep : modeChangeStep E s = some s1)
    (hm : s1.status_.mode = Mode.kStandUp) :
    ((E.ConvertDurationToSeconds (E.Now s1.now_calls_ - s1.status_.mode_start)).gt
        s1.config_.stand_up.timeout_s = true →
      ∃ s', RunControl E s = some s' ∧
        s'.status_.mode = Mode.kFault ∧
        s'.status_.fault = "timeout" ∧
        s'.status_.state.stand_up = s1.status_.state.stand_up ∧
        s'.status_.mode_start = E.Now (s1.now_calls_ + 1) ∧
        s'.control_log_.joints = holdCommands s.config_ ∧
        s'.client_command_.requests = holdFrames s.config_) ∧
    (∀ s', RunControl E s = some s' →
      s'.status_.mode = Mode.kFault → s'.status_.fault = "timeout" →
      (E.ConvertDurationToSeconds (E.Now s1.now_calls_ - s1.status_.mode_start)).gt
        s1.config_.stand_up.timeout_s = true) ∧
    (E.ConvertDurationToSeconds (E.Now s1.now_calls_ - s1.status_.mode_start) =
        s1.config_.stand_up.timeout_s →
      ∀ s', RunControl E s = some s' →
        ¬ (s'.status_.mode = Mode.kFault ∧ s'.status_.fault = "timeout")) := by
  have hrun : RunControl E s = DoControl_StandUp E s1 := by
    simp [RunControl, hstep, dispatchControl, hm]
  have hcfg := (modeChangeStep_sameSetup E s s1 hstep).1
  have hconv : ∀ s', RunControl E s = some s' →
      s'.status_.mode = Mode.kFault → s'.status_.fault = "timeout" →
      (E.ConvertDurationToSeconds (E.Now s1.now_calls_ - s1.status_.mode_start)).gt
        s1.config_.stand_up.timeout_s = true := by
    intro s' h hmode hfault
    by_contra hgt
    have hgt' := Bool.eq_false_iff.mpr hgt
    rw [hrun] at h
    rcases DoControl_StandUp_no_timeout E s1 s' hgt' h with ⟨_, hc⟩ | ⟨t, hf, _⟩
    · obtain ⟨_, h2, _⟩ := ControlJoints_log E _ _ s' hc
      rw [h2] at hmode
      simp only at hmode
      rw [hm] at hmode
      exact absurd hmode (by decide)
    · obtain ⟨s'', h1, h2, _⟩ := Fault_ok E "not implemented" t
      rw [hf] at h1
      simp only [Option.some.injEq] at h1
      subst h1
      rw [h2] at hfault
      simp only at hfault
      exact absurd hfault (by decide)
  refine ⟨?_, hconv, ?_⟩
  · intro hgt
    rw [hrun, DoControl_StandUp_timeout E s1 hgt]
    obtain ⟨s', h1, h2, h3, h4⟩ := Fault_ok E "timeout"
      { s1 with now_calls_ := s1.now_calls_ + 1 }
    exact ⟨s', h1, by rw [h2], by rw [h2], by rw [h2], by rw [h2],
      by rw [h3]; exact congrArg holdCommands hcfg,
      by rw [h4]; exact congrArg holdFrames hcfg⟩
  · intro heq s' h hboth
    have := hconv s' h hboth.1 hboth.2
    rw [heq, Dbl.gt_self] at this
    exact absurd this (by decide)

/-- C18 amended, evaluated five seconds after `mode_start`, with the default
timeout of four seconds. -/
theorem standup_timeout_witness :
    modeChangeStep bench overdue = some overdue ∧
      ∃ s', RunControl bench overdue = some s' ∧
        s'.status_.mode = Mode.kFault ∧
        s'.status_.fault = "timeout" ∧
        s'.status_.state.stand_up.mode = StandUpMode.kPrepositioning ∧
        s'.status_.mode_start = 1000 :=
  ⟨rfl,
    match (standup_timeout bench overdue overdue rfl rfl).1
        (by norm_num [bench, overdue, started, quadConfig,
          Dbl.gt]) with
    | ⟨s', h, hm, hf, hs, ht, _⟩ => ⟨s', h, hm, hf, by rw [hs]; rfl, ht⟩⟩

/-! ## The completion test and its integer target -/

theorem tdiv_271_2 : Int.tdiv 271 2 = 135 := by decide

theorem abs_one_half : |(1 : ℚ) / 2| = 1 / 2 := abs_of_pos (by norm_num)

/-- C16 at its failing input.  With a femur target of 135.5 degrees and a
tolerance of 0.25 degrees: when every joint stands exactly at its target the
joints are within tolerance, yet `CheckPrepositioning` returns false; and when the
femurs stand at 135 degrees, half a degree off, `CheckPrepositioning` returns
true.  The lambda `check` takes the target as an `int`, so 135.5 is compared as
135. -/
theorem check_prepositioning_truncates :
    (withinTolerance (halfDegree (Dbl.fin (271 / 2))) = true ∧
      CheckPrepositioning (halfDegree (Dbl.fin (271 / 2))) = some false) ∧
    (withinTolerance (halfDegree (Dbl.fin 135)) = false ∧
      CheckPrepositioning (halfDegree (Dbl.fin 135)) = some true) := by
  refine ⟨⟨?_, ?_⟩, ?_, ?_⟩
  · norm_num [withinTolerance, nearTarget, halfDegree, standingUp, started, quadConfig,
      jointsAt, Dbl.sub, Dbl.abs, Dbl.le, Leg.ofConfig, abs_one_half]
  · norm_num [CheckPrepositioning, halfDegree, standingUp, started, quadConfig, jointsAt,
      checkLegs, check, current_deg, mapAssign, mapFind, Dbl.toInt, tdiv_271_2, Dbl.sub,
      Dbl.abs, Dbl.gt, Dbl.ofInt, Leg.ofConfig, abs_one_half]
  · norm_num [withinTolerance, nearTarget, halfDegree, standingUp, started, quadConfig,
      jointsAt, Dbl.sub, Dbl.abs, Dbl.le, Leg.ofConfig, abs_one_half]
  · norm_num [CheckPrepositioning, halfDegree, standingUp, started, quadConfig, jointsAt,
      checkLegs, check, current_deg, mapAssign, mapFind, Dbl.toInt, tdiv_271_2, Dbl.sub,
      Dbl.abs, Dbl.gt, Dbl.ofInt, Leg.ofConfig, abs_one_half]

theorem checkPrepositioning_halfDegree_off :
    CheckPrepositioning (halfDegree (Dbl.fin 135)) = some true := by
  norm_num [CheckPrepositioning, halfDegree, standingUp, started, quadConfig, jointsAt,
    checkLegs, check, current_deg, mapAssign, mapFind, Dbl.toInt, tdiv_271_2, Dbl.sub,
    Dbl.abs, Dbl.gt, Dbl.ofInt, Leg.ofConfig, abs_one_half]

/-- C17 at its failing input.  The engine is in StandUp, substate
`kPrepositioning`, the operator still asking for StandUp and no time elapsed, with
a femur target of 135.5 degrees, a tolerance of 0.25 degrees and the femurs
standing at 135 degrees: the femur of every leg is outside tolerance.  Yet the
control step commands no preposition: the completion test, which compares the
femurs with 135, passes, the substate moves to `kStanding` and the step ends in
Fault with the message "not implemented", emitting the zero-velocity hold. -/
theorem preposition_skipped_off_target :
    (halfDegree (Dbl.fin 135)).status_.mode = Mode.kStandUp ∧
      (halfDegree (Dbl.fin 135)).status_.state.stand_up.mode =
        StandUpMode.kPrepositioning ∧
      nearTarget (halfDegree (Dbl.fin 135)) 2
        (halfDegree (Dbl.fin 135)).config_.stand_up.pose.femur_deg = false ∧
      withinTolerance (halfDegree (Dbl.fin 135)) = false ∧
      ∃ s', RunControl bench (halfDegree (Dbl.fin 135)) = some s' ∧
        s'.status_.state.stand_up.mode = StandUpMode.kStanding ∧
        s'.status_.mode = Mode.kFault ∧
        s'.status_.fault = "not implemented" ∧
        s'.control_log_.joints = holdCommands (halfDegree (Dbl.fin 135)).config_ ∧
        s'.control_log_.joints ≠
          prepositionCommands (halfDegree (Dbl.fin 135)).config_.stand_up
            (halfDegree (Dbl.fin 135)).legs_ := by
  refine ⟨rfl, rfl, ?_, ?_, ?_⟩
  · norm_num [nearTarget, halfDegree, standingUp, started, quadConfig,
      jointsAt, Dbl.sub, Dbl.abs, Dbl.le, abs_one_half]
  · norm_num [withinTolerance, nearTarget, halfDegree, standingUp, started, quadConfig,
      jointsAt, Dbl.sub, Dbl.abs, Dbl.le, Leg.ofConfig, abs_one_half]
  · have hgt : (bench.ConvertDurationToSeconds
        (bench.Now (halfDegree (Dbl.fin 135)).now_calls_ -
          (halfDegree (Dbl.fin 135)).status_.mode_start)).gt
        (halfDegree (Dbl.fin 135)).config_.stand_up.timeout_s = false := by
      norm_num [bench, halfDegree, standingUp, started, quadConfig, Dbl.gt]
    obtain ⟨s', h, hs, hm, hf, _, hj, _⟩ := standUp_completes_and_faults bench
      (halfDegree (Dbl.fin 135)) rfl rfl rfl hgt checkPrepositioning_halfDegree_off
    refine ⟨s', h, hs, hm, hf, hj, ?_⟩
    rw [hj]
    intro heq
    simp [holdCommands, halfDegree, standingUp, started, quadConfig, prepositionCommands,
      prepositionCommand, Leg.ofConfig] at heq

/-! ## The leg controller -/

theorem decodeRegister_ids (E : Extern) (sign : Dbl) (acc : ReplyOut)
    (pair : Register × Option Value) :
    (decodeRegister E sign acc pair).out_joint.id = acc.out_joint.id ∧
      (decodeRegister E sign acc pair).out_link.id = acc.out_link.id ∧
      (decodeRegister E sign acc pair).ik_joint.id = acc.ik_joint.id := by
  unfold decodeRegister
  split
  · exact ⟨rfl, rfl, rfl⟩
  · repeat' split
    all_goals exact ⟨rfl, rfl, rfl⟩

theorem decodeRegisters_ids (E : Extern) (sign : Dbl) :
    ∀ (pairs : List (Register × Option Value)) (acc : ReplyOut),
      (pairs.foldl (decodeRegister E sign) acc).out_joint.id = acc.out_joint.id ∧
        (pairs.foldl (decodeRegister E sign) acc).out_link.id = acc.out_link.id ∧
        (pairs.foldl (decodeRegister E sign) acc).ik_joint.id = acc.ik_joint.id
  | [], _ => ⟨rfl, rfl, rfl⟩
  | pair :: rest, acc => by
    obtain ⟨a, b, c⟩ := decodeRegisters_ids E sign rest (decodeRegister E sign acc pair)
    obtain ⟨a', b', c'⟩ := decodeRegister_ids E sign acc pair
    exact ⟨a.trans a', b.trans b', c.trans c'⟩

theorem decodeReply_ids (E : Extern) (config : Config) (reply : SingleReply) (out : ReplyOut)
    (h : decodeReply E config reply = some out) :
    out.out_joint.id = reply.id ∧ out.out_link.id = reply.id ∧ out.ik_joint.id = reply.id := by
  unfold decodeReply at h
  simp only at h
  split at h
  · exact absurd h.symm (Option.some_ne_none _)
  · simp only [Option.some.injEq] at h
    subst h
    exact decodeRegisters_ids E _ reply.reply _

/-- One decoded record per reply, in reply order, under the reply's id. -/
theorem decodeReplies_ids (E : Extern) (config : Config) :
    ∀ (replies : List SingleReply) (outs : List ReplyOut),
      decodeReplies E config replies = some outs →
      outs.map (fun (o : ReplyOut) => o.out_joint.id) = replies.map (fun reply => reply.id) ∧
      outs.map (fun (o : ReplyOut) => o.out_link.id) = replies.map (fun reply => reply.id)
  | [], outs, h => by
    simp only [decodeReplies, Option.some.injEq] at h
    subst h
    exact ⟨rfl, rfl⟩
  | reply :: rest, outs, h => by
    unfold decodeReplies at h
    split at h
    · exact absurd h.symm (Option.some_ne_none _)
    · rename_i out hout
      split at h
      · exact absurd h.symm (Option.some_ne_none _)
      · rename_i outs' hrest
        simp only [Option.some.injEq] at h
        subst h
        obtain ⟨a, b⟩ := decodeReplies_ids E config rest outs' hrest
        obtain ⟨a', b', _⟩ := decodeReply_ids E config reply out hout
        simp [a, b, a', b']

/-- One leg state per leg, in leg order, under the leg's number. -/
theorem legStates_legs (E : Extern) (joint_angles : List IkJoint) (links : List Link) :
    ∀ (legs : List Leg) (outs : List StateLeg),
      legStates E joint_angles links legs = some outs →
      outs.map (fun (o : StateLeg) => o.leg) = legs.map (fun leg => leg.leg)
  | [], outs, h => by
    simp only [legStates, Option.some.injEq] at h
    subst h
    rfl
  | leg :: rest, outs, h => by
    unfold legStates at h
    split at h
    · exact absurd h.symm (Option.some_ne_none _)
    · rename_i out hout
      split at h
      · exact absurd h.symm (Option.some_ne_none _)
      · rename_i outs' hrest
        simp only [Option.some.injEq] at h
        subst h
        have ih := legStates_legs E joint_angles links rest outs' hrest
        have hl : out.leg = leg.leg := by
          unfold legState at hout
          simp only at hout
          repeat' split at hout
          all_goals first
            | exact absurd hout.symm (Option.some_ne_none _)
            | (simp only [Option.some.injEq] at hout; subst hout; rfl)
        simp [ih, hl]

/-- The snapshot `UpdateStatus` builds: the joints follow the replies and the leg
states follow the legs, whatever the snapshot held before. -/
theorem UpdateStatus_snapshot (E : Extern) (s s' : Impl)
    (h : UpdateStatus E s = some s') :
    s'.status_.state.joints.map (fun joint => joint.id) =
        s.status_reply_.replies.map (fun reply => reply.id) ∧
      s'.status_.state.legs_B.map (fun (o : StateLeg) => o.leg) =
        s.legs_.map (fun leg => leg.leg) ∧
      s'.legs_ = s.legs_ ∧ s'.config_ = s.config_ := by
  unfold UpdateStatus at h
  split at h
  · exact absurd h.symm (Option.some_ne_none _)
  · rename_i outs houts
    simp only at h
    split at h
    · exact absurd h.symm (Option.some_ne_none _)
    · rename_i legs_B hlegs
      simp only [Option.some.injEq] at h
      subst h
      refine ⟨?_, legStates_legs E _ _ _ _ hlegs, rfl, rfl⟩
      simp only [List.map_map]
      exact (decodeReplies_ids E _ _ _ houts).1

/-- The method `HandleCommand` publishes the status it holds. -/
theorem HandleCommand_publishes (E : Extern) (ec : Bool) (s s' : Impl)
    (h : HandleCommand E ec s = some s') :
    s'.trace_ = s.trace_ ++ [Event.status_signal s'.status_] ∧
      s'.status_.state = s.status_.state := by
  unfold HandleCommand at h
  split at h
  · exact absurd h.symm (Option.some_ne_none _)
  · simp only [Now, emit, Option.some.injEq] at h
    subst h
    exact ⟨rfl, rfl⟩

/-- A cycle that is not aborted: the snapshot is rebuilt, control runs, and the
handler ends either by issuing the command write or by publishing the status. -/
theorem HandleStatus_complete (E : Extern) (s s1 : Impl)
    (hlen : s.status_reply_.replies.length = 12)
    (h : HandleStatus E false s = some s1) :
    ∃ u r,
      UpdateStatus E
        { s with
          timestamps_ := { s.timestamps_ with status_done := E.Now s.now_calls_ },
          now_calls_ := s.now_calls_ + 1 } = some u ∧
      RunControl E { u with control_log_ := {} } = some r ∧
      s1.status_.state = r.status_.state ∧
      ((∃ request, s1.trace_.getLast? = some (Event.AsyncRegister BusOp.command request)) ∨
        s1.trace_.getLast? = some (Event.status_signal s1.status_)) := by
  unfold HandleStatus at h
  simp only [Bool.false_eq_true, if_false, Now, hlen, ne_eq, not_true_eq_false] at h
  split at h
  · exact absurd h.symm (Option.some_ne_none _)
  · rename_i u hu
    split at h
    · exact absurd h.symm (Option.some_ne_none _)
    · rename_i r hr
      refine ⟨u, r, hu, hr, ?_⟩
      split at h
      · simp only [AsyncRegister, emit] at h
        split at h
        · simp only [Option.some.injEq] at h
          subst h
          exact ⟨rfl, Or.inl ⟨r.client_command_, by simp⟩⟩
        · exact absurd h.symm (Option.some_ne_none _)
      · obtain ⟨ht, hst⟩ := HandleCommand_publishes E false _ s1 h
        exact ⟨hst, Or.inr (by rw [ht]; simp)⟩

/-- C19. Every completed cycle publishes 12 joints and 4 legs.  Let the engine
hold a configuration accepted at startup (four legs, `legs_` built from them) and
let `HandleStatus` receive twelve replies and return.  Then, whatever `Status`
held before, its snapshot has exactly twelve joints, one per reply in reply order,
and exactly four leg states, one per configured leg in configuration order; the
status record published by `HandleCommand`, be it called at once (no request to
write) or on completion of the command write, carries that snapshot. -/
theorem completed_cycle_publishes (E : Extern) (s s1 : Impl)
    (hcfg : s.config_.legs.length = 4)
    (hlegs : s.legs_ = s.config_.legs.map Leg.ofConfig)
    (hlen : s.status_reply_.replies.length = 12)
    (h : HandleStatus E false s = some s1) :
    (s1.status_.state.joints.length = 12 ∧
      s1.status_.state.joints.map (fun joint => joint.id) =
        s.status_reply_.replies.map (fun reply => reply.id)) ∧
    (s1.status_.state.legs_B.length = 4 ∧
      s1.status_.state.legs_B.map (fun (o : StateLeg) => o.leg) =
        s.config_.legs.map (fun leg => leg.leg)) ∧
    (∀ st, s1.trace_.getLast? = some (Event.status_signal st) →
      st.state = s1.status_.state) ∧
    (∀ ec reply s2,
      HandleCommand E ec
        { s1 with pending_ := s1.pending_.erase BusOp.command,
                  client_command_reply_ := reply } = some s2 →
      ∃ st, s2.trace_ = s1.trace_ ++ [Event.status_signal st] ∧
        st.state = s1.status_.state) := by
  obtain ⟨u, r, hu, hr, hst, hlast⟩ := HandleStatus_complete E s s1 hlen h
  obtain ⟨hj, hl, _, _⟩ := UpdateStatus_snapshot E _ u hu
  have hsetup := RunControl_sameSetup E _ r hr
  have hjoints : s1.status_.state.joints = u.status_.state.joints := by
    rw [hst]; exact hsetup.2.2.2.1
  have hlegsB : s1.status_.state.legs_B = u.status_.state.legs_B := by
    rw [hst]; exact hsetup.2.2.2.2.1
  simp only at hj hl
  have hids : s1.status_.state.joints.map (fun joint => joint.id) =
      s.status_reply_.replies.map (fun reply => reply.id) := by rw [hjoints]; exact hj
  have hlegids : s1.status_.state.legs_B.map (fun (o : StateLeg) => o.leg) =
      s.config_.legs.map (fun leg => leg.leg) := by
    rw [hlegsB, hl, hlegs, List.map_map]
    rfl
  refine ⟨⟨?_, hids⟩, ⟨?_, hlegids⟩, ?_, ?_⟩
  · have := congrArg List.length hids
    simpa [hlen] using this
  · have := congrArg List.length hlegids
    simpa [hcfg] using this
  · intro st hlast'
    rcases hlast with ⟨request, hreq⟩ | hpub
    · rw [hreq] at hlast'
      exact absurd hlast' (by simp)
    · rw [hpub] at hlast'
      simp only [Option.some.injEq, Event.status_signal.injEq] at hlast'
      rw [← hlast']
  · intro ec reply s2 h2
    obtain ⟨ht, hs⟩ := HandleCommand_publishes E ec _ s2 h2
    exact ⟨s2.status_, ht, hs⟩

theorem bringUp_completes : (HandleStatus bench false bringUp).isSome = true := by
  decide

/-- What `AsyncStart` on the engine as constructed accepts: four legs and twelve
joints, with `legs_` built from the configured legs. -/
theorem AsyncStart_accepted (config : Config) (s : Impl)
    (h : AsyncStart config {} = some s) :
    s.config_.legs.length = 4 ∧ s.config_.joints.length = 12 ∧
      s.legs_ = s.config_.legs.map Leg.ofConfig := by
  unfold AsyncStart at h
  simp only at h
  split at h
  · exact absurd h.symm (Option.some_ne_none _)
  · rename_i hok
    simp only [Option.some.injEq] at h
    subst h
    simp only [not_or, ne_eq, not_not] at hok
    exact ⟨hok.1, hok.2, by simp [PopulateStatusRequest, Configure]⟩

/-- C19, evaluated on the bring-up scenario: the first cycle of the started engine
receives twelve replies with position 0. -/
theorem completed_cycle_publishes_witness :
    bringUp.status_reply_.replies.length = 12 ∧
      ∃ s1, HandleStatus bench false bringUp = some s1 ∧
        s1.status_.state.joints.length = 12 ∧
        s1.status_.state.legs_B.length = 4 ∧
        s1.status_.state.legs_B.map (fun (o : StateLeg) => o.leg) = [0, 1, 2, 3] :=
  ⟨rfl,
    match Option.isSome_iff_exists.mp bringUp_completes with
    | ⟨s1, h⟩ =>
      ⟨s1, h, (completed_cycle_publishes bench bringUp s1 rfl rfl rfl h).1.1,
        (completed_cycle_publishes bench bringUp s1 rfl rfl rfl h).2.1.1,
        (completed_cycle_publishes bench bringUp s1 rfl rfl rfl h).2.1.2⟩⟩

/-! ## The completion test on integer-valued targets -/

/-- Multiplying twice by a sign of plus or minus one gives the number back. -/
theorem Dbl.mul_mul_sign (sign p : Dbl) (h : sign = Dbl.fin 1 ∨ sign = Dbl.fin (-1)) :
    sign.mul (sign.mul p) = p := by
  rcases h with h | h <;> subst h <;> cases p <;> norm_num [Dbl.mul]

theorem getLast?_filterMap_cons {α β : Type} (f : α → Option β) (a : α) (l : List α) :
    ((a :: l).filterMap f).getLast? =
      match (l.filterMap f).getLast? with
      | some v => some v
      | none => f a := by
  cases ha : f a with
  | none => 
    rw [List.filterMap_cons_none ha]
    cases (l.filterMap f).getLast? <;> rfl
  | some b =>
    rw [List.filterMap_cons_some ha]
    cases hl : l.filterMap f with
    | nil => rfl
    | cons c rest =>
      rw [List.getLast?_cons_cons]
      cases hr : (c :: rest).getLast? with
      | none => simp at hr
      | some v => rfl

theorem decodeRegister_aligned (E : Extern) (sign : Dbl) (acc : ReplyOut)
    (pair : Register × Option Value) (h : Aligned acc) :
    Aligned (decodeRegister E sign acc pair) := by
  obtain ⟨⟨a1, a2, a3, a4⟩, b1, b2, b3, b4⟩ := h
  unfold decodeRegister
  split
  · exact ⟨⟨a1, a2, a3, a4⟩, b1, b2, b3, b4⟩
  · repeat' split
    all_goals exact ⟨⟨a1, by first | rfl | exact a2, by first | rfl | exact a3,
      by first | rfl | exact a4⟩, b1, by first | rfl | exact b2, by first | rfl | exact b3,
      by first | rfl | exact b4⟩

theorem decodeRegisters_aligned (E : Extern) (sign : Dbl) :
    ∀ (pairs : List (Register × Option Value)) (acc : ReplyOut),
      Aligned acc → Aligned (pairs.foldl (decodeRegister E sign) acc)
  | [], _, h => h
  | pair :: rest, acc, h =>
    decodeRegisters_aligned E sign rest _ (decodeRegister_aligned E sign acc pair h)

theorem decodeReply_aligned (E : Extern) (config : Config) (reply : SingleReply)
    (out : ReplyOut) (h : decodeReply E config reply = some out) : Aligned out := by
  unfold decodeReply at h
  simp only at h
  split at h
  · exact absurd h.symm (Option.some_ne_none _)
  · simp only [Option.some.injEq] at h
    subst h
    exact decodeRegisters_aligned E _ reply.reply _ ⟨⟨rfl, rfl, rfl, rfl⟩, rfl, rfl, rfl, rfl⟩

/-- What one register of a reply does to the angle, the velocity and the torque of
the joint state. -/
theorem decodeRegister_fields (E : Extern) (sign : Dbl) (acc : ReplyOut)
    (pair : Register × Option Value) :
    (decodeRegister E sign acc pair).out_joint.angle_deg =
        (match (if pair.1 = kPosition then pair.2 else none) with
         | some v => sign.mul (E.ReadPosition v)
         | none => acc.out_joint.angle_deg) ∧
      (decodeRegister E sign acc pair).out_joint.velocity_dps =
        (match (if pair.1 = kVelocity then pair.2 else none) with
         | some v => sign.mul (E.ReadPosition v)
         | none => acc.out_joint.velocity_dps) ∧
      (decodeRegister E sign acc pair).out_joint.torque_Nm =
        (match (if pair.1 = kTorque then pair.2 else none) with
         | some v => sign.mul (E.ReadTorque v)
         | none => acc.out_joint.torque_Nm) := by
  obtain ⟨r, ov⟩ := pair
  cases ov with
  | none => simp [decodeRegister]
  | some v =>
    by_cases h0 : r = kMode
    · subst h0
      simp [decodeRegister, kMode, kPosition, kVelocity, kTorque]
    by_cases h1 : r = kPosition
    · subst h1
      simp [decodeRegister, kMode, kPosition, kVelocity, kTorque]
    by_cases h2 : r = kVelocity
    · subst h2
      simp [decodeRegister, kMode, kPosition, kVelocity, kTorque]
    by_cases h3 : r = kTorque
    · subst h3
      simp [decodeRegister, kMode, kPosition, kVelocity, kTorque]
    simp only [decodeRegister, h0, h1, h2, h3, if_false]
    repeat' split
    all_goals exact ⟨rfl, rfl, rfl⟩

/-- The angle, the velocity and the torque a reply leaves in the joint state: for
each the last value the reply holds under the register, decoded and multiplied by
the sign, and the value of the record before the reply when there is none. -/
theorem decodeRegisters_fields (E : Extern) (sign : Dbl) :
    ∀ (pairs : List (Register × Option Value)) (acc : ReplyOut),
      (pairs.foldl (decodeRegister E sign) acc).out_joint.angle_deg =
          (match (pairs.filterMap
              (fun pair => if pair.1 = kPosition then pair.2 else none)).getLast? with
           | some v => sign.mul (E.ReadPosition v)
           | none => acc.out_joint.angle_deg) ∧
        (pairs.foldl (decodeRegister E sign) acc).out_joint.velocity_dps =
          (match (pairs.filterMap
              (fun pair => if pair.1 = kVelocity then pair.2 else none)).getLast? with
           | some v => sign.mul (E.ReadPosition v)
           | none => acc.out_joint.velocity_dps) ∧
        (pairs.foldl (decodeRegister E sign) acc).out_joint.torque_Nm =
          (match (pairs.filterMap
              (fun pair => if pair.1 = kTorque then pair.2 else none)).getLast? with
           | some v => sign.mul (E.ReadTorque v)
           | none => acc.out_joint.torque_Nm)
  | [], _ => ⟨rfl, rfl, rfl⟩
  | pair :: rest, acc => by
    obtain ⟨ha, hv, ht⟩ := decodeRegisters_fields E sign rest (decodeRegister E sign acc pair)
    obtain ⟨ha', hv', ht'⟩ := decodeRegister_fields E sign acc pair
    rw [List.foldl_cons, ha, hv, ht, ha', hv', ht']
    simp only [getLast?_filterMap_cons]
    refine ⟨?_, ?_, ?_⟩
    · cases (rest.filterMap
        (fun pair => if pair.1 = kPosition then pair.2 else none)).getLast? <;> rfl
    · cases (rest.filterMap
        (fun pair => if pair.1 = kVelocity then pair.2 else none)).getLast? <;> rfl
    · cases (rest.filterMap
        (fun pair => if pair.1 = kTorque then pair.2 else none)).getLast? <;> rfl

/-- The joint state decoded from a reply: its id is the reply's, and its angle,
velocity and torque are the exposed quantities. -/
theorem decodeReply_fields (E : Extern) (config : Config) (reply : SingleReply)
    (out : ReplyOut) (h : decodeReply E config reply = some out) :
    ∃ sign, GetSign config reply.id = some sign ∧
      out.out_joint.id = reply.id ∧
      out.out_joint.angle_deg = exposed sign E.ReadPosition kPosition reply ∧
      out.out_joint.velocity_dps = exposed sign E.ReadPosition kVelocity reply ∧
      out.out_joint.torque_Nm = exposed sign E.ReadTorque kTorque reply := by
  have hid := (decodeReply_ids E config reply out h).1
  unfold decodeReply at h
  simp only at h
  split at h
  · exact absurd h.symm (Option.some_ne_none _)
  · rename_i sign hsign
    simp only [Option.some.injEq] at h
    subst h
    obtain ⟨ha, hv, ht⟩ := decodeRegisters_fields E sign reply.reply
      { out_joint := { id := reply.id }, out_link := { id := reply.id },
        ik_joint := { id := reply.id } }
    exact ⟨sign, hsign, hid, ha, hv, ht⟩

/-- The records of `decodeReplies` are those of `decodeReply`, reply by reply. -/
theorem decodeReplies_forall₂ (E : Extern) (config : Config) :
    ∀ (replies : List SingleReply) (outs : List ReplyOut),
      decodeReplies E config replies = some outs →
      List.Forall₂ (fun reply out => decodeReply E config reply = some out) replies outs
  | [], outs, h => by
    simp only [decodeReplies, Option.some.injEq] at h
    subst h
    exact List.Forall₂.nil
  | reply :: rest, outs, h => by
    unfold decodeReplies at h
    split at h
    · exact absurd h.symm (Option.some_ne_none _)
    · rename_i out hout
      split at h
      · exact absurd h.symm (Option.some_ne_none _)
      · rename_i outs' hrest
        simp only [Option.some.injEq] at h
        subst h
        exact List.Forall₂.cons hout (decodeReplies_forall₂ E config rest outs' hrest)

/-- The two loops of `UpdateStatus`: the joints are the decoded replies and the leg
states are built from their link records; the rest of the engine is untouched. -/
theorem UpdateStatus_decoded (E : Extern) (s s' : Impl)
    (h : UpdateStatus E s = some s') :
    ∃ outs, decodeReplies E s.config_ s.status_reply_.replies = some outs ∧
      s'.status_.state.joints = outs.map (fun (o : ReplyOut) => o.out_joint) ∧
      legStates E (outs.map (fun (o : ReplyOut) => o.ik_joint))
        (outs.map (fun (o : ReplyOut) => o.out_link)) s.legs_ =
          some s'.status_.state.legs_B ∧
      s'.status_.mode = s.status_.mode ∧
      s'.status_.state.stand_up = s.status_.state.stand_up := by
  unfold UpdateStatus at h
  split at h
  · exact absurd h.symm (Option.some_ne_none _)
  · rename_i outs houts
    simp only at h
    split at h
    · exact absurd h.symm (Option.some_ne_none _)
    · rename_i legs_B hlegs
      simp only [Option.some.injEq] at h
      subst h
      exact ⟨outs, houts, rfl, hlegs, rfl, rfl⟩

/-- The joint states of the snapshot, reply by reply: the id of the reply and the
exposed angle, velocity and torque. -/
theorem UpdateStatus_exposed (E : Extern) (s s' : Impl)
    (h : UpdateStatus E s = some s') :
    List.Forall₂
      (fun (reply : SingleReply) (joint : StateJoint) =>
        ∃ sign, GetSign s.config_ reply.id = some sign ∧
          joint.id = reply.id ∧
          joint.angle_deg = exposed sign E.ReadPosition kPosition reply ∧
          joint.velocity_dps = exposed sign E.ReadPosition kVelocity reply ∧
          joint.torque_Nm = exposed sign E.ReadTorque kTorque reply)
      s.status_reply_.replies s'.status_.state.joints := by
  obtain ⟨outs, houts, hj, _⟩ := UpdateStatus_decoded E s s' h
  rw [hj, List.forall₂_map_right_iff]
  exact (decodeReplies_forall₂ E _ _ _ houts).imp
    (fun reply out hout => decodeReply_fields E _ reply out hout)

theorem get_link_some (links : List Link) (id : Int) (link : Link)
    (h : get_link links id = some link) : link ∈ links ∧ link.id = id := by
  unfold get_link at h
  exact ⟨List.mem_of_find?_eq_some h, by simpa using List.find?_some h⟩

theorem get_link_ok (links : List Link) (id : Int)
    (h : id ∈ links.map (fun link => link.id)) : ∃ link, get_link links id = some link := by
  obtain ⟨l, hl, hid⟩ := List.mem_map.mp h
  unfold get_link
  cases hf : links.find? (fun link => link.id == id) with
  | some link => exact ⟨link, rfl⟩
  | none =>
    have := List.find?_eq_none.mp hf l hl
    simp [hid] at this

/-- A leg state that `legState` builds carries the leg's number and the three
links found under the shoulder, femur and tibia ids, in that order. -/
theorem legState_links (E : Extern) (joint_angles : List IkJoint) (links : List Link)
    (leg : Leg) (out : StateLeg) (h : legState E joint_angles links leg = some out) :
    out.leg = leg.leg ∧
      ∃ shoulder femur tibia, out.links = [shoulder, femur, tibia] ∧
        get_link links leg.config.ik.shoulder.id = some shoulder ∧
        get_link links leg.config.ik.femur.id = some femur ∧
        get_link links leg.config.ik.tibia.id = some tibia := by
  unfold legState at h
  simp only at h
  split at h
  · exact absurd h.symm (Option.some_ne_none _)
  · rename_i a ha
    split at h
    · exact absurd h.symm (Option.some_ne_none _)
    · rename_i b hb
      split at h
      · exact absurd h.symm (Option.some_ne_none _)
      · rename_i c hc
        simp only [Option.some.injEq] at h
        subst h
        exact ⟨rfl, a, b, c, rfl, ha, hb, hc⟩

theorem legState_ok (E : Extern) (joint_angles : List IkJoint) (links : List Link)
    (leg : Leg)
    (h1 : leg.config.ik.shoulder.id ∈ links.map (fun link => link.id))
    (h2 : leg.config.ik.femur.id ∈ links.map (fun link => link.id))
    (h3 : leg.config.ik.tibia.id ∈ links.map (fun link => link.id)) :
    ∃ out, legState E joint_angles links leg = some out := by
  obtain ⟨a, ha⟩ := get_link_ok links _ h1
  obtain ⟨b, hb⟩ := get_link_ok links _ h2
  obtain ⟨c, hc⟩ := get_link_ok links _ h3
  unfold legState
  simp only [ha, hb, hc]
  exact ⟨_, rfl⟩

theorem legStates_forall₂ (E : Extern) (joint_angles : List IkJoint) (links : List Link) :
    ∀ (legs : List Leg) (outs : List StateLeg),
      legStates E joint_angles links legs = some outs →
      List.Forall₂ (fun leg out => legState E joint_angles links leg = some out) legs outs
  | [], outs, h => by
    simp only [legStates, Option.some.injEq] at h
    subst h
    exact List.Forall₂.nil
  | leg :: rest, outs, h => by
    unfold legStates at h
    split at h
    · exact absurd h.symm (Option.some_ne_none _)
    · rename_i out hout
      split at h
      · exact absurd h.symm (Option.some_ne_none _)
      · rename_i outs' hrest
        simp only [Option.some.injEq] at h
        subst h
        exact List.Forall₂.cons hout (legStates_forall₂ E joint_angles links rest outs' hrest)

theorem legStates_ok (E : Extern) (joint_angles : List IkJoint) (links : List Link) :
    ∀ (legs : List Leg),
      (∀ leg ∈ legs, ∃ out, legState E joint_angles links leg = some out) →
      ∃ outs, legStates E joint_angles links legs = some outs
  | [], _ => ⟨[], rfl⟩
  | leg :: rest, h => by
    obtain ⟨out, hout⟩ := h leg (List.mem_cons_self _ _)
    obtain ⟨outs, houts⟩ := legStates_ok E joint_angles links rest
      (fun l hl => h l (List.mem_cons_of_mem _ hl))
    exact ⟨out :: outs, by simp [legStates, hout, houts]⟩

theorem decodeReplies_ok (E : Extern) (config : Config) :
    ∀ (replies : List SingleReply),
      (∀ reply ∈ replies, Configured config reply.id) →
      ∃ outs, decodeReplies E config replies = some outs
  | [], _ => ⟨[], rfl⟩
  | reply :: rest, h => by
    obtain ⟨sign, hsign⟩ := Option.isSome_iff_exists.mp
      (GetSign_isSome_of_configured config reply.id (h reply (List.mem_cons_self _ _)))
    obtain ⟨outs, houts⟩ := decodeReplies_ok E config rest
      (fun r hr => h r (List.mem_cons_of_mem _ hr))
    have hr : ∃ out, decodeReply E config reply = some out := by
      unfold decodeReply
      simp only [hsign]
      exact ⟨_, rfl⟩
    obtain ⟨out, hout⟩ := hr
    exact ⟨out :: outs, by simp [decodeReplies, hout, houts]⟩

/-- The method `UpdateStatus` returns when every reply comes from a configured
joint and the replies cover the joints the legs name. -/
theorem UpdateStatus_ok (E : Extern) (s : Impl)
    (hreplies : ∀ reply ∈ s.status_reply_.replies, Configured s.config_ reply.id)
    (hlegs : ∀ leg ∈ s.legs_,
      leg.config.ik.shoulder.id ∈ s.status_reply_.replies.map (fun reply => reply.id) ∧
      leg.config.ik.femur.id ∈ s.status_reply_.replies.map (fun reply => reply.id) ∧
      leg.config.ik.tibia.id ∈ s.status_reply_.replies.map (fun reply => reply.id)) :
    ∃ s', UpdateStatus E s = some s' := by
  obtain ⟨outs, houts⟩ := decodeReplies_ok E s.config_ _ hreplies
  have hids := (decodeReplies_ids E _ _ _ houts).2
  have hl : ∀ leg ∈ s.legs_, ∃ out,
      legState E (outs.map (fun (o : ReplyOut) => o.ik_joint))
        (outs.map (fun (o : ReplyOut) => o.out_link)) leg = some out := by
    intro leg hleg
    obtain ⟨h1, h2, h3⟩ := hlegs leg hleg
    refine legState_ok E _ _ leg ?_ ?_ ?_
    · rw [List.map_map]; exact hids ▸ h1
    · rw [List.map_map]; exact hids ▸ h2
    · rw [List.map_map]; exact hids ▸ h3
  obtain ⟨legs_B, hB⟩ := legStates_ok E _ _ s.legs_ hl
  unfold UpdateStatus
  simp only [houts, hB]
  exact ⟨_, rfl⟩

theorem decodeReplies_aligned (E : Extern) (config : Config)
    (replies : List SingleReply) (outs : List ReplyOut)
    (h : decodeReplies E config replies = some outs) : ∀ out ∈ outs, Aligned out := by
  have hall := decodeReplies_forall₂ E config replies outs h
  intro out hout
  induction hall with
  | nil => simp at hout
  | @cons reply o replies outs hro _ ih =>
    rcases List.mem_cons.mp hout with heq | hmem
    · subst heq
      exact decodeReply_aligned E config reply out hro
    · have hrest : decodeReplies E config replies = some outs := by
        unfold decodeReplies at h
        rw [hro] at h
        simp only at h
        split at h
        · exact absurd h.symm (Option.some_ne_none _)
        · rename_i outs' hrest
          simp only [Option.some.injEq, List.cons.injEq, true_and] at h
          rw [hrest, h]
      exact ih hrest hmem

/-- The link found under an id carries the angle, the velocity and the torque of
the joint state with that id, which is the only one when the ids are pairwise
distinct. -/
theorem get_link_joint (outs : List ReplyOut) (id : Int) (link : Link)
    (haligned : ∀ out ∈ outs, Aligned out)
    (hnodup : (outs.map (fun (o : ReplyOut) => o.out_joint.id)).Nodup)
    (h : get_link (outs.map (fun (o : ReplyOut) => o.out_link)) id = some link) :
    link.id = id ∧
      ∃ joint ∈ outs.map (fun (o : ReplyOut) => o.out_joint),
        joint.id = link.id ∧ link.angle_deg = joint.angle_deg ∧
        link.velocity_dps = joint.velocity_dps ∧ link.torque_Nm = joint.torque_Nm ∧
        ∀ other ∈ outs.map (fun (o : ReplyOut) => o.out_joint),
          other.id = link.id → other = joint := by
  obtain ⟨hmem, hid⟩ := get_link_some _ _ _ h
  obtain ⟨out, hout, hlink⟩ := List.mem_map.mp hmem
  obtain ⟨⟨a1, a2, a3, a4⟩, _⟩ := haligned out hout
  subst hlink
  refine ⟨hid, out.out_joint, List.mem_map.mpr ⟨out, hout, rfl⟩, a1.symm, a2, a3, a4, ?_⟩
  intro other hother hoid
  obtain ⟨out', hout', hjoint⟩ := List.mem_map.mp hother
  subst hjoint
  have : out' = out :=
    List.inj_on_of_nodup_map hnodup hout' hout (hoid.trans a1)
  rw [this]

/-- C22. `UpdateStatus` is safe and orders the links by role.  Let the replies
carry pairwise distinct ids that are exactly the configured joint ids, and let the
three joints every leg names be configured.  Then `UpdateStatus` returns: neither
`GetSign` nor the link lookup reaches `AssertNotReached`.  Each joint state holds,
under the id of its reply, the exposed (decoded, sign-corrected) angle, velocity
and torque.  Each leg state, one per leg in leg order, has exactly three links
whose ids are the shoulder, femur and tibia ids of the leg, in that order, and each
link carries the angle, the velocity and the torque of the one joint state with
the same id. -/
theorem update_status_links (E : Extern) (s : Impl)
    (hnodup : (s.status_reply_.replies.map (fun reply => reply.id)).Nodup)
    (hexact : ∀ id, id ∈ s.status_reply_.replies.map (fun reply => reply.id) ↔
      Configured s.config_ id)
    (hlegs : ∀ leg ∈ s.legs_,
      Configured s.config_ leg.config.ik.shoulder.id ∧
      Configured s.config_ leg.config.ik.femur.id ∧
      Configured s.config_ leg.config.ik.tibia.id) :
    ∃ s', UpdateStatus E s = some s' ∧
      List.Forall₂
        (fun (reply : SingleReply) (joint : StateJoint) =>
          ∃ sign, GetSign s.config_ reply.id = some sign ∧
            joint.id = reply.id ∧
            joint.angle_deg = exposed sign E.ReadPosition kPosition reply ∧
            joint.velocity_dps = exposed sign E.ReadPosition kVelocity reply ∧
            joint.torque_Nm = exposed sign E.ReadTorque kTorque reply)
        s.status_reply_.replies s'.status_.state.joints ∧
      List.Forall₂
        (fun (leg : Leg) (out : StateLeg) =>
          out.leg = leg.leg ∧
          ∃ shoulder femur tibia, out.links = [shoulder, femur, tibia] ∧
            shoulder.id = leg.config.ik.shoulder.id ∧
            femur.id = leg.config.ik.femur.id ∧
            tibia.id = leg.config.ik.tibia.id ∧
            ∀ link ∈ out.links, ∃ joint ∈ s'.status_.state.joints,
              joint.id = link.id ∧ link.angle_deg = joint.angle_deg ∧
              link.velocity_dps = joint.velocity_dps ∧
              link.torque_Nm = joint.torque_Nm ∧
              ∀ other ∈ s'.status_.state.joints, other.id = link.id → other = joint)
        s.legs_ s'.status_.state.legs_B := by
  obtain ⟨s', h⟩ := UpdateStatus_ok E s
    (fun reply hr => (hexact reply.id).mp (List.mem_map.mpr ⟨reply, hr, rfl⟩))
    (fun leg hl => ⟨(hexact _).mpr (hlegs leg hl).1, (hexact _).mpr (hlegs leg hl).2.1,
      (hexact _).mpr (hlegs leg hl).2.2⟩)
  refine ⟨s', h, UpdateStatus_exposed E s s' h, ?_⟩
  obtain ⟨outs, houts, hj, hB, _⟩ := UpdateStatus_decoded E s s' h
  have haligned := decodeReplies_aligned E _ _ _ houts
  have hids : (outs.map (fun (o : ReplyOut) => o.out_joint.id)).Nodup := by
    rw [(decodeReplies_ids E _ _ _ houts).1]
    exact hnodup
  rw [hj]
  refine (legStates_forall₂ E _ _ _ _ hB).imp ?_
  intro leg out hout
  obtain ⟨hleg, a, b, c, hlinks, ha, hb, hc⟩ := legState_links E _ _ leg out hout
  obtain ⟨ha1, ha2⟩ := get_link_joint outs _ a haligned hids ha
  obtain ⟨hb1, hb2⟩ := get_link_joint outs _ b haligned hids hb
  obtain ⟨hc1, hc2⟩ := get_link_joint outs _ c haligned hids hc
  refine ⟨hleg, a, b, c, hlinks, ha1, hb1, hc1, ?_⟩
  intro link hlink
  rw [hlinks] at hlink
  simp only [List.mem_cons, List.mem_singleton, List.not_mem_nil, or_false] at hlink
  rcases hlink with rfl | rfl | rfl
  · exact ha2
  · exact hb2
  · exact hc2

theorem telemetry_ids (id : Int) :
    id ∈ telemetry.status_reply_.replies.map (fun reply => reply.id) ↔
      Configured telemetry.config_ id := by
  have hl : telemetry.status_reply_.replies.map (fun reply => reply.id) =
      telemetry.config_.joints.map (fun joint => joint.id) := by decide
  rw [hl]
  unfold Configured
  simp only [List.mem_map]

/-- C22, evaluated on the started engine holding twelve replies, one per
configured joint: the snapshot is built, with four leg states of three links. -/
theorem update_status_links_witness :
    ∃ s', UpdateStatus bench telemetry = some s' ∧
      s'.status_.state.joints.length = 12 ∧
      List.Forall₂
        (fun (leg : Leg) (out : StateLeg) =>
          out.leg = leg.leg ∧
          ∃ shoulder femur tibia, out.links = [shoulder, femur, tibia] ∧
            shoulder.id = leg.config.ik.shoulder.id ∧
            femur.id = leg.config.ik.femur.id ∧
            tibia.id = leg.config.ik.tibia.id ∧
            ∀ link ∈ out.links, ∃ joint ∈ s'.status_.state.joints,
              joint.id = link.id ∧ link.angle_deg = joint.angle_deg ∧
              link.velocity_dps = joint.velocity_dps ∧
              link.torque_Nm = joint.torque_Nm ∧
              ∀ other ∈ s'.status_.state.joints, other.id = link.id → other = joint)
        telemetry.legs_ s'.status_.state.legs_B :=
  match update_status_links bench telemetry (by decide) telemetry_ids (by decide) with
  | ⟨s', h, hjoints, hlinks⟩ =>
    ⟨s', h, by simpa [telemetry, quadConfig] using hjoints.length_eq.symm, hlinks⟩

theorem forall₂_mem_right {α β : Type} {R : α → β → Prop} {l₁ : List α} {l₂ : List β}
    (h : List.Forall₂ R l₁ l₂) : ∀ b ∈ l₂, ∃ a ∈ l₁, R a b := by
  induction h with
  | nil => intro b hb; simp at hb
  | @cons a b' l₁ l₂ hab _ ih =>
    intro b hb
    rcases List.mem_cons.mp hb with heq | hmem
    · subst heq
      exact ⟨a, List.mem_cons_self _ _, hab⟩
    · obtain ⟨a', ha', hr⟩ := ih b hmem
      exact ⟨a', List.mem_cons_of_mem _ ha', hr⟩

theorem forall₂_map_eq {α β γ : Type} {R : α → β → Prop} (f : β → γ)
    (hR : ∀ a b b', R a b → R a b' → f b = f b') :
    ∀ {l : List α} {l₁ l₂ : List β},
      List.Forall₂ R l l₁ → List.Forall₂ R l l₂ → l₁.map f = l₂.map f
  | [], _, _, h1, h2 => by
    cases h1
    cases h2
    rfl
  | a :: l, _, _, h1, h2 => by
    cases h1 with
    | cons hab h1' =>
      cases h2 with
      | cons hab' h2' =>
        simp only [List.map_cons, List.cons.injEq]
        exact ⟨hR _ _ _ hab hab', forall₂_map_eq f hR h1' h2'⟩

/-- Every link of the snapshot comes from a reply with the same id and carries the
exposed angle, velocity and torque of that reply. -/
theorem UpdateStatus_link_exposed (E : Extern) (s s' : Impl)
    (h : UpdateStatus E s = some s') :
    ∀ leg ∈ s'.status_.state.legs_B, ∀ link ∈ leg.links,
      ∃ reply ∈ s.status_reply_.replies, reply.id = link.id ∧
        ∃ sign, GetSign s.config_ reply.id = some sign ∧
          link.angle_deg = exposed sign E.ReadPosition kPosition reply ∧
          link.velocity_dps = exposed sign E.ReadPosition kVelocity reply ∧
          link.torque_Nm = exposed sign E.ReadTorque kTorque reply := by
  obtain ⟨outs, houts, _, hB, _⟩ := UpdateStatus_decoded E s s' h
  have haligned := decodeReplies_aligned E _ _ _ houts
  have hdec := decodeReplies_forall₂ E _ _ _ houts
  have hfound : ∀ id link,
      get_link (outs.map (fun (o : ReplyOut) => o.out_link)) id = some link →
      ∃ reply ∈ s.status_reply_.replies, reply.id = link.id ∧
        ∃ sign, GetSign s.config_ reply.id = some sign ∧
          link.angle_deg = exposed sign E.ReadPosition kPosition reply ∧
          link.velocity_dps = exposed sign E.ReadPosition kVelocity reply ∧
          link.torque_Nm = exposed sign E.ReadTorque kTorque reply := by
    intro id link hl
    obtain ⟨hmem, _⟩ := get_link_some _ _ _ hl
    obtain ⟨out, hout, hlink⟩ := List.mem_map.mp hmem
    obtain ⟨reply, hreply, hro⟩ := forall₂_mem_right hdec out hout
    obtain ⟨sign, hsign, hid, ha, hv, ht⟩ := decodeReply_fields E _ reply out hro
    obtain ⟨⟨a1, a2, a3, a4⟩, _⟩ := haligned out hout
    subst hlink
    exact ⟨reply, hreply, (a1.trans hid).symm, sign, hsign, a2.trans ha, a3.trans hv,
      a4.trans ht⟩
  intro leg hleg link hlink
  obtain ⟨leg0, _, hl0⟩ := forall₂_mem_right (legStates_forall₂ E _ _ _ _ hB) leg hleg
  obtain ⟨_, a, b, c, hlinks, ha, hb, hc⟩ := legState_links E _ _ leg0 leg hl0
  rw [hlinks] at hlink
  simp only [List.mem_cons, List.mem_singleton, List.not_mem_nil, or_false] at hlink
  rcases hlink with rfl | rfl | rfl
  · exact hfound _ _ ha
  · exact hfound _ _ hb
  · exact hfound _ _ hc

theorem exposed_of_value (sign : Dbl) (read : Value → Dbl) (register : Register)
    (reply : SingleReply) (v : Value) (h : registerValue register reply = some v) :
    exposed sign read register reply = sign.mul (read v) := by
  simp [exposed, h]

/-- C25. The velocity register is decoded with the position decoder.  When
`UpdateStatus` returns, the joint state of every reply, for a joint of sign `sign`,
has: for a value `v` held under the velocity register, `velocity_dps` equal to
`sign * ReadPosition v`, the same function of `v` that gives `angle_deg` for a
value held under the position register; every link of every leg state carries,
for the reply with its id, that same velocity; and the velocities depend on the
codec through `ReadPosition` alone, two codecs with the same position decoder
giving the same velocities. -/
theorem velocity_read_as_position (E : Extern) (s s' : Impl)
    (h : UpdateStatus E s = some s') :
    List.Forall₂
      (fun (reply : SingleReply) (joint : StateJoint) =>
        joint.id = reply.id ∧
        ∃ sign, GetSign s.config_ reply.id = some sign ∧
          (∀ v, registerValue kVelocity reply = some v →
            joint.velocity_dps = sign.mul (E.ReadPosition v)) ∧
          (∀ v, registerValue kPosition reply = some v →
            joint.angle_deg = sign.mul (E.ReadPosition v)))
      s.status_reply_.replies s'.status_.state.joints ∧
    (∀ leg ∈ s'.status_.state.legs_B, ∀ link ∈ leg.links,
      ∃ reply ∈ s.status_reply_.replies, reply.id = link.id ∧
        ∃ sign, GetSign s.config_ reply.id = some sign ∧
          ∀ v, registerValue kVelocity reply = some v →
            link.velocity_dps = sign.mul (E.ReadPosition v)) ∧
    (∀ (E' : Extern) (t : Impl), E'.ReadPosition = E.ReadPosition →
      UpdateStatus E' s = some t →
      t.status_.state.joints.map (fun joint => joint.velocity_dps) =
        s'.status_.state.joints.map (fun joint => joint.velocity_dps)) := by
  refine ⟨?_, ?_, ?_⟩
  · refine (UpdateStatus_exposed E s s' h).imp ?_
    rintro reply joint ⟨sign, hsign, hid, ha, hv, _⟩
    exact ⟨hid, sign, hsign,
      fun v hval => hv.trans (exposed_of_value sign _ _ reply v hval),
      fun v hval => ha.trans (exposed_of_value sign _ _ reply v hval)⟩
  · intro leg hleg link hlink
    obtain ⟨reply, hreply, hid, sign, hsign, _, hv, _⟩ :=
      UpdateStatus_link_exposed E s s' h leg hleg link hlink
    exact ⟨reply, hreply, hid, sign, hsign,
      fun v hval => hv.trans (exposed_of_value sign _ _ reply v hval)⟩
  · intro E' t hE ht
    have h1 : List.Forall₂
        (fun (reply : SingleReply) (joint : StateJoint) =>
          ∃ sign, GetSign s.config_ reply.id = some sign ∧
            joint.velocity_dps = exposed sign E.ReadPosition kVelocity reply)
        s.status_reply_.replies t.status_.state.joints := by
      refine (UpdateStatus_exposed E' s t ht).imp ?_
      rintro reply joint ⟨sign, hsign, _, _, hv, _⟩
      exact ⟨sign, hsign, hE ▸ hv⟩
    have h2 : List.Forall₂
        (fun (reply : SingleReply) (joint : StateJoint) =>
          ∃ sign, GetSign s.config_ reply.id = some sign ∧
            joint.velocity_dps = exposed sign E.ReadPosition kVelocity reply)
        s.status_reply_.replies s'.status_.state.joints := by
      refine (UpdateStatus_exposed E s s' h).imp ?_
      rintro reply joint ⟨sign, hsign, _, _, hv, _⟩
      exact ⟨sign, hsign, hv⟩
    refine forall₂_map_eq (fun (joint : StateJoint) => joint.velocity_dps) ?_ h1 h2
    rintro reply a b ⟨sign, hsign, ha⟩ ⟨sign', hsign', hb⟩
    rw [hsign] at hsign'
    cases hsign'
    exact ha.trans hb.symm

/-- C25, evaluated on the started engine holding twelve replies that report a
velocity of 5 under the velocity register: the snapshot is built and every joint
state has the velocity the position decoder gives. -/
theorem velocity_read_as_position_witness :
    ∃ s', UpdateStatus bench telemetry = some s' ∧
      List.Forall₂
        (fun (reply : SingleReply) (joint : StateJoint) =>
          joint.id = reply.id ∧
          ∃ sign, GetSign telemetry.config_ reply.id = some sign ∧
            (∀ v, registerValue kVelocity reply = some v →
              joint.velocity_dps = sign.mul (bench.ReadPosition v)) ∧
            (∀ v, registerValue kPosition reply = some v →
              joint.angle_deg = sign.mul (bench.ReadPosition v)))
        telemetry.status_reply_.replies s'.status_.state.joints :=
  match Option.isSome_iff_exists.mp
    (show (UpdateStatus bench telemetry).isSome = true by decide) with
  | ⟨s', h⟩ => ⟨s', h, (velocity_read_as_position bench telemetry s' h).1⟩

/-- The frame of a Position-mode command that hands back an exposed angle
`sign * p`, for a sign of plus or minus one: the position encoder is given `p`. -/
theorem emitJoint_round_trip (E : Extern) (config : Config) (joint : QCJoint)
    (cache : List Value) (request : Request) (values : List Value) (sign p : Dbl)
    (hw : wireMode joint = MoteusMode.kPosition)
    (hs : GetSign config joint.id = some sign)
    (hpm : sign = Dbl.fin 1 ∨ sign = Dbl.fin (-1))
    (h : emitJoint E config joint cache = some (request, values)) :
    (joint.angle_deg = sign.mul p →
      (∃ rest, request.request =
        [RegisterOp.WriteSingle kMode (Value.kInt8 MoteusMode.kPosition.toInt8),
         RegisterOp.WriteMultiple kCommandPosition
           (E.WritePosition p Resolution.kInt16 :: rest)]) ∨
      (blockLength joint = 0 ∧ request.request =
        [RegisterOp.WriteSingle kMode (Value.kInt8 MoteusMode.kPosition.toInt8)])) ∧
    (joint.stop_angle_deg = some (sign.mul p) →
      ∃ front, front.length = 6 ∧ request.request =
        [RegisterOp.WriteSingle kMode (Value.kInt8 MoteusMode.kPosition.toInt8),
         RegisterOp.WriteMultiple kCommandPosition
           (front ++ [E.WritePosition p Resolution.kInt16])]) := by
  rw [emitJoint_position E config joint cache sign hw hs] at h
  simp only [Option.some.injEq, Prod.mk.injEq] at h
  obtain ⟨rfl, _⟩ := h
  constructor
  · intro ha
    by_cases h0 : blockLength joint = 0
    · exact Or.inr ⟨h0, by simp [h0]⟩
    · left
      obtain ⟨m, hm⟩ := Nat.exists_eq_succ_of_ne_zero h0
      refine ⟨((fullBlock E sign joint).tail).take m, ?_⟩
      simp only [h0, if_false, hm]
      simp [fullBlock, ha, Dbl.mul_mul_sign sign p hpm]
  · intro hstop
    have h7 : blockLength joint = 7 := by
      refine (blockLength_highest joint 6 (by decide)).mpr ⟨?_, ?_⟩
      · simp [fieldSet, hstop]
      · intro i hi hlt
        omega
    refine ⟨(fullBlock E sign joint).take 6, by simp [fullBlock], ?_⟩
    simp [h7, fullBlock, hstop, Dbl.mul_mul_sign sign p hpm]

/-- C21. Sign round trip.  When `UpdateStatus` returns, the joint state of every
reply, for a joint whose sign is +1 or -1 and a value `v` held under the position
register, exposes the angle `sign * ReadPosition v`.  When that exposed angle is
commanded back to the joint in Position mode, every frame `EmitControl` builds for
it hands the decoded wire value `ReadPosition v` itself to the position encoder:
as `angle_deg`, the block, when there is one, starts with the encoding of
`ReadPosition v` (there is none only when no field of the command is set, the
angle being zero); as `stop_angle_deg`, the block has seven values and ends with
the encoding of `ReadPosition v`. -/
theorem sign_round_trip (E : Extern) (s s' : Impl)
    (h : UpdateStatus E s = some s') :
    List.Forall₂
      (fun (reply : SingleReply) (state : StateJoint) =>
        state.id = reply.id ∧
        ∀ sign v, GetSign s.config_ reply.id = some sign →
          (sign = Dbl.fin 1 ∨ sign = Dbl.fin (-1)) →
          registerValue kPosition reply = some v →
          state.angle_deg = sign.mul (E.ReadPosition v) ∧
          ∀ t t', t.config_ = s.config_ → EmitControl E t = some t' →
            List.Forall₂
              (fun (joint : QCJoint) (request : Request) =>
                joint.id = reply.id → wireMode joint = MoteusMode.kPosition →
                (joint.angle_deg = state.angle_deg →
                  (∃ rest, request.request =
                    [RegisterOp.WriteSingle kMode (Value.kInt8 MoteusMode.kPosition.toInt8),
                     RegisterOp.WriteMultiple kCommandPosition
                       (E.WritePosition (E.ReadPosition v) Resolution.kInt16 :: rest)]) ∨
                  (blockLength joint = 0 ∧ request.request =
                    [RegisterOp.WriteSingle kMode
                      (Value.kInt8 MoteusMode.kPosition.toInt8)])) ∧
                (joint.stop_angle_deg = some state.angle_deg →
                  ∃ front, front.length = 6 ∧ request.request =
                    [RegisterOp.WriteSingle kMode (Value.kInt8 MoteusMode.kPosition.toInt8),
                     RegisterOp.WriteMultiple kCommandPosition
                       (front ++ [E.WritePosition (E.ReadPosition v) Resolution.kInt16])]))
              t.control_log_.joints t'.client_command_.requests)
      s.status_reply_.replies s'.status_.state.joints := by
  refine (UpdateStatus_exposed E s s' h).imp ?_
  rintro reply state ⟨sign0, hsign0, hid, ha, _, _⟩
  refine ⟨hid, ?_⟩
  intro sign v hsign hpm hv
  rw [hsign0] at hsign
  cases hsign
  have hangle : state.angle_deg = sign0.mul (E.ReadPosition v) :=
    ha.trans (exposed_of_value sign0 _ _ reply v hv)
  refine ⟨hangle, ?_⟩
  intro t t' hcfg ht
  refine EmitControl_forall₂ E t t' _ ?_ ht
  intro joint _ cache request values hj hjid hw
  rw [hangle]
  refine emitJoint_round_trip E t.config_ joint cache request values sign0
    (E.ReadPosition v) hw ?_ hpm hj
  rw [hcfg, hjid]
  exact hsign0

/-- C21, evaluated on the started engine holding twelve replies that report the
position 20, four of them from joints mounted mirrored: the snapshot is built and
the round trip holds of each of its joint states. -/
theorem sign_round_trip_witness :
    ∃ s', UpdateStatus bench telemetry = some s' ∧
      List.Forall₂
        (fun (reply : SingleReply) (state : StateJoint) =>
          state.id = reply.id ∧
          ∀ sign v, GetSign telemetry.config_ reply.id = some sign →
            (sign = Dbl.fin 1 ∨ sign = Dbl.fin (-1)) →
            registerValue kPosition reply = some v →
            state.angle_deg = sign.mul (bench.ReadPosition v) ∧
            ∀ t t', t.config_ = telemetry.config_ → EmitControl bench t = some t' →
              List.Forall₂
                (fun (joint : QCJoint) (request : Request) =>
                  joint.id = reply.id → wireMode joint = MoteusMode.kPosition →
                  (joint.angle_deg = state.angle_deg →
                    (∃ rest, request.request =
                      [RegisterOp.WriteSingle kMode (Value.kInt8 MoteusMode.kPosition.toInt8),
                       RegisterOp.WriteMultiple kCommandPosition
                         (bench.WritePosition (bench.ReadPosition v) Resolution.kInt16 :: rest)]) ∨
                    (blockLength joint = 0 ∧ request.request =
                      [RegisterOp.WriteSingle kMode
                        (Value.kInt8 MoteusMode.kPosition.toInt8)])) ∧
                  (joint.stop_angle_deg = some state.angle_deg →
                    ∃ front, front.length = 6 ∧ request.request =
                      [RegisterOp.WriteSingle kMode (Value.kInt8 MoteusMode.kPosition.toInt8),
                       RegisterOp.WriteMultiple kCommandPosition
                         (front ++ [bench.WritePosition (bench.ReadPosition v) Resolution.kInt16])]))
                t.control_log_.joints t'.client_command_.requests)
        telemetry.status_reply_.replies s'.status_.state.joints :=
  match Option.isSome_iff_exists.mp
    (show (UpdateStatus bench telemetry).isSome = true by decide) with
  | ⟨s', h⟩ => ⟨s', h, sign_round_trip bench telemetry s' h⟩

/-! ## Robot-frame leg commands -/

theorem EmitControl_withLegsR (E : Extern) (r : List QCLeg) (s : Impl) :
    EmitControl E (withLegsR r s) = (EmitControl E s).map (withLegsR r) := by
  unfold EmitControl
  simp only [Now, emit, withLegsR]
  split <;> rfl

theorem ControlJoints_withLegsR (E : Extern) (r : List QCLeg) (joints : List QCJoint)
    (s : Impl) :
    ControlJoints E joints (withLegsR r s) = (ControlJoints E joints s).map (withLegsR r) :=
  EmitControl_withLegsR E r { s with control_log_ := { s.control_log_ with joints := joints } }

theorem DoControl_Stopped_withLegsR (E : Extern) (r : List QCLeg) (s : Impl) :
    DoControl_Stopped E (withLegsR r s) = (DoControl_Stopped E s).map (withLegsR r) :=
  ControlJoints_withLegsR E r _ s

theorem DoControl_ZeroVelocity_withLegsR (E : Extern) (r : List QCLeg) (s : Impl) :
    DoControl_ZeroVelocity E (withLegsR r s) =
      (DoControl_ZeroVelocity E s).map (withLegsR r) :=
  ControlJoints_withLegsR E r _ s

theorem Fault_withLegsR (E : Extern) (r : List QCLeg) (message : String) (s : Impl) :
    Fault E message (withLegsR r s) = (Fault E message s).map (withLegsR r) :=
  DoControl_ZeroVelocity_withLegsR E r
    { s with
      status_ := { s.status_ with
        mode := Mode.kFault, fault := message, mode_start := E.Now s.now_calls_ },
      now_calls_ := s.now_calls_ + 1 }

theorem DoControl_Joint_withLegsR (E : Extern) (r : List QCLeg) (s : Impl) :
    DoControl_Joint E (withLegsR r s) = (DoControl_Joint E s).map (withLegsR r) :=
  ControlJoints_withLegsR E r _ s

theorem ControlLegs_B_withLegsR (E : Extern) (r : List QCLeg) (legs_B : List QCLeg)
    (s : Impl) :
    ControlLegs_B E legs_B (withLegsR r s) = (ControlLegs_B E legs_B s).map (withLegsR r) := by
  unfold ControlLegs_B
  simp only
  cases h : controlLegs_B_loop E s.legs_
      (s.status_.state.joints.map (fun joint =>
        ({ id := joint.id, angle_deg := joint.angle_deg,
           velocity_dps := joint.velocity_dps, torque_Nm := joint.torque_Nm } : IkJoint)))
      legs_B [] with
  | none =>
    have h' : controlLegs_B_loop E (withLegsR r s).legs_
      ((withLegsR r s).status_.state.joints.map (fun joint =>
        ({ id := joint.id, angle_deg := joint.angle_deg,
           velocity_dps := joint.velocity_dps, torque_Nm := joint.torque_Nm } : IkJoint)))
      legs_B [] = none := h
    simp only [h']
    rfl
  | some out_joints =>
    have h' : controlLegs_B_loop E (withLegsR r s).legs_
      ((withLegsR r s).status_.state.joints.map (fun joint =>
        ({ id := joint.id, angle_deg := joint.angle_deg,
           velocity_dps := joint.velocity_dps, torque_Nm := joint.torque_Nm } : IkJoint)))
      legs_B [] = some out_joints := h
    simp only [h']
    exact ControlJoints_withLegsR E r out_joints
      { s with control_log_ := { s.control_log_ with legs_B := legs_B } }

theorem DoControl_Leg_withLegsR (E : Extern) (r : List QCLeg) (s : Impl) :
    DoControl_Leg E (withLegsR r s) = (DoControl_Leg E s).map (withLegsR r) :=
  ControlLegs_B_withLegsR E r _ s

theorem DoControl_StandUp_Prepositioning_withLegsR (E : Extern) (r : List QCLeg)
    (s : Impl) :
    DoControl_StandUp_Prepositioning E (withLegsR r s) =
      (DoControl_StandUp_Prepositioning E s).map (withLegsR r) :=
  ControlJoints_withLegsR E r _ s

theorem standUpAdvance_withLegsR (E : Extern) (r : List QCLeg) (s : Impl) :
    standUpAdvance E (withLegsR r s) = (standUpAdvance E s).map (withLegsR r) := by
  have hc : CheckPrepositioning (withLegsR r s) = CheckPrepositioning s := rfl
  have hsub : (withLegsR r s).status_.state.stand_up.mode =
      s.status_.state.stand_up.mode := rfl
  unfold standUpAdvance
  rw [hc, hsub]
  cases s.status_.state.stand_up.mode with
  | kPrepositioning =>
    simp only
    cases CheckPrepositioning s with
    | none => rfl
    | some done => cases done <;> rfl
  | kStanding =>
    simp only
    have hn : (E.norm ((withLegsR r s).status_.state.robot.pose_mm_SR.translation.sub
        (withLegsR r s).current_command_.stand_up_pose_mm_SR.translation)).lt
          (withLegsR r s).config_.stand_up.tolerance_mm =
        (E.norm (s.status_.state.robot.pose_mm_SR.translation.sub
          s.current_command_.stand_up_pose_mm_SR.translation)).lt
            s.config_.stand_up.tolerance_mm := rfl
    rw [hn]
    split <;> rfl
  | kDone => rfl

theorem DoControl_StandUp_withLegsR (E : Extern) (r : List QCLeg) (s : Impl) :
    DoControl_StandUp E (withLegsR r s) = (DoControl_StandUp E s).map (withLegsR r) := by
  unfold DoControl_StandUp
  simp only [Now]
  have hgt : (E.ConvertDurationToSeconds
      (E.Now (withLegsR r s).now_calls_ - (withLegsR r s).status_.mode_start)).gt
        (withLegsR r s).config_.stand_up.timeout_s =
      (E.ConvertDurationToSeconds (E.Now s.now_calls_ - s.status_.mode_start)).gt
        s.config_.stand_up.timeout_s := rfl
  split
  · rename_i h
    rw [hgt] at h
    rw [if_pos h]
    exact Fault_withLegsR E r "timeout" { s with now_calls_ := s.now_calls_ + 1 }
  · rename_i h
    rw [hgt] at h
    rw [if_neg h]
    have hadv := standUpAdvance_withLegsR E r { s with now_calls_ := s.now_calls_ + 1 }
    have hadv' : standUpAdvance E
        { withLegsR r s with now_calls_ := (withLegsR r s).now_calls_ + 1 } =
        (standUpAdvance E { s with now_calls_ := s.now_calls_ + 1 }).map (withLegsR r) := hadv
    rw [hadv']
    cases standUpAdvance E { s with now_calls_ := s.now_calls_ + 1 } with
    | none => rfl
    | some s1 =>
      simp only [Option.map_some']
      have hsub : (withLegsR r s1).status_.state.stand_up.mode =
          s1.status_.state.stand_up.mode := rfl
      rw [hsub]
      cases s1.status_.state.stand_up.mode with
      | kPrepositioning => exact DoControl_StandUp_Prepositioning_withLegsR E r s1
      | kStanding => exact Fault_withLegsR E r "not implemented" s1
      | kDone => exact Fault_withLegsR E r "not implemented" s1

theorem stampModeStart_withLegsR (E : Extern) (r : List QCLeg) (old_mode : Mode)
    (s : Impl) :
    stampModeStart E old_mode (withLegsR r s) = withLegsR r (stampModeStart E old_mode s) := by
  unfold stampModeStart
  have hm : (withLegsR r s).status_.mode = s.status_.mode := rfl
  rw [hm]
  split <;> rfl

theorem MaybeChangeMode_withLegsR (E : Extern) (r : List QCLeg) (s : Impl) :
    MaybeChangeMode E (withLegsR r s) = (MaybeChangeMode E s).map (withLegsR r) := by
  unfold MaybeChangeMode
  have hc : (withLegsR r s).current_command_.mode = s.current_command_.mode := rfl
  have hm : (withLegsR r s).status_.mode = s.status_.mode := rfl
  simp only [hc, hm]
  cases hcm : s.current_command_.mode with
  | kNumModes => rfl
  | kFault => rfl
  | kStopped =>
    simp only [Option.map_some', Option.some.injEq]
    exact stampModeStart_withLegsR E r _
      { s with status_ := { s.status_ with mode := Mode.kStopped } }
  | kZeroVelocity =>
    simp only
    split
    · rfl
    · simp only [Option.map_some', Option.some.injEq]
      exact stampModeStart_withLegsR E r _
        { s with status_ := { s.status_ with mode := Mode.kZeroVelocity } }
  | kJoint =>
    simp only
    split
    · rfl
    · simp only [Option.map_some', Option.some.injEq]
      exact stampModeStart_withLegsR E r _
        { s with status_ := { s.status_ with mode := Mode.kJoint } }
  | kLeg =>
    simp only
    split
    · rfl
    · simp only [Option.map_some', Option.some.injEq]
      exact stampModeStart_withLegsR E r _
        { s with status_ := { s.status_ with mode := Mode.kLeg } }
  | kStandUp =>
    simp only
    split
    · rfl
    · simp only [Option.map_some', Option.some.injEq]
      exact stampModeStart_withLegsR E r _
        { s with status_ := { s.status_ with
            mode := Mode.kStandUp,
            state := { s.status_.state with stand_up := {} } } }

theorem modeChangeStep_withLegsR (E : Extern) (r : List QCLeg) (s : Impl) :
    modeChangeStep E (withLegsR r s) = (modeChangeStep E s).map (withLegsR r) := by
  unfold modeChangeStep
  have hc : (withLegsR r s).current_command_.mode = s.current_command_.mode := rfl
  have hm : (withLegsR r s).status_.mode = s.status_.mode := rfl
  rw [hc, hm]
  split
  · exact MaybeChangeMode_withLegsR E r s
  · rfl

theorem dispatchControl_withLegsR (E : Extern) (r : List QCLeg) (s : Impl) :
    dispatchControl E (withLegsR r s) = (dispatchControl E s).map (withLegsR r) := by
  unfold dispatchControl
  have hm : (withLegsR r s).status_.mode = s.status_.mode := rfl
  rw [hm]
  cases s.status_.mode with
  | kStopped => exact DoControl_Stopped_withLegsR E r s
  | kFault => exact DoControl_ZeroVelocity_withLegsR E r s
  | kZeroVelocity => exact DoControl_ZeroVelocity_withLegsR E r s
  | kJoint => exact DoControl_Joint_withLegsR E r s
  | kLeg => exact DoControl_Leg_withLegsR E r s
  | kStandUp => exact DoControl_StandUp_withLegsR E r s
  | kNumModes => rfl

/-- A control step commutes with the replacement of the robot-frame leg commands. -/
theorem RunControl_withLegsR (E : Extern) (r : List QCLeg) (s : Impl) :
    RunControl E (withLegsR r s) = (RunControl E s).map (withLegsR r) := by
  unfold RunControl
  rw [modeChangeStep_withLegsR]
  cases modeChangeStep E s with
  | none => rfl
  | some s1 => exact dispatchControl_withLegsR E r s1

theorem ControlLegs_B_legs_R (E : Extern) (legs_B : List QCLeg) (s s' : Impl)
    (h : ControlLegs_B E legs_B s = some s') :
    s'.control_log_.legs_R = s.control_log_.legs_R := by
  unfold ControlLegs_B at h
  simp only at h
  split at h
  · exact absurd h.symm (Option.some_ne_none _)
  · exact (ControlJoints_log E _ _ s' h).2.2.2

theorem Fault_legs_R (E : Extern) (message : String) (s s' : Impl)
    (h : Fault E message s = some s') :
    s'.control_log_.legs_R = s.control_log_.legs_R :=
  (ControlJoints_log E _ _ s' h).2.2.2

theorem standUpAdvance_control_log (E : Extern) (s s' : Impl)
    (h : standUpAdvance E s = some s') : s'.control_log_ = s.control_log_ := by
  unfold standUpAdvance at h
  split at h
  · split at h
    · exact absurd h.symm (Option.some_ne_none _)
    · split at h <;> (simp only [Option.some.injEq] at h; subst h; rfl)
  · simp only at h
    split at h <;> (simp only [Option.some.injEq] at h; subst h; rfl)
  · simp only [Option.some.injEq] at h
    subst h
    rfl

theorem DoControl_StandUp_legs_R (E : Extern) (s s' : Impl)
    (h : DoControl_StandUp E s = some s') :
    s'.control_log_.legs_R = s.control_log_.legs_R := by
  unfold DoControl_StandUp at h
  simp only [Now] at h
  split at h
  · exact Fault_legs_R E "timeout" { s with now_calls_ := s.now_calls_ + 1 } s' h
  · split at h
    · exact absurd h.symm (Option.some_ne_none _)
    · rename_i s1 hadv
      have hlog := standUpAdvance_control_log E { s with now_calls_ := s.now_calls_ + 1 }
        s1 hadv
      have hstep : s'.control_log_.legs_R = s1.control_log_.legs_R := by
        split at h
        · rw [DoControl_StandUp_Prepositioning_eq] at h
          exact (ControlJoints_log E _ s1 s' h).2.2.2
        · exact Fault_legs_R E "not implemented" s1 s' h
        · exact Fault_legs_R E "not implemented" s1 s' h
      rw [hstep, hlog]

theorem stampModeStart_control_log (E : Extern) (old_mode : Mode) (s : Impl) :
    (stampModeStart E old_mode s).control_log_ = s.control_log_ := by
  unfold stampModeStart
  split <;> rfl

theorem modeChangeStep_control_log (E : Extern) (s s' : Impl)
    (h : modeChangeStep E s = some s') : s'.control_log_ = s.control_log_ := by
  unfold modeChangeStep at h
  split at h
  · unfold MaybeChangeMode at h
    simp only at h
    repeat' split at h
    all_goals first
      | exact absurd h.symm (Option.some_ne_none _)
      | (simp only [Option.some.injEq] at h
         subst h
         first | rfl | exact stampModeStart_control_log E _ _)
  · simp only [Option.some.injEq] at h
    subst h
    rfl

theorem dispatchControl_legs_R (E : Extern) (s s' : Impl)
    (h : dispatchControl E s = some s') :
    s'.control_log_.legs_R = s.control_log_.legs_R := by
  unfold dispatchControl at h
  split at h
  · exact (ControlJoints_log E _ _ s' h).2.2.2
  · exact (ControlJoints_log E _ _ s' h).2.2.2
  · exact (ControlJoints_log E _ _ s' h).2.2.2
  · exact (ControlJoints_log E _ _ s' h).2.2.2
  · exact ControlLegs_B_legs_R E _ _ s' h
  · exact DoControl_StandUp_legs_R E _ s' h
  · exact absurd h.symm (Option.some_ne_none _)

/-- C24. Robot-frame leg commands never influence the output.  For every engine
state and every replacement `legs_R` of the robot-frame leg commands of the
operator command it holds, the control step aborts with the one command exactly
when it aborts with the other, and otherwise ends in the same state but for the
stored command: the same status (mode included), the same control log (joints and
`legs_B` included), the same command frames and the same published control record.
A control step leaves `control_log_.legs_R`, which only `ControlLegs_R` assigns,
as it was; and the step of Leg mode is `ControlLegs_B` on `legs_B` of the
command. -/
theorem legs_R_ignored (E : Extern) (s : Impl) (legs_R : List QCLeg) :
    RunControl E (withLegsR legs_R s) = (RunControl E s).map (withLegsR legs_R) ∧
    ((RunControl E (withLegsR legs_R s)).isSome = (RunControl E s).isSome ∧
      ∀ a b, RunControl E s = some a → RunControl E (withLegsR legs_R s) = some b →
        b.status_ = a.status_ ∧ b.control_log_ = a.control_log_ ∧
        b.client_command_ = a.client_command_ ∧ b.trace_ = a.trace_) ∧
    (∀ s', RunControl E s = some s' →
      s'.control_log_.legs_R = s.control_log_.legs_R) ∧
    (∀ s1, modeChangeStep E s = some s1 → s1.status_.mode = Mode.kLeg →
      RunControl E s = ControlLegs_B E s.current_command_.legs_B s1) := by
  have hcomm := RunControl_withLegsR E legs_R s
  refine ⟨hcomm, ⟨by rw [hcomm]; simp, ?_⟩, ?_, ?_⟩
  · intro a b ha hb
    rw [hcomm, ha] at hb
    simp only [Option.map_some', Option.some.injEq] at hb
    subst hb
    exact ⟨rfl, rfl, rfl, rfl⟩
  · intro s' h
    unfold RunControl at h
    split at h
    · exact absurd h.symm (Option.some_ne_none _)
    · rename_i s1 h1
      rw [dispatchControl_legs_R E s1 s' h, modeChangeStep_control_log E s s1 h1]
  · intro s1 h1 hm
    have hsame := (modeChangeStep_sameSetup E s s1 h1).2.2.1
    unfold RunControl
    rw [h1]
    simp only [dispatchControl, hm, DoControl_Leg, hsame]

/-- C24, evaluated in Leg mode on the started engine: the control step on a
body-frame command for leg 1 completes, and completes in the same way when the
operator command also carries a robot-frame command for leg 2. -/
theorem legs_R_ignored_witness :
    (RunControl bench (legMode [{ leg_id := 1, power := true }])).isSome = true ∧
      RunControl bench
          (withLegsR [{ leg_id := 2, power := true }]
            (legMode [{ leg_id := 1, power := true }])) =
        (RunControl bench (legMode [{ leg_id := 1, power := true }])).map
          (withLegsR [{ leg_id := 2, power := true }]) :=
  ⟨by decide,
    (legs_R_ignored bench (legMode [{ leg_id := 1, power := true }])
      [{ leg_id := 2, power := true }]).1⟩

/-! ## The stand-up submachine -/

theorem Fault_status (E : Extern) (message : String) (s s' : Impl)
    (h : Fault E message s = some s') :
    s'.status_.mode = Mode.kFault ∧ s'.status_.fault = message ∧
      s'.status_.state = s.status_.state := by
  obtain ⟨t, ht, hst, _⟩ := Fault_ok E message s
  rw [h] at ht
  cases ht
  rw [hst]
  exact ⟨rfl, rfl, rfl⟩

/-- What the mode-change step does to the mode and the substate: it leaves both,
or it leaves the substate and moves to a mode other than StandUp, or it enters
StandUp with the substate reset to `kPrepositioning`. -/
theorem modeChangeStep_substate (E : Extern) (s s1 : Impl)
    (h : modeChangeStep E s = some s1) :
    (s1.status_.mode = s.status_.mode ∧
      s1.status_.state.stand_up = s.status_.state.stand_up) ∨
    (s1.status_.mode ≠ Mode.kStandUp ∧
      s1.status_.state.stand_up = s.status_.state.stand_up) ∨
    (s1.status_.mode = Mode.kStandUp ∧
      s1.status_.state.stand_up.mode = StandUpMode.kPrepositioning) := by
  have hstamp : ∀ (old : Mode) (t : Impl),
      (stampModeStart E old t).status_.mode = t.status_.mode ∧
      (stampModeStart E old t).status_.state = t.status_.state := by
    intro old t
    unfold stampModeStart
    split
    · exact ⟨rfl, rfl⟩
    · exact ⟨rfl, rfl⟩
  unfold modeChangeStep at h
  split at h
  · unfold MaybeChangeMode at h
    have hgo : ∀ (m : Mode), m ≠ Mode.kStandUp →
        (if s.status_.mode = Mode.kFault then some s
          else some (stampModeStart E s.status_.mode
            { s with status_ := { s.status_ with mode := m } })) = some s1 →
        (s1.status_.mode = s.status_.mode ∧
          s1.status_.state.stand_up = s.status_.state.stand_up) ∨
        (s1.status_.mode ≠ Mode.kStandUp ∧
          s1.status_.state.stand_up = s.status_.state.stand_up) ∨
        (s1.status_.mode = Mode.kStandUp ∧
          s1.status_.state.stand_up.mode = StandUpMode.kPrepositioning) := by
      intro m hm h
      split at h
      · simp only [Option.some.injEq] at h
        subst h
        exact Or.inl ⟨rfl, rfl⟩
      · simp only [Option.some.injEq] at h
        subst h
        right; left
        rw [(hstamp _ _).1, (hstamp _ _).2]
        exact ⟨hm, rfl⟩
    cases hcm : s.current_command_.mode <;> simp only [hcm] at h
    case kStopped =>
      simp only [Option.some.injEq] at h
      subst h
      right; left
      rw [(hstamp _ _).1, (hstamp _ _).2]
      exact ⟨by simp, rfl⟩
    case kFault => exact absurd h.symm (Option.some_ne_none _)
    case kZeroVelocity => exact hgo Mode.kZeroVelocity (by simp) h
    case kJoint => exact hgo Mode.kJoint (by simp) h
    case kLeg => exact hgo Mode.kLeg (by simp) h
    case kStandUp =>
      split at h
      · simp only [Option.some.injEq] at h
        subst h
        exact Or.inl ⟨rfl, rfl⟩
      · simp only [Option.some.injEq] at h
        subst h
        right; right
        rw [(hstamp _ _).1, (hstamp _ _).2]
        exact ⟨rfl, rfl⟩
    case kNumModes => exact absurd h.symm (Option.some_ne_none _)
  · simp only [Option.some.injEq] at h
    subst h
    exact Or.inl ⟨rfl, rfl⟩

theorem standUpAdvance_substate (E : Extern) (s s1 : Impl)
    (h : standUpAdvance E s = some s1) :
    s1 = s ∨
      (s.status_.state.stand_up.mode = StandUpMode.kPrepositioning ∧
        s1.status_.state.stand_up.mode = StandUpMode.kStanding) ∨
      (s.status_.state.stand_up.mode = StandUpMode.kStanding ∧
        s1.status_.state.stand_up.mode = StandUpMode.kDone) := by
  unfold standUpAdvance at h
  split at h
  · rename_i hsub
    split at h
    · exact absurd h.symm (Option.some_ne_none _)
    · split at h
      · simp only [Option.some.injEq] at h
        subst h
        exact Or.inr (Or.inl ⟨hsub, rfl⟩)
      · simp only [Option.some.injEq] at h
        exact Or.inl h.symm
  · rename_i hsub
    simp only at h
    split at h
    · simp only [Option.some.injEq] at h
      subst h
      exact Or.inr (Or.inr ⟨hsub, rfl⟩)
    · simp only [Option.some.injEq] at h
      exact Or.inl h.symm
  · simp only [Option.some.injEq] at h
    exact Or.inl h.symm

/-- The three ways the stand-up controller ends: the preposition commanded, with
the status untouched and the substate `kPrepositioning`; the fault "timeout", with
the substate untouched; or the fault "not implemented" of the standing stub, the
substate being past `kPrepositioning`, possibly advanced in this very call. -/
theorem DoControl_StandUp_substate (E : Extern) (s s' : Impl)
    (h : DoControl_StandUp E s = some s') :
    (s'.status_ = s.status_ ∧
      s.status_.state.stand_up.mode = StandUpMode.kPrepositioning) ∨
    (s'.status_.mode = Mode.kFault ∧ s'.status_.fault = "timeout" ∧
      s'.status_.state = s.status_.state) ∨
    (s'.status_.mode = Mode.kFault ∧ s'.status_.fault = "not implemented" ∧
      ((s'.status_.state.stand_up.mode = s.status_.state.stand_up.mode ∧
          s.status_.state.stand_up.mode ≠ StandUpMode.kPrepositioning) ∨
        (s.status_.state.stand_up.mode = StandUpMode.kPrepositioning ∧
          s'.status_.state.stand_up.mode = StandUpMode.kStanding) ∨
        (s.status_.state.stand_up.mode = StandUpMode.kStanding ∧
          s'.status_.state.stand_up.mode = StandUpMode.kDone))) := by
  unfold DoControl_StandUp at h
  simp only [Now] at h
  split at h
  · obtain ⟨hm, hf, hst⟩ :=
      Fault_status E "timeout" { s with now_calls_ := s.now_calls_ + 1 } s' h
    exact Or.inr (Or.inl ⟨hm, hf, hst⟩)
  · split at h
    · exact absurd h.symm (Option.some_ne_none _)
    · rename_i s1 hadv
      have hcases := standUpAdvance_substate E { s with now_calls_ := s.now_calls_ + 1 }
        s1 hadv
      split at h
      · rename_i hsub
        left
        rw [DoControl_StandUp_Prepositioning_eq] at h
        have hst := (ControlJoints_log E _ s1 s' h).2.1
        rcases hcases with heq | ⟨_, h2⟩ | ⟨_, h2⟩
        · subst heq
          exact ⟨hst, hsub⟩
        · rw [h2] at hsub
          exact absurd hsub (by simp)
        · rw [h2] at hsub
          exact absurd hsub (by simp)
      · rename_i hsub
        obtain ⟨hm, hf, hst⟩ := Fault_status E "not implemented" s1 s' h
        refine Or.inr (Or.inr ⟨hm, hf, ?_⟩)
        rcases hcases with heq | ⟨h1, h2⟩ | ⟨h1, h2⟩
        · subst heq
          left
          rw [hst]
          exact ⟨rfl, fun hp => StandUpMode.noConfusion (hsub.symm.trans hp)⟩
        · exact Or.inr (Or.inl ⟨h1, by rw [hst]; exact h2⟩)
        · exact Or.inr (Or.inr ⟨h1, by rw [hst]; exact h2⟩)
      · rename_i hsub
        obtain ⟨hm, hf, hst⟩ := Fault_status E "not implemented" s1 s' h
        refine Or.inr (Or.inr ⟨hm, hf, ?_⟩)
        rcases hcases with heq | ⟨h1, h2⟩ | ⟨h1, h2⟩
        · subst heq
          left
          rw [hst]
          exact ⟨rfl, fun hp => StandUpMode.noConfusion (hsub.symm.trans hp)⟩
        · exact Or.inr (Or.inl ⟨h1, by rw [hst]; exact h2⟩)
        · exact Or.inr (Or.inr ⟨h1, by rw [hst]; exact h2⟩)

theorem ControlLegs_B_status (E : Extern) (legs_B : List QCLeg) (s s' : Impl)
    (h : ControlLegs_B E legs_B s = some s') : s'.status_ = s.status_ := by
  unfold ControlLegs_B at h
  simp only at h
  split at h
  · exact absurd h.symm (Option.some_ne_none _)
  · exact (ControlJoints_log E _ _ s' h).2.1

/-- What the controller of a control step does to the status: outside StandUp
nothing, in StandUp what the stand-up controller does. -/
theorem dispatchControl_substate (E : Extern) (s s' : Impl)
    (h : dispatchControl E s = some s') :
    (s.status_.mode ≠ Mode.kStandUp ∧ s'.status_ = s.status_) ∨
      (s.status_.mode = Mode.kStandUp ∧ DoControl_StandUp E s = some s') := by
  unfold dispatchControl at h
  split at h
  · rename_i hm
    exact Or.inl ⟨by rw [hm]; simp, (ControlJoints_log E _ _ s' h).2.1⟩
  · rename_i hm
    exact Or.inl ⟨by rw [hm]; simp, (ControlJoints_log E _ _ s' h).2.1⟩
  · rename_i hm
    exact Or.inl ⟨by rw [hm]; simp, (ControlJoints_log E _ _ s' h).2.1⟩
  · rename_i hm
    exact Or.inl ⟨by rw [hm]; simp, (ControlJoints_log E _ _ s' h).2.1⟩
  · rename_i hm
    exact Or.inl ⟨by rw [hm]; simp, ControlLegs_B_status E _ _ s' h⟩
  · rename_i hm
    exact Or.inr ⟨hm, h⟩
  · exact absurd h.symm (Option.some_ne_none _)

/-- The mode-change step keeps the invariant of the stand-up submachine. -/
theorem modeChangeStep_invariant (E : Extern) (s s1 : Impl)
    (hinv : StandUpInvariant s) (h : modeChangeStep E s = some s1) :
    StandUpInvariant s1 := by
  obtain ⟨hd, hp⟩ := hinv
  rcases modeChangeStep_substate E s s1 h with ⟨hm, hs⟩ | ⟨hm, hs⟩ | ⟨hm, hs⟩
  · exact ⟨by rw [hs]; exact hd, fun h1 => by rw [hs]; exact hp (hm ▸ h1)⟩
  · exact ⟨by rw [hs]; exact hd, fun h1 => absurd h1 hm⟩
  · exact ⟨by rw [hs]; simp, fun _ => hs⟩

/-- The controller keeps the invariant of the stand-up submachine. -/
theorem dispatchControl_invariant (E : Extern) (s s' : Impl)
    (hinv : StandUpInvariant s) (h : dispatchControl E s = some s') :
    StandUpInvariant s' := by
  obtain ⟨hd, hp⟩ := hinv
  rcases dispatchControl_substate E s s' h with ⟨_, hst⟩ | ⟨hm, hsu⟩
  · rw [StandUpInvariant, hst]
    exact ⟨hd, hp⟩
  · have hpre := hp hm
    rcases DoControl_StandUp_substate E s s' hsu with
      ⟨hst, _⟩ | ⟨hmf, _, hst⟩ | ⟨hmf, _, hcase⟩
    · rw [StandUpInvariant, hst]
      exact ⟨hd, hp⟩
    · exact ⟨by rw [hst]; exact hd, fun h1 => by rw [hmf] at h1; exact absurd h1 (by simp)⟩
    · refine ⟨?_, fun h1 => by rw [hmf] at h1; exact absurd h1 (by simp)⟩
      rcases hcase with ⟨_, hne⟩ | ⟨_, h2⟩ | ⟨h1, _⟩
      · exact absurd hpre hne
      · rw [h2]; simp
      · rw [hpre] at h1
        exact absurd h1 (by simp)

/-- Every reachable state satisfies the invariant of the stand-up submachine. -/
theorem ControlReachable_invariant (E : Extern) (s : Impl)
    (h : ControlReachable E s) : StandUpInvariant s := by
  induction h with
  | fresh => exact ⟨by decide, fun _ => rfl⟩
  | control s s' _ hrun ih =>
    unfold RunControl at hrun
    split at hrun
    · exact absurd hrun.symm (Option.some_ne_none _)
    · rename_i s1 h1
      exact dispatchControl_invariant E s1 s' (modeChangeStep_invariant E s s1 ih h1) hrun
  | command s c _ ih => exact ih
  | other s s' _ hm hs ih =>
    obtain ⟨hd, hp⟩ := ih
    exact ⟨by rw [hs]; exact hd, fun h1 => by rw [hs]; exact hp (hm ▸ h1)⟩

/-- A controller run that moves the substate to `kStanding` ends in Fault with the
message of the standing stub. -/
theorem dispatchControl_standing (E : Extern) (s s' : Impl)
    (h : dispatchControl E s = some s')
    (hbefore : s.status_.state.stand_up.mode ≠ StandUpMode.kStanding)
    (hafter : s'.status_.state.stand_up.mode = StandUpMode.kStanding) :
    s'.status_.mode = Mode.kFault ∧ s'.status_.fault = "not implemented" := by
  rcases dispatchControl_substate E s s' h with ⟨_, hst⟩ | ⟨_, hsu⟩
  · rw [hst] at hafter
    exact absurd hafter hbefore
  · rcases DoControl_StandUp_substate E s s' hsu with
      ⟨hst, _⟩ | ⟨_, _, hst⟩ | ⟨hmf, hf, hcase⟩
    · rw [hst] at hafter
      exact absurd hafter hbefore
    · rw [hst] at hafter
      exact absurd hafter hbefore
    · rcases hcase with ⟨hsame, _⟩ | ⟨_, _⟩ | ⟨_, h2⟩
      · rw [hsame] at hafter
        exact absurd hafter hbefore
      · exact ⟨hmf, hf⟩
      · rw [h2] at hafter
        exact absurd hafter (by simp)

/-- C23. Reachable-state invariant of the stand-up submachine.  In every state
reachable from the engine as constructed by control steps, operator commands and
whatever else leaves the mode and the substate alone, the substate is never
`kDone` and is `kPrepositioning` whenever the mode is StandUp.  Of every control
step from such a state: when it ends with mode StandUp the substate is
`kPrepositioning`; it does not end with the substate `kDone`; and when it sets the
substate to `kStanding` (the substate is `kStanding` after the step and was not
before it, or was not after the mode-change step that may have reset it) it ends
in mode Fault in that same step, with the message "not implemented". -/
theorem standup_submachine (E : Extern) (s : Impl) (h : ControlReachable E s) :
    s.status_.state.stand_up.mode ≠ StandUpMode.kDone ∧
    (s.status_.mode = Mode.kStandUp →
      s.status_.state.stand_up.mode = StandUpMode.kPrepositioning) ∧
    ∀ s', RunControl E s = some s' →
      (s'.status_.mode = Mode.kStandUp →
        s'.status_.state.stand_up.mode = StandUpMode.kPrepositioning) ∧
      s'.status_.state.stand_up.mode ≠ StandUpMode.kDone ∧
      (s.status_.state.stand_up.mode ≠ StandUpMode.kStanding →
        s'.status_.state.stand_up.mode = StandUpMode.kStanding →
        s'.status_.mode = Mode.kFault ∧ s'.status_.fault = "not implemented") ∧
      ∃ s1, modeChangeStep E s = some s1 ∧ dispatchControl E s1 = some s' ∧
        (s1.status_.state.stand_up.mode ≠ StandUpMode.kStanding →
          s'.status_.state.stand_up.mode = StandUpMode.kStanding →
          s'.status_.mode = Mode.kFault ∧ s'.status_.fault = "not implemented") := by
  have hinv := ControlReachable_invariant E s h
  refine ⟨hinv.1, hinv.2, ?_⟩
  intro s' hrun
  have hinv' := ControlReachable_invariant E s' (ControlReachable.control s s' h hrun)
  refine ⟨hinv'.2, hinv'.1, ?_⟩
  unfold RunControl at hrun
  split at hrun
  · exact absurd hrun.symm (Option.some_ne_none _)
  · rename_i s1 h1
    refine ⟨?_, s1, h1, hrun, dispatchControl_standing E s1 s' hrun⟩
    intro hbefore hafter
    refine dispatchControl_standing E s1 s' hrun ?_ hafter
    rcases modeChangeStep_substate E s s1 h1 with ⟨_, hs⟩ | ⟨_, hs⟩ | ⟨_, hs⟩
    · rw [hs]; exact hbefore
    · rw [hs]; exact hbefore
    · rw [hs]; simp

/-- The controller of StandUp, run on a completed preposition before the timeout:
the substate moves to `kStanding`. -/
theorem dispatchControl_completes (E : Extern) (s : Impl)
    (hm : s.status_.mode = Mode.kStandUp)
    (hsub : s.status_.state.stand_up.mode = StandUpMode.kPrepositioning)
    (hgt : (E.ConvertDurationToSeconds (E.Now s.now_calls_ - s.status_.mode_start)).gt
      s.config_.stand_up.timeout_s = false)
    (hdone : CheckPrepositioning s = some true) :
    ∃ s', dispatchControl E s = some s' ∧
      s'.status_.state.stand_up.mode = StandUpMode.kStanding := by
  simp only [dispatchControl, hm]
  rw [DoControl_StandUp_done E s hgt hsub hdone]
  obtain ⟨s', h1, h2, _⟩ := Fault_ok E "not implemented"
    { s with
      now_calls_ := s.now_calls_ + 1,
      status_ := { s.status_ with state := { s.status_.state with
        stand_up := { s.status_.state.stand_up with mode := StandUpMode.kStanding } } } }
  exact ⟨s', h1, by rw [h2]⟩

theorem aboutToStand_step :
    ∃ s', RunControl bench aboutToStand = some s' ∧
      s'.status_.state.stand_up.mode = StandUpMode.kStanding := by
  have hmc : modeChangeStep bench aboutToStand =
      some { aboutToStand with
        status_ := { aboutToStand.status_ with mode := Mode.kStandUp, mode_start := 0 },
        now_calls_ := 1 } := by
    decide
  unfold RunControl
  rw [hmc]
  refine dispatchControl_completes bench _ rfl rfl ?_ checkPrepositioning_atPose
  norm_num [bench, aboutToStand, started, quadConfig, Dbl.gt]

/-- C23, evaluated on the started engine at rest with the joints at the stand-up
pose and the operator asking for StandUp: the control step enters StandUp, finds
the preposition complete, sets the substate to `kStanding` and ends in Fault. -/
theorem standup_submachine_witness :
    ControlReachable bench aboutToStand ∧
      ∃ s', RunControl bench aboutToStand = some s' ∧
        s'.status_.state.stand_up.mode = StandUpMode.kStanding ∧
        s'.status_.mode = Mode.kFault ∧ s'.status_.fault = "not implemented" :=
  ⟨ControlReachable.other {} aboutToStand ControlReachable.fresh rfl rfl,
    match aboutToStand_step with
    | ⟨s', h, hs⟩ =>
      ⟨s', h, hs,
        ((standup_submachine bench aboutToStand
          (ControlReachable.other {} aboutToStand ControlReachable.fresh rfl rfl)).2.2
            s' h).2.2.1 (by decide) hs⟩⟩

theorem HandleTimer_status (E : Extern) (ec : Bool) (s s' : Impl)
    (h : HandleTimer E ec s = some s') : s'.status_ = s.status_ := by
  unfold HandleTimer at h
  split at h
  · exact absurd h.symm (Option.some_ne_none _)
  · split at h
    · simp only [Option.some.injEq] at h; subst h; rfl
    · split at h
      · simp only [Option.some.injEq] at h; subst h; rfl
      · simp only [Now, AsyncRegister, emit] at h
        split at h
        · simp only [Option.some.injEq] at h; subst h; rfl
        · exact absurd h.symm (Option.some_ne_none _)

theorem HandleCommand_mode (E : Extern) (ec : Bool) (s s' : Impl)
    (h : HandleCommand E ec s = some s') :
    s'.status_.mode = s.status_.mode ∧ s'.status_.state = s.status_.state := by
  unfold HandleCommand at h
  split at h
  · exact absurd h.symm (Option.some_ne_none _)
  · simp only [Now, emit, Option.some.injEq] at h
    subst h
    exact ⟨rfl, rfl⟩

/-- A status completion, seen from the stand-up submachine: bookkeeping that
leaves the mode and the substate alone, around at most one control step. -/
theorem HandleStatus_controlReachable (E : Extern) (ec : Bool) (s s' : Impl)
    (hr : ControlReachable E s) (h : HandleStatus E ec s = some s') :
    ControlReachable E s' := by
  unfold HandleStatus at h
  split at h
  · exact absurd h.symm (Option.some_ne_none _)
  · simp only [Now] at h
    split at h
    · simp only [emit, Option.some.injEq] at h
      subst h
      exact ControlReachable.other s _ hr rfl rfl
    · split at h
      · exact absurd h.symm (Option.some_ne_none _)
      · rename_i u hu
        obtain ⟨_, _, _, _, hum, hus⟩ := UpdateStatus_decoded E _ u hu
        have hru : ControlReachable E { u with control_log_ := {} } :=
          ControlReachable.other s _ hr hum hus
        split at h
        · exact absurd h.symm (Option.some_ne_none _)
        · rename_i r hrun
          have hrr := ControlReachable.control _ r hru hrun
          split at h
          · simp only [AsyncRegister, emit] at h
            split at h
            · simp only [Option.some.injEq] at h
              subst h
              exact ControlReachable.other r _ hrr rfl rfl
            · exact absurd h.symm (Option.some_ne_none _)
          · obtain ⟨hm, hst⟩ := HandleCommand_mode E false _ s' h
            exact ControlReachable.other r s' hrr hm (by rw [hst])

/-- Every state the executor can reach between two handlers is reachable in the
sense of `ControlReachable`. -/
theorem Reachable_controlReachable (E : Extern) (s : Impl) (h : Reachable E s) :
    ControlReachable E s := by
  induction h with
  | fresh => exact ControlReachable.fresh
  | step s s' _ hstep ih =>
    cases hstep with
    | timer s' ec h =>
      exact ControlReachable.other s s' ih (by rw [HandleTimer_status E ec s s' h])
        (by rw [HandleTimer_status E ec s s' h])
    | statusDone s' ec reply _ h =>
      exact HandleStatus_controlReachable E ec
        { s with pending_ := s.pending_.erase BusOp.status, status_reply_ := reply } s'
        (ControlReachable.other s _ ih rfl rfl) h
    | commandDone s' ec reply _ h =>
      obtain ⟨hm, hst⟩ := HandleCommand_mode E ec _ s' h
      exact ControlReachable.other s s' ih hm (by rw [hst])
    | command c => exact ControlReachable.command s c ih
    | asyncStart s' config h =>
      unfold AsyncStart at h
      simp only at h
      split at h
      · exact absurd h.symm (Option.some_ne_none _)
      · simp only [Option.some.injEq] at h
        subst h
        exact ControlReachable.other s _ ih rfl rfl
    | setClient client => exact ControlReachable.other s _ ih rfl rfl

/-! ## Stand-up completion on whole-degree targets -/

end Quad
